import Mathlib

/-!
# UP Board CPLD configuration register: shallow embedding

Embedding of `drivers/platform/x86/up_board_cpld.c` and
`drivers/platform/x86/up_board_pinctrl.c`.

* C `u64` / `unsigned int` values are natural numbers, reduced modulo `2^64`
  / `2^32` where the C arithmetic truncates.
* The SoC GPIO lines driven by the CPLD driver are modelled by `Soc`: a log of
  every `gpiod_set_value` / `gpiod_get_value` / `pr_err` the driver performs,
  together with the sequence of levels that the data-out line will present to
  successive `gpiod_get_value` calls.
* The spin lock of `up_board_cpld_reg_set_bit` has no sequential content and is
  not modelled.
-/

namespace UpBoard

/-! ## Machine integers -/

/-- Conversion of a C `int` to `u64` (two's complement, as in `(u64)data_out`). -/
def u64 (x : Int) : Nat := (x % 2 ^ 64).toNat

/-- Conversion of a C `int` to `unsigned int`, as happens when an `int` offset is
passed to the `unsigned int offset` parameter of `reg_set_bit`. -/
def u32 (x : Int) : Nat := (x % 2 ^ 32).toNat

/-- The C error number `EIO`. -/
def EIO : Int := 5

/-! ## SoC signal lines -/

/-- The five SoC GPIO lines held by `struct up_board_cpld`. -/
inductive Line where
  | strobe_gpio
  | reset_gpio
  | data_in_gpio
  | data_out_gpio
  | oe_gpio
  deriving DecidableEq, Repr

/-- One observable action of the driver. -/
inductive Event where
  /-- The call `gpiod_set_value(line, v)`. -/
  | set_value (l : Line) (v : Nat)
  /-- The call `gpiod_get_value(line)` together with the level it returned. -/
  | get_value (l : Line) (v : Int)
  /-- The message `pr_err("CPLD verify error (expected: .., actual: ..)")`. -/
  | pr_err (expected actual : Nat)
  deriving DecidableEq, Repr

/-- State of the SoC side of the CPLD interface.  `data_out k` is the level
returned by the `k`-th `gpiod_get_value` on the data-out line, `nread` counts
the reads made so far and `log` lists every action so far, oldest first. -/
structure Soc where
  data_out : Nat → Int
  nread : Nat
  log : List Event

/-- The call `gpiod_set_value(l, v)`. -/
def gpiod_set_value (s : Soc) (l : Line) (v : Nat) : Soc :=
  { s with log := s.log ++ [Event.set_value l v] }

/-- The call `gpiod_get_value(l)`: returns the level and the new SoC state. -/
def gpiod_get_value (s : Soc) (l : Line) : Int × Soc :=
  (s.data_out s.nread,
   { s with nread := s.nread + 1,
            log := s.log ++ [Event.get_value l (s.data_out s.nread)] })

/-! ## `up_board_cpld.c` -/

/-- Initial configuration assumes all pins as GPIO inputs. -/
def CPLD_DIR_REG_INIT : Nat := 0x00FFFFFFF

/-- The fields of `struct up_board_cpld` that the register code uses. -/
structure up_board_cpld where
  dir_reg : Nat
  dir_reg_size : Nat
  soc : Soc

/-- Write loop of `cpld_reg_update`: `for (i = n - 1; i >= 0; i--)` driving
strobe low, data-in to `(dir_reg >> i) & 1`, strobe high. -/
def cpld_write_loop (dir_reg : Nat) : Nat → Soc → Soc
  | 0, s => s
  | i + 1, s =>
    let s1 := gpiod_set_value s Line.strobe_gpio 0
    let s2 := gpiod_set_value s1 Line.data_in_gpio ((dir_reg >>> i) &&& 0x1)
    let s3 := gpiod_set_value s2 Line.strobe_gpio 1
    cpld_write_loop dir_reg i s3

/-- Read-back loop of `cpld_reg_update`: `for (i = n - 1; i >= 0; i--)` pulsing
strobe low then high, sampling data-out and accumulating
`dir_reg_verify |= (u64)data_out << i`. -/
def cpld_verify_loop : Nat → Nat → Soc → Nat × Soc
  | 0, dir_reg_verify, s => (dir_reg_verify, s)
  | i + 1, dir_reg_verify, s =>
    let s1 := gpiod_set_value s Line.strobe_gpio 0
    let s2 := gpiod_set_value s1 Line.strobe_gpio 1
    let r := gpiod_get_value s2 Line.data_out_gpio
    cpld_verify_loop i (dir_reg_verify ||| (u64 r.1 <<< i) % 2 ^ 64) r.2

/-- The function `cpld_reg_update`: returns the C return value and the new
driver state. -/
def cpld_reg_update (cpld : up_board_cpld) : Int × up_board_cpld :=
  let s1 := gpiod_set_value cpld.soc Line.reset_gpio 0
  let s2 := gpiod_set_value s1 Line.reset_gpio 1
  let s3 := cpld_write_loop cpld.dir_reg cpld.dir_reg_size s2
  let v := cpld_verify_loop cpld.dir_reg_size 0 s3
  if v.1 ≠ cpld.dir_reg then
    (- EIO, { cpld with soc := { v.2 with log := v.2.log ++ [Event.pr_err cpld.dir_reg v.1] } })
  else
    let s4 := gpiod_set_value v.2 Line.strobe_gpio 0
    let s5 := gpiod_set_value s4 Line.strobe_gpio 1
    (0, { cpld with soc := s5 })

/-- The function `up_board_cpld_reg_set_bit`.  For `offset < 64` the C
expression `1ULL << offset` is `2 ^ offset`; C leaves larger shifts undefined
and the embedding then takes the truncated value `2 ^ offset % 2 ^ 64`. -/
def up_board_cpld_reg_set_bit (cpld : up_board_cpld) (offset : Nat) (value : Int) :
    Int × up_board_cpld :=
  let old_regval := cpld.dir_reg
  let mask := (1 <<< offset) % 2 ^ 64
  let cpld1 : up_board_cpld :=
    { cpld with dir_reg := if value ≠ 0 then cpld.dir_reg ||| mask
                           else cpld.dir_reg &&& (2 ^ 64 - 1 - mask) }
  if cpld1.dir_reg ≠ old_regval then cpld_reg_update cpld1 else (0, cpld1)

/-- Initial contents of the static `up_board_cpld`, for a given SoC state. -/
def up_board_cpld_init (soc : Soc) : up_board_cpld :=
  { dir_reg := CPLD_DIR_REG_INIT, dir_reg_size := 34, soc := soc }

/-- Value held by the local variable `dir_reg_verify` of `cpld_reg_update` when
its read-back loop ends, i.e. the value compared with `cpld->dir_reg`. -/
def dir_reg_verify (cpld : up_board_cpld) : Nat :=
  (cpld_verify_loop cpld.dir_reg_size 0
    (cpld_write_loop cpld.dir_reg cpld.dir_reg_size
      (gpiod_set_value (gpiod_set_value cpld.soc Line.reset_gpio 0) Line.reset_gpio 1))).1

/-- The value `up_board_cpld_reg_set_bit` assigns to `cpld->dir_reg` before it
compares with `old_regval`. -/
def new_dir_reg (R B : Nat) (V : Int) : Nat :=
  if V ≠ 0 then R ||| (1 <<< B) % 2 ^ 64 else R &&& (2 ^ 64 - 1 - (1 <<< B) % 2 ^ 64)

/-! ## `up_board_pinctrl.h` -/

def UP_BOARD_PDIR_NONE : Int := -1
def UP_BOARD_PDIR_OUT : Int := 0
def UP_BOARD_PDIR_IN : Int := 1

def UP_BOARD_PMUX_GPIO : Int := 0
def UP_BOARD_PMUX_FUNC : Int := 1

def UP_BOARD_UNASSIGNED : Int := -1

/-- The C `struct up_board_pin_info`. -/
structure up_board_pin_info where
  dir_ctrl_offset : Int
  mux_ctrl_offset : Int
  func_dir : Int
  func_enabled : Bool
  deriving DecidableEq, Repr

/-- The fields of `struct up_board_pinctrl_pdata` used by the pinmux operations.
`cpld` and `reg_set_bit` are the two members of its `cpld_info`: an opaque
handle of type `σ` to the CPLD state and the callback that updates a register
bit through it.  A group is the list of its pin indices. -/
structure up_board_pinctrl_pdata (σ : Type) where
  cpld : σ
  reg_set_bit : σ → Nat → Int → Int × σ
  pins : List up_board_pin_info
  groups : List (List Nat)

/-- The array access `pdata->pins[offset]`.  C leaves an index past the end of
the array undefined; the embedding then yields a pin with no direction and no
mux control. -/
def pin_at (pins : List up_board_pin_info) (offset : Nat) : up_board_pin_info :=
  pins.getD offset
    { dir_ctrl_offset := UP_BOARD_UNASSIGNED, mux_ctrl_offset := UP_BOARD_UNASSIGNED,
      func_dir := UP_BOARD_PDIR_NONE, func_enabled := false }

/-- The call `cpld_info->reg_set_bit(cpld_info->cpld, offset, value)`; the `int`
offset of the pin table is converted to the `unsigned int` parameter. -/
def reg_set_bit_call {σ : Type} (pdata : up_board_pinctrl_pdata σ) (offset : Int) (value : Int) :
    Int × up_board_pinctrl_pdata σ :=
  let r := pdata.reg_set_bit pdata.cpld (u32 offset) value
  (r.1, { pdata with cpld := r.2 })

/-! ## `up_board_pinctrl.c` -/

/-- Body of the `for` loop of `up_pinmux_set_mux` for the pin index `offset`:
a non-zero first component is the value the function returns from inside the
loop. -/
def up_pinmux_set_mux_pin {σ : Type} (pdata : up_board_pinctrl_pdata σ) (offset : Nat) :
    Int × up_board_pinctrl_pdata σ :=
  let pin := pin_at pdata.pins offset
  let r1 :=
    if pin.func_dir ≠ UP_BOARD_PDIR_NONE then
      reg_set_bit_call pdata pin.dir_ctrl_offset pin.func_dir
    else (0, pdata)
  if r1.1 ≠ 0 then r1
  else
    let r2 :=
      if pin.mux_ctrl_offset ≠ UP_BOARD_UNASSIGNED then
        reg_set_bit_call r1.2 pin.mux_ctrl_offset UP_BOARD_PMUX_FUNC
      else (0, r1.2)
    if r2.1 ≠ 0 then r2
    else
      (0, { r2.2 with
        pins := r2.2.pins.set offset { pin_at r2.2.pins offset with func_enabled := true } })

/-- The `for (i = 0; i < grp->npin; i++)` loop of `up_pinmux_set_mux` over the
pin indices still to be processed. -/
def up_pinmux_set_mux_loop {σ : Type} :
    List Nat → up_board_pinctrl_pdata σ → Int × up_board_pinctrl_pdata σ
  | [], pdata => (0, pdata)
  | offset :: rest, pdata =>
    let r := up_pinmux_set_mux_pin pdata offset
    if r.1 ≠ 0 then r else up_pinmux_set_mux_loop rest r.2

/-- The function `up_pinmux_set_mux`; as in C, the `function` selector is not
used.  A group index past the end of the group table is undefined in C and is
taken as an empty group. -/
def up_pinmux_set_mux {σ : Type} (pdata : up_board_pinctrl_pdata σ)
    (_function group : Nat) : Int × up_board_pinctrl_pdata σ :=
  up_pinmux_set_mux_loop (pdata.groups.getD group []) pdata

/-! ## The static tables of `up_board_cpld.c` -/

def GPIO_PIN_INFO (d m f : Int) : up_board_pin_info :=
  { dir_ctrl_offset := d, mux_ctrl_offset := m, func_dir := f, func_enabled := false }

def GPIO_PIN_INFO_NO_MUX (d f : Int) : up_board_pin_info :=
  GPIO_PIN_INFO d UP_BOARD_UNASSIGNED f

/-- Pin control information for the 28 GPIO pins on the UP Board I/O header. -/
def up_board_pins : List up_board_pin_info :=
  [ GPIO_PIN_INFO 9 28 UP_BOARD_PDIR_OUT,
    GPIO_PIN_INFO 23 28 UP_BOARD_PDIR_OUT,
    GPIO_PIN_INFO 0 29 UP_BOARD_PDIR_OUT,
    GPIO_PIN_INFO 1 29 UP_BOARD_PDIR_OUT,
    GPIO_PIN_INFO 2 30 UP_BOARD_PDIR_IN,
    GPIO_PIN_INFO_NO_MUX 10 UP_BOARD_PDIR_NONE,
    GPIO_PIN_INFO_NO_MUX 11 UP_BOARD_PDIR_NONE,
    GPIO_PIN_INFO_NO_MUX 22 UP_BOARD_PDIR_NONE,
    GPIO_PIN_INFO_NO_MUX 21 UP_BOARD_PDIR_OUT,
    GPIO_PIN_INFO_NO_MUX 7 UP_BOARD_PDIR_IN,
    GPIO_PIN_INFO_NO_MUX 6 UP_BOARD_PDIR_OUT,
    GPIO_PIN_INFO_NO_MUX 8 UP_BOARD_PDIR_OUT,
    GPIO_PIN_INFO_NO_MUX 24 UP_BOARD_PDIR_OUT,
    GPIO_PIN_INFO_NO_MUX 12 UP_BOARD_PDIR_OUT,
    GPIO_PIN_INFO_NO_MUX 15 UP_BOARD_PDIR_OUT,
    GPIO_PIN_INFO_NO_MUX 16 UP_BOARD_PDIR_IN,
    GPIO_PIN_INFO_NO_MUX 25 UP_BOARD_PDIR_IN,
    GPIO_PIN_INFO_NO_MUX 3 UP_BOARD_PDIR_OUT,
    GPIO_PIN_INFO_NO_MUX 17 UP_BOARD_PDIR_OUT,
    GPIO_PIN_INFO_NO_MUX 13 UP_BOARD_PDIR_OUT,
    GPIO_PIN_INFO_NO_MUX 26 UP_BOARD_PDIR_IN,
    GPIO_PIN_INFO_NO_MUX 27 UP_BOARD_PDIR_OUT,
    GPIO_PIN_INFO_NO_MUX 5 UP_BOARD_PDIR_OUT,
    GPIO_PIN_INFO_NO_MUX 18 UP_BOARD_PDIR_OUT,
    GPIO_PIN_INFO_NO_MUX 19 UP_BOARD_PDIR_OUT,
    GPIO_PIN_INFO_NO_MUX 20 UP_BOARD_PDIR_OUT,
    GPIO_PIN_INFO_NO_MUX 14 UP_BOARD_PDIR_OUT,
    GPIO_PIN_INFO_NO_MUX 4 UP_BOARD_PDIR_OUT ]

def uart1_pins : List Nat := [14, 15, 16, 17]
def uart2_pins : List Nat := [25, 27]
def i2c0_pins : List Nat := [0, 1]
def i2c1_pins : List Nat := [2, 3]
def spi2_pins : List Nat := [8, 9, 10, 11]
def i2s2_pins : List Nat := [18, 19, 20, 21]
def pwm0_pins : List Nat := [12]
def pwm1_pins : List Nat := [13]
def adc0_pins : List Nat := [4]

/-- The group table `up_board_pinctrl_groups` (group names omitted). -/
def up_board_pinctrl_groups : List (List Nat) :=
  [uart1_pins, uart2_pins, i2c0_pins, i2c1_pins, spi2_pins, i2s2_pins,
   pwm0_pins, pwm1_pins, adc0_pins]

/-- The pin table with its `func_enabled` flags replaced by `en i`, for the
entries of `pins` numbered from `i` on: an arbitrary run-time state of the
table. -/
def with_func_enabled (en : Nat → Bool) : Nat → List up_board_pin_info → List up_board_pin_info
  | _, [] => []
  | i, p :: ps => { p with func_enabled := en i } :: with_func_enabled en (i + 1) ps

/-- The platform data `up_board_pinctrl_pdata` of the board: the CPLD state
`cpld` reached through `up_board_cpld_reg_set_bit`, the shipped pin table with
`func_enabled` flags `en`, and the shipped group table. -/
def up_board_pinctrl_pdata_of (cpld : up_board_cpld) (en : Nat → Bool) :
    up_board_pinctrl_pdata up_board_cpld :=
  { cpld := cpld, reg_set_bit := up_board_cpld_reg_set_bit,
    pins := with_func_enabled en 0 up_board_pins, groups := up_board_pinctrl_groups }

/-! ## Observation of `reg_set_bit` calls -/

/-- One recorded call of `reg_set_bit`: offset, value and returned result. -/
structure reg_set_bit_record where
  offset : Nat
  value : Int
  ret : Int
  deriving DecidableEq, Repr

/-- Wraps a `reg_set_bit` callback so that every call is appended, with its
result, to a list carried next to the CPLD handle. -/
def recording {σ : Type} (f : σ → Nat → Int → Int × σ) :
    σ × List reg_set_bit_record → Nat → Int → Int × (σ × List reg_set_bit_record) :=
  fun s offset value =>
    ((f s.1 offset value).1,
     ((f s.1 offset value).2, s.2 ++ [{ offset := offset, value := value, ret := (f s.1 offset value).1 }]))

/-- The platform data `pdata` with its callback wrapped by `recording`, starting
from the call list `calls`. -/
def with_recording {σ : Type} (pdata : up_board_pinctrl_pdata σ) (calls : List reg_set_bit_record) :
    up_board_pinctrl_pdata (σ × List reg_set_bit_record) :=
  { cpld := (pdata.cpld, calls), reg_set_bit := recording pdata.reg_set_bit,
    pins := pdata.pins, groups := pdata.groups }

/-! ## `up_board_pinctrl.c`: the GPIO operations of the pinmux -/

/-- The function `up_gpio_set_direction`. -/
def up_gpio_set_direction {σ : Type} (pdata : up_board_pinctrl_pdata σ) (offset : Nat)
    (input : Bool) : Int × up_board_pinctrl_pdata σ :=
  let pin := pin_at pdata.pins offset
  let dir := if input then UP_BOARD_PDIR_IN else UP_BOARD_PDIR_OUT
  reg_set_bit_call pdata pin.dir_ctrl_offset dir

/-- The function `up_gpio_request_enable`. -/
def up_gpio_request_enable {σ : Type} (pdata : up_board_pinctrl_pdata σ) (offset : Nat) :
    Int × up_board_pinctrl_pdata σ :=
  let pin := pin_at pdata.pins offset
  if pin.mux_ctrl_offset ≠ UP_BOARD_UNASSIGNED then
    let r := reg_set_bit_call pdata pin.mux_ctrl_offset UP_BOARD_PMUX_GPIO
    if r.1 ≠ 0 then r else (0, r.2)
  else (0, pdata)

/-- The function `up_gpio_disable_free`; it returns `void`, so only the new
state is produced and the results of the two `reg_set_bit` calls are dropped. -/
def up_gpio_disable_free {σ : Type} (pdata : up_board_pinctrl_pdata σ) (offset : Nat) :
    up_board_pinctrl_pdata σ :=
  let pin := pin_at pdata.pins offset
  if pin.func_enabled = true then
    let pdata1 :=
      if pin.func_dir ≠ UP_BOARD_PDIR_NONE then
        (reg_set_bit_call pdata pin.dir_ctrl_offset pin.func_dir).2
      else pdata
    if pin.mux_ctrl_offset ≠ UP_BOARD_UNASSIGNED then
      (reg_set_bit_call pdata1 pin.mux_ctrl_offset UP_BOARD_PMUX_FUNC).2
    else pdata1
  else pdata

/-! ## `up_board_gpio.c` -/

/-- One call made by `up_board_gpio.c` into the kernel for the header pin
`offset`, with the value it returned where it returns one. -/
inductive gpio_call where
  | gpiod_direction_input (offset : Nat) (ret : Int)
  | gpiod_direction_output (offset : Nat) (value : Int) (ret : Int)
  | gpiod_get_direction (offset : Nat) (ret : Int)
  | gpio_request (offset : Nat) (ret : Int)
  | gpio_free (offset : Nat)
  | pinctrl_request_gpio (offset : Nat) (ret : Int)
  | pinctrl_free_gpio (offset : Nat)
  | pinctrl_gpio_direction_input (offset : Nat) (ret : Int)
  | pinctrl_gpio_direction_output (offset : Nat) (ret : Int)
  deriving DecidableEq, Repr

/-- The kernel state seen by `up_board_gpio.c`: the platform data of the
pinctrl device, the results `soc_ret k` that the SoC GPIO layer gives to its
`k`-th call, the number `nsoc` of such calls so far, and the list `calls` of
all kernel calls made so far, oldest first. -/
structure gpio_kernel (σ : Type) where
  pdata : up_board_pinctrl_pdata σ
  soc_ret : Nat → Int
  nsoc : Nat
  calls : List gpio_call

/-- Modelled from the spec: the SoC-level pin layer (section 6, "Underlying
SoC-level digital pin access"), which is kernel code outside the repository.
A call on the SoC pin of a header pin returns the next result of `soc_ret` and
is logged through `mk`; it does not touch the CPLD. -/
def soc_gpio_call {σ : Type} (k : gpio_kernel σ) (mk : Int → gpio_call) : Int × gpio_kernel σ :=
  (k.soc_ret k.nsoc,
   { k with nsoc := k.nsoc + 1, calls := k.calls ++ [mk (k.soc_ret k.nsoc)] })

/-- Modelled from the spec: `gpiod_direction_input(gpio->soc_gpiod)`. -/
def gpiod_direction_input {σ : Type} (k : gpio_kernel σ) (offset : Nat) : Int × gpio_kernel σ :=
  soc_gpio_call k (gpio_call.gpiod_direction_input offset)

/-- Modelled from the spec: `gpiod_direction_output(gpio->soc_gpiod, value)`. -/
def gpiod_direction_output {σ : Type} (k : gpio_kernel σ) (offset : Nat) (value : Int) :
    Int × gpio_kernel σ :=
  soc_gpio_call k (gpio_call.gpiod_direction_output offset value)

/-- Modelled from the spec: `gpiod_get_direction(gpio->soc_gpiod)`. -/
def gpiod_get_direction {σ : Type} (k : gpio_kernel σ) (offset : Nat) : Int × gpio_kernel σ :=
  soc_gpio_call k (gpio_call.gpiod_get_direction offset)

/-- Modelled from the spec: `gpio_request(gpio->soc_gpio, gc->label)`. -/
def gpio_request {σ : Type} (k : gpio_kernel σ) (offset : Nat) : Int × gpio_kernel σ :=
  soc_gpio_call k (gpio_call.gpio_request offset)

/-- Modelled from the spec: `gpio_free(gpio->soc_gpio)`, which returns `void`. -/
def gpio_free {σ : Type} (k : gpio_kernel σ) (offset : Nat) : gpio_kernel σ :=
  { k with calls := k.calls ++ [gpio_call.gpio_free offset] }

/-- Modelled from the spec: `pinctrl_request_gpio(gc->base + offset)`, the
pin-multiplexing framework (section 6) handing the GPIO claim of pin `offset`
to the `gpio_request_enable` callback of the driver. -/
def pinctrl_request_gpio {σ : Type} (k : gpio_kernel σ) (offset : Nat) : Int × gpio_kernel σ :=
  let r := up_gpio_request_enable k.pdata offset
  (r.1, { k with pdata := r.2, calls := k.calls ++ [gpio_call.pinctrl_request_gpio offset r.1] })

/-- Modelled from the spec: `pinctrl_free_gpio(gc->base + offset)`, the
framework handing the release of pin `offset` to the `gpio_disable_free`
callback of the driver. -/
def pinctrl_free_gpio {σ : Type} (k : gpio_kernel σ) (offset : Nat) : gpio_kernel σ :=
  { k with pdata := up_gpio_disable_free k.pdata offset,
           calls := k.calls ++ [gpio_call.pinctrl_free_gpio offset] }

/-- Modelled from the spec: `pinctrl_gpio_direction_input(gc->base + offset)`,
the framework calling the `gpio_set_direction` callback with `input = true`. -/
def pinctrl_gpio_direction_input {σ : Type} (k : gpio_kernel σ) (offset : Nat) :
    Int × gpio_kernel σ :=
  let r := up_gpio_set_direction k.pdata offset true
  (r.1, { k with pdata := r.2,
                 calls := k.calls ++ [gpio_call.pinctrl_gpio_direction_input offset r.1] })

/-- Modelled from the spec: `pinctrl_gpio_direction_output(gc->base + offset)`,
the framework calling the `gpio_set_direction` callback with `input = false`. -/
def pinctrl_gpio_direction_output {σ : Type} (k : gpio_kernel σ) (offset : Nat) :
    Int × gpio_kernel σ :=
  let r := up_gpio_set_direction k.pdata offset false
  (r.1, { k with pdata := r.2,
                 calls := k.calls ++ [gpio_call.pinctrl_gpio_direction_output offset r.1] })

/-- The function `up_gpio_dir_in`. -/
def up_gpio_dir_in {σ : Type} (k : gpio_kernel σ) (offset : Nat) : Int × gpio_kernel σ :=
  let r := gpiod_direction_input k offset
  if r.1 ≠ 0 then r else pinctrl_gpio_direction_input r.2 offset

/-- The function `up_gpio_dir_out`. -/
def up_gpio_dir_out {σ : Type} (k : gpio_kernel σ) (offset : Nat) (value : Int) :
    Int × gpio_kernel σ :=
  let r := pinctrl_gpio_direction_output k offset
  if r.1 ≠ 0 then r else gpiod_direction_output r.2 offset value

/-- The function `up_gpio_request`. -/
def up_gpio_request {σ : Type} (k : gpio_kernel σ) (offset : Nat) : Int × gpio_kernel σ :=
  let r := pinctrl_request_gpio k offset
  if r.1 ≠ 0 then r
  else
    let d := gpiod_get_direction r.2 offset
    let r2 :=
      if d.1 ≠ 0 then pinctrl_gpio_direction_input d.2 offset
      else pinctrl_gpio_direction_output d.2 offset
    if r2.1 ≠ 0 then r2 else gpio_request r2.2 offset

/-- The function `up_gpio_free`. -/
def up_gpio_free {σ : Type} (k : gpio_kernel σ) (offset : Nat) : gpio_kernel σ :=
  gpio_free (pinctrl_free_gpio k offset) offset

/-- A kernel state over the shipped board: CPLD state `cpld`, pin flags `en`,
SoC results `soc_ret`, nothing called yet. -/
def gpio_kernel_of (cpld : up_board_cpld) (en : Nat → Bool) (soc_ret : Nat → Int) :
    gpio_kernel up_board_cpld :=
  { pdata := up_board_pinctrl_pdata_of cpld en, soc_ret := soc_ret, nsoc := 0, calls := [] }

/-! ## `up_board_leds.c` -/

/-- The value `LED_OFF` of `enum led_brightness`. -/
def LED_OFF : Int := 0

/-- The C `struct up_board_led_info` (name omitted). -/
structure up_board_led_info where
  cpld_offset : Nat
  deriving DecidableEq, Repr

/-- The CPLD controls the following 3 LEDs on the UP board. -/
def up_board_leds : List up_board_led_info :=
  [{ cpld_offset := 31 }, { cpld_offset := 32 }, { cpld_offset := 33 }]

/-- The fields of `struct up_board_leds_pdata`; `cpld` and `reg_set_bit` are the
two members of its `cpld_info`. -/
structure up_board_leds_pdata (σ : Type) where
  cpld : σ
  reg_set_bit : σ → Nat → Int → Int × σ
  leds : List up_board_led_info

/-- The field `offset` of `struct up_board_led`. -/
structure up_board_led where
  offset : Nat
  deriving DecidableEq, Repr

/-- The LED contexts built by the loop of `up_board_leds_probe`, which sets
`up_led->offset = led_info->cpld_offset` for each entry of `pdata->leds`. -/
def up_board_leds_probe {σ : Type} (pdata : up_board_leds_pdata σ) : List up_board_led :=
  pdata.leds.map fun led_info => { offset := led_info.cpld_offset }

/-- The function `up_led_brightness_set`; it returns `void`, so the result of
`reg_set_bit` is dropped.  The C value of `value != LED_OFF` is 1 or 0. -/
def up_led_brightness_set {σ : Type} (pdata : up_board_leds_pdata σ) (led : up_board_led)
    (value : Int) : up_board_leds_pdata σ :=
  { pdata with
    cpld := (pdata.reg_set_bit pdata.cpld led.offset (if value ≠ LED_OFF then 1 else 0)).2 }

/-- The platform data `up_board_leds_pdata` of the board over the CPLD state
`cpld`. -/
def up_board_leds_pdata_of (cpld : up_board_cpld) : up_board_leds_pdata up_board_cpld :=
  { cpld := cpld, reg_set_bit := up_board_cpld_reg_set_bit, leds := up_board_leds }

/-- The LED platform data `pdata` with its callback wrapped by `recording`,
starting from the call list `calls`. -/
def leds_with_recording {σ : Type} (pdata : up_board_leds_pdata σ)
    (calls : List reg_set_bit_record) : up_board_leds_pdata (σ × List reg_set_bit_record) :=
  { cpld := (pdata.cpld, calls), reg_set_bit := recording pdata.reg_set_bit, leds := pdata.leds }

/-! ## Vocabulary for the pinmux statements -/

/-- Two pin entries with the same static fields (everything but `func_enabled`). -/
def same_layout (p q : up_board_pin_info) : Prop :=
  p.dir_ctrl_offset = q.dir_ctrl_offset ∧ p.mux_ctrl_offset = q.mux_ctrl_offset
    ∧ p.func_dir = q.func_dir

instance (p q : up_board_pin_info) : Decidable (same_layout p q) := by
  unfold same_layout
  exact inferInstance

/-- The register value left by one successful iteration of the loop of
`up_pinmux_set_mux` for the pin entry `pin`, starting from the value `R`. -/
def pin_reg (pin : up_board_pin_info) (R : Nat) : Nat :=
  let R1 := if pin.func_dir ≠ UP_BOARD_PDIR_NONE
    then new_dir_reg R (u32 pin.dir_ctrl_offset) pin.func_dir else R
  if pin.mux_ctrl_offset ≠ UP_BOARD_UNASSIGNED
    then new_dir_reg R1 (u32 pin.mux_ctrl_offset) UP_BOARD_PMUX_FUNC else R1

/-- The register value left by a successful `up_pinmux_set_mux` over the pin
indices `l`, for the pin layout `L`. -/
def group_reg (L : Nat → up_board_pin_info) : List Nat → Nat → Nat
  | [], R => R
  | o :: rest, R => group_reg L rest (pin_reg (L o) R)

/-- Layout conditions on the pins of a group: each has function-direction OUT
or IN, a direction-control offset in `0..27`, and a mux-control offset that is
unassigned or in `28..63`; pins sharing a direction-control offset agree on
the function-direction. -/
def group_ok (L : Nat → up_board_pin_info) (l : List Nat) : Prop :=
  (∀ p ∈ l, ((L p).func_dir = UP_BOARD_PDIR_OUT ∨ (L p).func_dir = UP_BOARD_PDIR_IN)
      ∧ 0 ≤ (L p).dir_ctrl_offset ∧ (L p).dir_ctrl_offset < 28
      ∧ ((L p).mux_ctrl_offset = UP_BOARD_UNASSIGNED
          ∨ (28 ≤ (L p).mux_ctrl_offset ∧ (L p).mux_ctrl_offset < 64)))
  ∧ (∀ p ∈ l, ∀ q ∈ l, (L p).dir_ctrl_offset = (L q).dir_ctrl_offset →
      (L p).func_dir = (L q).func_dir)

instance (L : Nat → up_board_pin_info) (l : List Nat) : Decidable (group_ok L l) := by
  unfold group_ok
  exact inferInstance

/-- Number of verification failures reported in a log. -/
def verify_errors (log : List Event) : Nat :=
  (log.filter fun e => match e with
    | Event.pr_err _ _ => true
    | _ => false).length

/-! ## Hardware used in the examples -/

/-- A SoC whose data-out line reads 0 at every sample; nothing logged yet. -/
def soc_stuck_low : Soc := { data_out := fun _ => 0, nread := 0, log := [] }

/-- A SoC whose data-out line presents, most significant bit first, the 34 low
bits of `reg`, over and over; nothing logged yet. -/
def soc_echo (reg : Nat) : Soc :=
  { data_out := fun k => if reg.testBit (33 - k % 34) then 1 else 0, nread := 0, log := [] }

/-- A SoC whose data-out line presents, most significant bit first, the 34 low
bits of `reg` during the first 34 samples and reads 0 ever after. -/
def soc_echo_once (reg : Nat) : Soc :=
  { data_out := fun k => if k < 34 then (if reg.testBit (33 - k) then 1 else 0) else 0,
    nread := 0, log := [] }

/-! ## Protocol vocabulary used by the statements -/

/-- Number of shift cycles recorded in a log.  `cpld_reg_update` drives the
reset line low exactly once, as its first action, and no other code of the
driver drives it, so the reset-low actions count its invocations. -/
def shift_cycles (log : List Event) : Nat :=
  log.count (Event.set_value Line.reset_gpio 0)

/-- Spec 4.1 step 1: the reset line pulsed low then high. -/
def spec_reset_pulse : List Event :=
  [Event.set_value Line.reset_gpio 0, Event.set_value Line.reset_gpio 1]

/-- Spec 4.1 step 2 for an `n`-bit register holding `reg`: for `k = 0..n-1`
strobe low, data-in set to bit `n-1-k` of `reg`, strobe high. -/
def spec_write_phase (reg n : Nat) : List Event :=
  (List.range n).flatMap fun k =>
    [Event.set_value Line.strobe_gpio 0,
     Event.set_value Line.data_in_gpio (if reg.testBit (n - 1 - k) then 1 else 0),
     Event.set_value Line.strobe_gpio 1]

/-- Spec 4.1 step 3 for an `n`-bit register: for `k = 0..n-1` strobe low, strobe
high, then one sample of data-out; `sample k` is the level of the `k`-th
sample. -/
def spec_verify_phase (sample : Nat → Int) (n : Nat) : List Event :=
  (List.range n).flatMap fun k =>
    [Event.set_value Line.strobe_gpio 0,
     Event.set_value Line.strobe_gpio 1,
     Event.get_value Line.data_out_gpio (sample k)]

/-- Spec 4.1 step 5: one strobe low-then-high pulse. -/
def spec_latch_pulse : List Event :=
  [Event.set_value Line.strobe_gpio 0, Event.set_value Line.strobe_gpio 1]

/-- The levels driven on the data-in line, in order, in a list of actions. -/
def data_in_levels (log : List Event) : List Nat :=
  log.filterMap fun e =>
    match e with
    | Event.set_value Line.data_in_gpio v => some v
    | _ => none

/-- Number of times a log drives the strobe line high. -/
def strobe_highs (log : List Event) : Nat :=
  log.count (Event.set_value Line.strobe_gpio 1)

/-- Number of times a log drives the strobe line low. -/
def strobe_lows (log : List Event) : Nat :=
  log.count (Event.set_value Line.strobe_gpio 0)

/-- Number of times a log drives the output-enable line high. -/
def oe_highs (log : List Event) : Nat :=
  log.count (Event.set_value Line.oe_gpio 1)

/-- The actions of a log that drive a signal line (`gpiod_set_value` calls). -/
def driven (log : List Event) : List Event :=
  log.filter fun e =>
    match e with
    | Event.set_value _ _ => true
    | _ => false

/-! ## `up_board_cpld.c`: set-up of the CPLD interface -/

/-- The C error number `EPROBE_DEFER`. -/
def EPROBE_DEFER : Int := 517

/-- The C error number `EINVAL`. -/
def EINVAL : Int := 22

/-- The array `cpld_gpios` of `up_board_cpld_setup`. -/
def cpld_gpios : List Line :=
  [Line.strobe_gpio, Line.reset_gpio, Line.data_in_gpio, Line.data_out_gpio, Line.oe_gpio]

/-- What the kernel answers while the five lines are looked up and requested:
whether `gpiochip_find` finds the chip of a line, whether `gpio_to_desc` gives a
descriptor for it, and the result of `devm_gpio_request_one` for it.  These
are kernel services outside the repository. -/
structure gpio_lookup where
  gpiochip_find : Line → Bool
  gpio_to_desc : Line → Bool
  devm_gpio_request_one : Line → Int

/-- The function `up_board_soc_gpio_setup` for the line `gpio`: only its result
is modelled (the look-up drives no line). -/
def up_board_soc_gpio_setup (env : gpio_lookup) (gpio : Line) : Int :=
  if env.gpiochip_find gpio = false then - EPROBE_DEFER
  else if env.gpio_to_desc gpio = false then - EINVAL
  else 0

/-- The `for` loop of `up_board_cpld_setup` over the lines still to be set up:
the first non-zero result, or 0.  Requesting a line configures it as the flags
of the static initialiser say (outputs initially low, data-out as input); it
is not a `gpiod_set_value` call and is not logged. -/
def up_board_cpld_setup_loop (env : gpio_lookup) : List Line → Int
  | [] => 0
  | gpio :: rest =>
    if up_board_soc_gpio_setup env gpio ≠ 0 then up_board_soc_gpio_setup env gpio
    else if env.devm_gpio_request_one gpio ≠ 0 then env.devm_gpio_request_one gpio
    else up_board_cpld_setup_loop env rest

/-- The function `up_board_cpld_setup`.  The `dev_err` message of the failure
path drives no line and is not logged. -/
def up_board_cpld_setup (env : gpio_lookup) (cpld : up_board_cpld) : Int × up_board_cpld :=
  if up_board_cpld_setup_loop env cpld_gpios ≠ 0 then
    (up_board_cpld_setup_loop env cpld_gpios, cpld)
  else
    let r := cpld_reg_update cpld
    if r.1 ≠ 0 then r
    else (0, { r.2 with soc := gpiod_set_value r.2.soc Line.oe_gpio 1 })

/-- A kernel in which every look-up and request of a line succeeds. -/
def gpio_lookup_ok : gpio_lookup :=
  { gpiochip_find := fun _ => true, gpio_to_desc := fun _ => true,
    devm_gpio_request_one := fun _ => 0 }

/-! ## Sequences of consumer operations -/

/-- One operation of a consumer of the register store: the four pinmux
operations of `up_board_pinctrl.c`, the four direction/ownership operations of
`up_board_gpio.c` and the brightness operation of `up_board_leds.c`. -/
inductive consumer_op where
  | set_mux (function group : Nat)
  | request_enable (offset : Nat)
  | disable_free (offset : Nat)
  | set_direction (offset : Nat) (input : Bool)
  | dir_in (offset : Nat)
  | dir_out (offset : Nat) (value : Int)
  | request (offset : Nat)
  | free (offset : Nat)
  | led_set (led : up_board_led) (value : Int)

/-- The operation addresses an entry of the shipped tables: a group of
`up_board_pinctrl_groups`, a pin of `up_board_pins`, an LED of `up_board_leds`. -/
def consumer_op.valid : consumer_op → Prop
  | consumer_op.set_mux _ group => group < up_board_pinctrl_groups.length
  | consumer_op.request_enable offset => offset < up_board_pins.length
  | consumer_op.disable_free offset => offset < up_board_pins.length
  | consumer_op.set_direction offset _ => offset < up_board_pins.length
  | consumer_op.dir_in offset => offset < up_board_pins.length
  | consumer_op.dir_out offset _ => offset < up_board_pins.length
  | consumer_op.request offset => offset < up_board_pins.length
  | consumer_op.free offset => offset < up_board_pins.length
  | consumer_op.led_set led _ => led.offset ∈ up_board_leds.map fun l => l.cpld_offset

instance (op : consumer_op) : Decidable op.valid := by
  cases op <;> unfold consumer_op.valid <;> exact inferInstance

/-- The state after one consumer operation; results are dropped.  The LED
driver reaches the same CPLD state through the same callback as the pinmux. -/
def run_op {σ : Type} (k : gpio_kernel σ) : consumer_op → gpio_kernel σ
  | consumer_op.set_mux function group =>
    { k with pdata := (up_pinmux_set_mux k.pdata function group).2 }
  | consumer_op.request_enable offset =>
    { k with pdata := (up_gpio_request_enable k.pdata offset).2 }
  | consumer_op.disable_free offset =>
    { k with pdata := up_gpio_disable_free k.pdata offset }
  | consumer_op.set_direction offset input =>
    { k with pdata := (up_gpio_set_direction k.pdata offset input).2 }
  | consumer_op.dir_in offset => (up_gpio_dir_in k offset).2
  | consumer_op.dir_out offset value => (up_gpio_dir_out k offset value).2
  | consumer_op.request offset => (up_gpio_request k offset).2
  | consumer_op.free offset => up_gpio_free k offset
  | consumer_op.led_set led value =>
    { k with pdata := { k.pdata with
        cpld := (up_led_brightness_set
          { cpld := k.pdata.cpld, reg_set_bit := k.pdata.reg_set_bit, leds := up_board_leds }
          led value).cpld } }

/-- The state after a sequence of consumer operations, first to last. -/
def run_ops {σ : Type} (k : gpio_kernel σ) (ops : List consumer_op) : gpio_kernel σ :=
  ops.foldl run_op k

/-- A kernel state over the shipped board whose `reg_set_bit` calls are
recorded: CPLD state `cpld`, pin flags `en`, SoC results `soc_ret`, nothing
called or recorded yet. -/
def gpio_kernel_recording (cpld : up_board_cpld) (en : Nat → Bool) (soc_ret : Nat → Int) :
    gpio_kernel (up_board_cpld × List reg_set_bit_record) :=
  { pdata := with_recording (up_board_pinctrl_pdata_of cpld en) [], soc_ret := soc_ret,
    nsoc := 0, calls := [] }

/-- The pinmux platform data carries the callback `f`, the shipped group table
and the layout of the shipped pin table, and its CPLD handle satisfies `good`. -/
def pdata_inv {σ : Type} (f : σ → Nat → Int → Int × σ) (good : σ → Prop)
    (pd : up_board_pinctrl_pdata σ) : Prop :=
  pd.reg_set_bit = f ∧ pd.groups = up_board_pinctrl_groups
    ∧ (∀ q, same_layout (pin_at pd.pins q) (pin_at up_board_pins q)) ∧ good pd.cpld

/-! ## Register arithmetic -/

theorem one_shiftLeft_mod {B : Nat} (hB : B < 64) : (1 <<< B) % 2 ^ 64 = 2 ^ B := by
  rw [Nat.one_shiftLeft]
  exact Nat.mod_eq_of_lt (Nat.pow_lt_pow_right (by decide) hB)

theorem testBit_set {R B : Nat} (hB : B < 64) (i : Nat) :
    (R ||| (1 <<< B) % 2 ^ 64).testBit i = if i = B then true else R.testBit i := by
  rw [one_shiftLeft_mod hB, Nat.testBit_or, Nat.testBit_two_pow]
  by_cases h : i = B
  · subst h; simp
  · have h2 : ¬ B = i := fun e => h e.symm
    simp [h, h2]

theorem testBit_clear {R B : Nat} (hR : R < 2 ^ 64) (hB : B < 64) (i : Nat) :
    (R &&& (2 ^ 64 - 1 - (1 <<< B) % 2 ^ 64)).testBit i
      = if i = B then false else R.testBit i := by
  have hp : (2 : Nat) ^ B < 2 ^ 64 := Nat.pow_lt_pow_right (by decide) hB
  rw [one_shiftLeft_mod hB, Nat.sub_sub, Nat.add_comm 1 (2 ^ B), Nat.testBit_and,
    Nat.testBit_two_pow_sub_succ hp, Nat.testBit_two_pow]
  by_cases h : i = B
  · subst h; simp
  · have h2 : ¬ B = i := fun e => h e.symm
    by_cases h64 : i < 64
    · simp [h, h2, h64]
    · have : R.testBit i = false :=
        Nat.testBit_lt_two_pow (lt_of_lt_of_le hR (Nat.pow_le_pow_right (by decide) (by omega)))
      simp [h, this]

theorem cpld_reg_update_dir_reg (c : up_board_cpld) :
    (cpld_reg_update c).2.dir_reg = c.dir_reg := by
  unfold cpld_reg_update
  dsimp only
  split <;> rfl

theorem cpld_reg_update_dir_reg_size (c : up_board_cpld) :
    (cpld_reg_update c).2.dir_reg_size = c.dir_reg_size := by
  unfold cpld_reg_update
  dsimp only
  split <;> rfl

theorem set_bit_unfold (c : up_board_cpld) (B : Nat) (V : Int) :
    up_board_cpld_reg_set_bit c B V
      = if new_dir_reg c.dir_reg B V ≠ c.dir_reg
        then cpld_reg_update { c with dir_reg := new_dir_reg c.dir_reg B V }
        else (0, { c with dir_reg := new_dir_reg c.dir_reg B V }) := rfl

/-- The register value stored by `up_board_cpld_reg_set_bit`, whatever it
returns. -/
theorem set_bit_dir_reg (c : up_board_cpld) (B : Nat) (V : Int) :
    (up_board_cpld_reg_set_bit c B V).2.dir_reg = new_dir_reg c.dir_reg B V := by
  rw [set_bit_unfold]
  split
  · rw [cpld_reg_update_dir_reg]
  · rfl

theorem new_dir_reg_testBit {R B : Nat} (V : Int) (hR : R < 2 ^ 64) (hB : B < 64) (i : Nat) :
    (new_dir_reg R B V).testBit i = if i = B then decide (V ≠ 0) else R.testBit i := by
  unfold new_dir_reg
  by_cases hV : V ≠ 0
  · rw [if_pos hV, testBit_set hB]; simp [hV]
  · rw [if_neg hV, testBit_clear hR hB]; simp [hV]

theorem new_dir_reg_lt {R B : Nat} (V : Int) (hR : R < 2 ^ 64) (hB : B < 64) :
    new_dir_reg R B V < 2 ^ 64 := by
  apply Nat.lt_pow_two_of_testBit
  intro i hi
  rw [new_dir_reg_testBit V hR hB]
  have : R.testBit i = false :=
    Nat.testBit_lt_two_pow (lt_of_lt_of_le hR (Nat.pow_le_pow_right (by decide) hi))
  have hne : i ≠ B := by omega
  simp [hne, this]

/-- The new value equals the old one exactly when bit `B` already has the
requested value. -/
theorem new_dir_reg_eq_iff {R B : Nat} (V : Int) (hR : R < 2 ^ 64) (hB : B < 64) :
    new_dir_reg R B V = R ↔ R.testBit B = decide (V ≠ 0) := by
  constructor
  · intro h
    have := new_dir_reg_testBit V hR hB B
    rw [h] at this
    simpa using this
  · intro h
    apply Nat.eq_of_testBit_eq
    intro i
    rw [new_dir_reg_testBit V hR hB]
    by_cases hi : i = B
    · subst hi; simp [h]
    · simp [hi]

/-! ## The shift loops -/

theorem shiftRight_and_one (R i : Nat) :
    (R >>> i) &&& 0x1 = if R.testBit i then 1 else 0 := by
  rw [Nat.and_one_is_mod, Nat.testBit_to_div_mod, Nat.shiftRight_eq_div_pow]
  rcases Nat.mod_two_eq_zero_or_one (R / 2 ^ i) with h | h <;> simp [h]

theorem spec_write_phase_succ (R n : Nat) :
    spec_write_phase R (n + 1)
      = [Event.set_value Line.strobe_gpio 0,
         Event.set_value Line.data_in_gpio (if R.testBit n then 1 else 0),
         Event.set_value Line.strobe_gpio 1] ++ spec_write_phase R n := by
  unfold spec_write_phase
  rw [List.range_succ_eq_map, List.flatMap_cons, List.flatMap_map]
  simp only [Nat.add_sub_cancel, Nat.sub_zero, Function.comp]
  congr 1
  apply List.flatMap_congr
  intro k _
  have : n - (k + 1) = n - 1 - k := by omega
  simp [this]

theorem spec_verify_phase_succ (f : Nat → Int) (n : Nat) :
    spec_verify_phase f (n + 1)
      = [Event.set_value Line.strobe_gpio 0,
         Event.set_value Line.strobe_gpio 1,
         Event.get_value Line.data_out_gpio (f 0)] ++ spec_verify_phase (fun k => f (k + 1)) n := by
  unfold spec_verify_phase
  rw [List.range_succ_eq_map, List.flatMap_cons, List.flatMap_map]

theorem cpld_write_loop_eq (R n : Nat) (s : Soc) :
    cpld_write_loop R n s = { s with log := s.log ++ spec_write_phase R n } := by
  induction n generalizing s with
  | zero => simp [cpld_write_loop, spec_write_phase]
  | succ n ih =>
    rw [cpld_write_loop, spec_write_phase_succ]
    simp only [ih, gpiod_set_value, shiftRight_and_one, List.append_assoc, List.singleton_append,
      List.cons_append, List.nil_append]

theorem cpld_verify_loop_soc (n acc : Nat) (s : Soc) :
    (cpld_verify_loop n acc s).2
      = { s with nread := s.nread + n,
                 log := s.log ++ spec_verify_phase (fun k => s.data_out (s.nread + k)) n } := by
  induction n generalizing acc s with
  | zero => simp [cpld_verify_loop, spec_verify_phase]
  | succ n ih =>
    rw [cpld_verify_loop, spec_verify_phase_succ]
    simp only [ih, gpiod_set_value, gpiod_get_value, List.append_assoc, List.singleton_append,
      List.cons_append, List.nil_append, Nat.add_zero]
    congr 1
    · omega
    · have : (fun k => s.data_out (s.nread + 1 + k)) = fun k => s.data_out (s.nread + (k + 1)) := by
        funext k
        congr 1
        omega
      rw [this]


theorem u64_zero : u64 0 = 0 := by decide

theorem u64_one : u64 1 = 1 := by decide

theorem cpld_verify_loop_testBit (n acc : Nat) (s : Soc) (hn : n ≤ 64)
    (hbit : ∀ k, k < n → s.data_out (s.nread + k) = 0 ∨ s.data_out (s.nread + k) = 1)
    (j : Nat) :
    (cpld_verify_loop n acc s).1.testBit j
      = (acc.testBit j || (decide (j < n) && decide (s.data_out (s.nread + (n - 1 - j)) = 1))) := by
  induction n generalizing acc s with
  | zero => simp [cpld_verify_loop]
  | succ n ih =>
    rw [cpld_verify_loop]
    simp only [gpiod_set_value, gpiod_get_value]
    rw [ih _ _ (by omega)]
    · simp only [Nat.testBit_or]
      have h0 := hbit 0 (by omega)
      rw [Nat.add_zero] at h0
      have hshift : ((u64 (s.data_out s.nread) <<< n) % 2 ^ 64).testBit j
          = (decide (j = n) && decide (s.data_out s.nread = 1)) := by
        rcases h0 with h | h
        · rw [h, u64_zero]; simp
        · rw [h, u64_one, one_shiftLeft_mod (by omega), Nat.testBit_two_pow]
          by_cases hj : j = n
          · subst hj; simp
          · have : ¬ n = j := fun e => hj e.symm
            simp [hj, this]
      rw [hshift]
      rcases Nat.lt_trichotomy j n with hj | hj | hj
      · have e1 : s.nread + 1 + (n - 1 - j) = s.nread + (n + 1 - 1 - j) := by omega
        have hne : j ≠ n := by omega
        have hlt : j < n + 1 := by omega
        simp [hj, hne, hlt, e1]
      · subst hj
        simp
      · have hne : j ≠ n := by omega
        have h1 : ¬ j < n := by omega
        have h2 : ¬ j < n + 1 := by omega
        simp [hne, h1, h2]
    · intro k hk
      have := hbit (k + 1) (by omega)
      have e : s.nread + 1 + k = s.nread + (k + 1) := by omega
      simpa [e] using this

theorem dir_reg_verify_testBit (c : up_board_cpld) (hN : c.dir_reg_size ≤ 64)
    (hbit : ∀ k, k < c.dir_reg_size →
      c.soc.data_out (c.soc.nread + k) = 0 ∨ c.soc.data_out (c.soc.nread + k) = 1)
    (j : Nat) :
    (dir_reg_verify c).testBit j
      = (decide (j < c.dir_reg_size)
          && decide (c.soc.data_out (c.soc.nread + (c.dir_reg_size - 1 - j)) = 1)) := by
  unfold dir_reg_verify
  rw [cpld_write_loop_eq, cpld_verify_loop_testBit _ _ _ hN]
  · simp [gpiod_set_value]
  · simpa [gpiod_set_value] using hbit

/-- Complete description of one invocation of `cpld_reg_update`. -/
theorem cpld_reg_update_eq (c : up_board_cpld) :
    cpld_reg_update c
      = if dir_reg_verify c ≠ c.dir_reg then
          (- EIO, { c with soc := { c.soc with
              nread := c.soc.nread + c.dir_reg_size,
              log := c.soc.log ++ (spec_reset_pulse ++ (spec_write_phase c.dir_reg c.dir_reg_size
                ++ (spec_verify_phase (fun k => c.soc.data_out (c.soc.nread + k)) c.dir_reg_size
                ++ [Event.pr_err c.dir_reg (dir_reg_verify c)]))) } })
        else
          (0, { c with soc := { c.soc with
              nread := c.soc.nread + c.dir_reg_size,
              log := c.soc.log ++ (spec_reset_pulse ++ (spec_write_phase c.dir_reg c.dir_reg_size
                ++ (spec_verify_phase (fun k => c.soc.data_out (c.soc.nread + k)) c.dir_reg_size
                ++ spec_latch_pulse))) } }) := by
  unfold cpld_reg_update
  simp only [← dir_reg_verify.eq_1 c]
  simp only [cpld_verify_loop_soc, cpld_write_loop_eq, gpiod_set_value, spec_reset_pulse,
    spec_latch_pulse, List.append_assoc, List.singleton_append, List.cons_append, List.nil_append]

/-! ## Counting shift cycles and data-in levels -/

theorem shift_cycles_append (l₁ l₂ : List Event) :
    shift_cycles (l₁ ++ l₂) = shift_cycles l₁ + shift_cycles l₂ := by
  simp [shift_cycles, List.count_append]

theorem shift_cycles_write_phase (R n : Nat) : shift_cycles (spec_write_phase R n) = 0 := by
  induction n with
  | zero => simp [spec_write_phase, shift_cycles]
  | succ n ih =>
    rw [spec_write_phase_succ, shift_cycles_append, ih]
    simp [shift_cycles, List.count_cons]

theorem shift_cycles_verify_phase (f : Nat → Int) (n : Nat) :
    shift_cycles (spec_verify_phase f n) = 0 := by
  induction n generalizing f with
  | zero => simp [spec_verify_phase, shift_cycles]
  | succ n ih =>
    rw [spec_verify_phase_succ, shift_cycles_append, ih]
    simp [shift_cycles, List.count_cons]

/-- Every invocation of `cpld_reg_update` adds exactly one shift cycle to the log. -/
theorem shift_cycles_cpld_reg_update (c : up_board_cpld) :
    shift_cycles (cpld_reg_update c).2.soc.log = shift_cycles c.soc.log + 1 := by
  rw [cpld_reg_update_eq]
  split <;>
    (simp only [shift_cycles_append, shift_cycles_write_phase, shift_cycles_verify_phase]
     simp [spec_reset_pulse, spec_latch_pulse, shift_cycles, List.count_cons])

theorem data_in_levels_append (l₁ l₂ : List Event) :
    data_in_levels (l₁ ++ l₂) = data_in_levels l₁ ++ data_in_levels l₂ := by
  simp [data_in_levels, List.filterMap_append]

theorem data_in_levels_write_phase (R n : Nat) :
    data_in_levels (spec_write_phase R n)
      = (List.range n).map fun k => if R.testBit (n - 1 - k) then 1 else 0 := by
  induction n with
  | zero => simp [spec_write_phase, data_in_levels]
  | succ n ih =>
    rw [spec_write_phase_succ, data_in_levels_append, ih, List.range_succ_eq_map, List.map_cons,
      List.map_map]
    simp only [data_in_levels, List.filterMap_cons, List.filterMap_nil, Nat.add_sub_cancel,
      Nat.sub_zero, List.singleton_append, List.cons.injEq, true_and]
    apply List.map_congr_left
    intro k _
    have : n - (k + 1) = n - 1 - k := by omega
    simp [this]

theorem data_in_levels_verify_phase (f : Nat → Int) (n : Nat) :
    data_in_levels (spec_verify_phase f n) = [] := by
  induction n generalizing f with
  | zero => simp [spec_verify_phase, data_in_levels]
  | succ n ih =>
    rw [spec_verify_phase_succ, data_in_levels_append, ih]
    simp [data_in_levels]

/-- A failing `up_board_cpld_reg_set_bit` has run a shift cycle and keeps the
new register value in `dir_reg`. -/
theorem set_bit_failure (c : up_board_cpld) (B : Nat) (V : Int)
    (h : (up_board_cpld_reg_set_bit c B V).1 ≠ 0) :
    new_dir_reg c.dir_reg B V ≠ c.dir_reg
      ∧ dir_reg_verify { c with dir_reg := new_dir_reg c.dir_reg B V } ≠ new_dir_reg c.dir_reg B V
      ∧ (up_board_cpld_reg_set_bit c B V).1 = - EIO
      ∧ (up_board_cpld_reg_set_bit c B V).2.dir_reg = new_dir_reg c.dir_reg B V := by
  rw [set_bit_unfold] at h ⊢
  by_cases hne : new_dir_reg c.dir_reg B V ≠ c.dir_reg
  · rw [if_pos hne] at h ⊢
    rw [cpld_reg_update_eq] at h ⊢
    by_cases hv : dir_reg_verify { c with dir_reg := new_dir_reg c.dir_reg B V }
        ≠ new_dir_reg c.dir_reg B V
    · rw [if_pos hv]
      exact ⟨hne, hv, rfl, rfl⟩
    · rw [if_neg hv] at h
      exact absurd rfl h
  · rw [if_neg hne] at h
    exact absurd rfl h

/-- When the bit already has the requested value nothing happens at all. -/
theorem set_bit_noop (c : up_board_cpld) (B : Nat) (V : Int)
    (hR : c.dir_reg < 2 ^ 64) (hB : B < 64) (hbit : c.dir_reg.testBit B = decide (V ≠ 0)) :
    up_board_cpld_reg_set_bit c B V = (0, c) := by
  have he : new_dir_reg c.dir_reg B V = c.dir_reg := (new_dir_reg_eq_iff V hR hB).2 hbit
  rw [set_bit_unfold, he, if_neg (fun h => h rfl)]

/-! ## Claims about the shared register store and the register transport -/

set_option maxRecDepth 100000 in
/-- C1 (code evaluated at the failing input): starting from the initial register
`0x0FFFFFFF` with width 34, bit 31 is clear; `up_board_cpld_reg_set_bit(31, 1)` on
hardware whose data-out line reads 0 at every sample shifts `0x8FFFFFFF`, reads
back 0, returns `-EIO`, and leaves `dir_reg` equal to `0x8FFFFFFF`, not to
its value `0x0FFFFFFF` before the call. -/
theorem reg_set_bit_failure_keeps_new_value :
    (up_board_cpld_init soc_stuck_low).dir_reg = 0x0FFFFFFF
    ∧ (up_board_cpld_init soc_stuck_low).dir_reg.testBit 31 = false
    ∧ dir_reg_verify { up_board_cpld_init soc_stuck_low with dir_reg := 0x8FFFFFFF } = 0
    ∧ (up_board_cpld_reg_set_bit (up_board_cpld_init soc_stuck_low) 31 1).1 = - EIO
    ∧ (up_board_cpld_reg_set_bit (up_board_cpld_init soc_stuck_low) 31 1).2.dir_reg
        = 0x8FFFFFFF := by
  refine ⟨by decide, by decide, by decide, by decide, by decide⟩

/-- C2: for a `u64` register value `R` and an offset `B < 64`, whenever
`up_board_cpld_reg_set_bit(B, V)` returns 0 the stored register has bit `B` equal
to `V != 0` and every other bit as in `R`; and `set_bit(12, 1)` on a register
whose bit 12 is clear stores `R | (1 << 12)` and runs exactly one shift cycle
(the call is exactly one invocation of `cpld_reg_update` on the new value). -/
theorem reg_set_bit_success_sets_bit (c : up_board_cpld) (B : Nat) (V : Int)
    (hR : c.dir_reg < 2 ^ 64) (hB : B < 64) :
    ((up_board_cpld_reg_set_bit c B V).1 = 0 →
      ∀ i, (up_board_cpld_reg_set_bit c B V).2.dir_reg.testBit i
        = if i = B then decide (V ≠ 0) else c.dir_reg.testBit i)
    ∧ (c.dir_reg.testBit 12 = false →
        (up_board_cpld_reg_set_bit c 12 1).2.dir_reg = c.dir_reg ||| (1 <<< 12)
        ∧ up_board_cpld_reg_set_bit c 12 1
            = cpld_reg_update { c with dir_reg := c.dir_reg ||| (1 <<< 12) }
        ∧ shift_cycles (up_board_cpld_reg_set_bit c 12 1).2.soc.log
            = shift_cycles c.soc.log + 1) := by
  refine ⟨fun _ i => ?_, fun h12 => ?_⟩
  · rw [set_bit_dir_reg, new_dir_reg_testBit V hR hB]
  · have hnew : new_dir_reg c.dir_reg 12 1 = c.dir_reg ||| (1 <<< 12) := by
      simp [new_dir_reg]
    have hne : new_dir_reg c.dir_reg 12 1 ≠ c.dir_reg := by
      intro e
      have := (new_dir_reg_eq_iff (1 : Int) hR (by decide : 12 < 64)).1 e
      rw [h12] at this
      simp at this
    have hrun : up_board_cpld_reg_set_bit c 12 1
        = cpld_reg_update { c with dir_reg := c.dir_reg ||| (1 <<< 12) } := by
      rw [set_bit_unfold, if_pos hne, hnew]
    refine ⟨?_, hrun, ?_⟩
    · rw [set_bit_dir_reg, hnew]
    · rw [hrun, shift_cycles_cpld_reg_update]

set_option maxRecDepth 100000 in
/-- Witness for C2: the register `0x0FFFEFFF` (bit 12 clear) on hardware that
echoes `0x0FFFFFFF`; `set_bit(12, 1)` succeeds with one shift cycle. -/
theorem reg_set_bit_success_sets_bit_witness :
    (0x0FFFEFFF : Nat) < 2 ^ 64 ∧ (12 : Nat) < 64
    ∧ (up_board_cpld_reg_set_bit
        { up_board_cpld_init (soc_echo 0x0FFFFFFF) with dir_reg := 0x0FFFEFFF } 12 1).1 = 0
    ∧ (∀ i, (up_board_cpld_reg_set_bit
        { up_board_cpld_init (soc_echo 0x0FFFFFFF) with dir_reg := 0x0FFFEFFF } 12 1).2.dir_reg.testBit i
          = if i = 12 then decide ((1 : Int) ≠ 0) else (0x0FFFEFFF : Nat).testBit i)
    ∧ shift_cycles (up_board_cpld_reg_set_bit
        { up_board_cpld_init (soc_echo 0x0FFFFFFF) with dir_reg := 0x0FFFEFFF } 12 1).2.soc.log
        = 1 :=
  ⟨by decide, by decide, by decide,
    (reg_set_bit_success_sets_bit
      { up_board_cpld_init (soc_echo 0x0FFFFFFF) with dir_reg := 0x0FFFEFFF } 12 1
      (by decide) (by decide)).1 (by decide),
    ((reg_set_bit_success_sets_bit
      { up_board_cpld_init (soc_echo 0x0FFFFFFF) with dir_reg := 0x0FFFEFFF } 12 1
      (by decide) (by decide)).2 (by decide)).2.2⟩

/-- C3: for a `u64` register value and an offset `B < 64`, if bit `B` of the
stored register already equals `V != 0` then `up_board_cpld_reg_set_bit(B, V)`
returns 0 and leaves the whole driver state as it was: the register is
unchanged, no line is driven and none is sampled (the log and the read counter
are unchanged). -/
theorem reg_set_bit_noop (c : up_board_cpld) (B : Nat) (V : Int)
    (hR : c.dir_reg < 2 ^ 64) (hB : B < 64) (hbit : c.dir_reg.testBit B = decide (V ≠ 0)) :
    up_board_cpld_reg_set_bit c B V = (0, c)
    ∧ (up_board_cpld_reg_set_bit c B V).2.dir_reg = c.dir_reg
    ∧ (up_board_cpld_reg_set_bit c B V).2.soc.log = c.soc.log
    ∧ (up_board_cpld_reg_set_bit c B V).2.soc.nread = c.soc.nread
    ∧ shift_cycles (up_board_cpld_reg_set_bit c B V).2.soc.log = shift_cycles c.soc.log := by
  have h := set_bit_noop c B V hR hB hbit
  rw [h]
  exact ⟨rfl, rfl, rfl, rfl, rfl⟩

/-- Witness for C3: bit 5 of the initial register is already 1. -/
theorem reg_set_bit_noop_witness :
    (up_board_cpld_init soc_stuck_low).dir_reg < 2 ^ 64 ∧ (5 : Nat) < 64
    ∧ (up_board_cpld_init soc_stuck_low).dir_reg.testBit 5 = decide ((1 : Int) ≠ 0)
    ∧ up_board_cpld_reg_set_bit (up_board_cpld_init soc_stuck_low) 5 1
        = (0, up_board_cpld_init soc_stuck_low) :=
  ⟨by decide, by decide, by decide,
    (reg_set_bit_noop (up_board_cpld_init soc_stuck_low) 5 1
      (by decide) (by decide) (by decide)).1⟩

/-- C4 as stated fails: from the initial register `0x0FFFFFFF`, whose bit 0 is
already 1, the two calls `set_bit(0, 1)`, `set_bit(0, 1)` trigger no shift cycle
at all (the log stays empty), not exactly one. -/
theorem two_set_bits_may_not_shift :
    shift_cycles (up_board_cpld_reg_set_bit
      (up_board_cpld_reg_set_bit (up_board_cpld_init soc_stuck_low) 0 1).2 0 1).2.soc.log = 0
    ∧ (up_board_cpld_reg_set_bit
      (up_board_cpld_reg_set_bit (up_board_cpld_init soc_stuck_low) 0 1).2 0 1).2.soc.log = []
    ∧ ¬ (shift_cycles (up_board_cpld_reg_set_bit
      (up_board_cpld_reg_set_bit (up_board_cpld_init soc_stuck_low) 0 1).2 0 1).2.soc.log
        = shift_cycles (up_board_cpld_init soc_stuck_low).soc.log + 1) := by
  refine ⟨by decide, by decide, by decide⟩

/-- C4 amended: for a `u64` register value, an offset `B < 64` and a value `V`,
of two consecutive calls `set_bit(B, V)` the second is always a no-op (returns
0, state unchanged), and the first triggers exactly one shift cycle when bit
`B` of the stored register differs from `V != 0` and none when it already
equals it; so the two calls trigger at most one shift cycle in total. -/
theorem reg_set_bit_twice (c : up_board_cpld) (B : Nat) (V : Int)
    (hR : c.dir_reg < 2 ^ 64) (hB : B < 64) :
    up_board_cpld_reg_set_bit (up_board_cpld_reg_set_bit c B V).2 B V
        = (0, (up_board_cpld_reg_set_bit c B V).2)
    ∧ shift_cycles (up_board_cpld_reg_set_bit (up_board_cpld_reg_set_bit c B V).2 B V).2.soc.log
        = shift_cycles c.soc.log + (if c.dir_reg.testBit B = decide (V ≠ 0) then 0 else 1) := by
  have h2 : up_board_cpld_reg_set_bit (up_board_cpld_reg_set_bit c B V).2 B V
      = (0, (up_board_cpld_reg_set_bit c B V).2) := by
    apply set_bit_noop _ B V _ hB
    · rw [set_bit_dir_reg, new_dir_reg_testBit V hR hB]; simp
    · rw [set_bit_dir_reg]; exact new_dir_reg_lt V hR hB
  refine ⟨h2, ?_⟩
  rw [h2]
  by_cases hbit : c.dir_reg.testBit B = decide (V ≠ 0)
  · rw [if_pos hbit, set_bit_noop c B V hR hB hbit]; rfl
  · rw [if_neg hbit, set_bit_unfold,
      if_pos (fun e => hbit ((new_dir_reg_eq_iff V hR hB).1 e))]
    exact shift_cycles_cpld_reg_update _

set_option maxRecDepth 100000 in
/-- Witness for C4 amended: clearing bit 3 of the initial register twice. -/
theorem reg_set_bit_twice_witness :
    (up_board_cpld_init soc_stuck_low).dir_reg < 2 ^ 64 ∧ (3 : Nat) < 64
    ∧ shift_cycles (up_board_cpld_reg_set_bit
        (up_board_cpld_reg_set_bit (up_board_cpld_init soc_stuck_low) 3 0).2 3 0).2.soc.log
        = 1 := by
  refine ⟨by decide, by decide, ?_⟩
  have h := (reg_set_bit_twice (up_board_cpld_init soc_stuck_low) 3 0 (by decide) (by decide)).2
  rw [h]
  decide

/-- The log and read counter after `cpld_reg_update`, whatever it returns. -/
theorem cpld_reg_update_soc (c : up_board_cpld) :
    (cpld_reg_update c).2.soc.nread = c.soc.nread + c.dir_reg_size
    ∧ (cpld_reg_update c).2.soc.log
        = c.soc.log ++ (spec_reset_pulse ++ (spec_write_phase c.dir_reg c.dir_reg_size
          ++ (spec_verify_phase (fun k => c.soc.data_out (c.soc.nread + k)) c.dir_reg_size
          ++ (if dir_reg_verify c ≠ c.dir_reg then [Event.pr_err c.dir_reg (dir_reg_verify c)]
              else spec_latch_pulse)))) := by
  rw [cpld_reg_update_eq]
  split <;> exact ⟨rfl, rfl⟩

theorem cpld_reg_update_ret (c : up_board_cpld) :
    (cpld_reg_update c).1 = if dir_reg_verify c ≠ c.dir_reg then - EIO else 0 := by
  rw [cpld_reg_update_eq]
  split <;> rfl

/-- C5: for a register of width `N` with `1 <= N <= 64` holding `R`,
`cpld_reg_update` makes exactly `N` reads of data-out; its verify phase is, for
`k = 0..N-1`, strobe low, strobe high, then the `k`-th sample; when the samples
are levels 0 or 1 the verification value is below `2^N` and its bit `N-1-k` is
the `k`-th sample; the function returns `-EIO` exactly when the verification
value differs from `R` and 0 exactly when it equals `R`; hence when a
`set_bit` that shifted returns 0, the value read back equals the value just
written. -/
theorem cpld_reg_update_verify (c : up_board_cpld)
    (h1 : 1 ≤ c.dir_reg_size) (h64 : c.dir_reg_size ≤ 64) :
    (cpld_reg_update c).2.soc.nread = c.soc.nread + c.dir_reg_size
    ∧ (cpld_reg_update c).2.soc.log
        = c.soc.log ++ (spec_reset_pulse ++ (spec_write_phase c.dir_reg c.dir_reg_size
          ++ (spec_verify_phase (fun k => c.soc.data_out (c.soc.nread + k)) c.dir_reg_size
          ++ (if dir_reg_verify c ≠ c.dir_reg then [Event.pr_err c.dir_reg (dir_reg_verify c)]
              else spec_latch_pulse))))
    ∧ ((∀ k, k < c.dir_reg_size →
          c.soc.data_out (c.soc.nread + k) = 0 ∨ c.soc.data_out (c.soc.nread + k) = 1) →
        dir_reg_verify c < 2 ^ c.dir_reg_size
        ∧ ∀ k, k < c.dir_reg_size →
            (dir_reg_verify c).testBit (c.dir_reg_size - 1 - k)
              = decide (c.soc.data_out (c.soc.nread + k) = 1))
    ∧ ((cpld_reg_update c).1 = - EIO ↔ dir_reg_verify c ≠ c.dir_reg)
    ∧ ((cpld_reg_update c).1 = 0 ↔ dir_reg_verify c = c.dir_reg)
    ∧ (∀ (B : Nat) (V : Int),
        (up_board_cpld_reg_set_bit c B V).2.dir_reg ≠ c.dir_reg →
        (up_board_cpld_reg_set_bit c B V).1 = 0 →
        dir_reg_verify { c with dir_reg := (up_board_cpld_reg_set_bit c B V).2.dir_reg }
          = (up_board_cpld_reg_set_bit c B V).2.dir_reg) := by
  refine ⟨(cpld_reg_update_soc c).1, (cpld_reg_update_soc c).2, ?_, ?_, ?_, ?_⟩
  · intro hbit
    constructor
    · apply Nat.lt_pow_two_of_testBit
      intro i hi
      rw [dir_reg_verify_testBit c h64 hbit]
      have : ¬ i < c.dir_reg_size := by omega
      simp [this]
    · intro k hk
      rw [dir_reg_verify_testBit c h64 hbit]
      have e : c.dir_reg_size - 1 - (c.dir_reg_size - 1 - k) = k := by omega
      have hlt : c.dir_reg_size - 1 - k < c.dir_reg_size := by omega
      simp [e, hlt]
  · rw [cpld_reg_update_ret]
    by_cases h : dir_reg_verify c ≠ c.dir_reg
    · simp [h]
    · simp only [if_neg h]
      constructor
      · intro e; exact absurd e (by decide)
      · intro e; exact absurd e h
  · rw [cpld_reg_update_ret]
    by_cases h : dir_reg_verify c ≠ c.dir_reg
    · simp only [if_pos h]
      constructor
      · intro e; exact absurd e (by decide)
      · intro e; exact absurd e h
    · have h' : dir_reg_verify c = c.dir_reg := not_not.mp h
      simp [h']
  · intro B V hne hok
    rw [set_bit_dir_reg] at hne ⊢
    rw [set_bit_unfold, if_pos hne, cpld_reg_update_ret] at hok
    by_contra hv
    rw [if_pos hv] at hok
    exact absurd hok (by decide)

set_option maxRecDepth 100000 in
/-- Witness for C5: the initial 34-bit register on hardware that echoes it. -/
theorem cpld_reg_update_verify_witness :
    1 ≤ (up_board_cpld_init (soc_echo 0x0FFFFFFF)).dir_reg_size
    ∧ (up_board_cpld_init (soc_echo 0x0FFFFFFF)).dir_reg_size ≤ 64
    ∧ (cpld_reg_update (up_board_cpld_init (soc_echo 0x0FFFFFFF))).2.soc.nread = 34
    ∧ ((cpld_reg_update (up_board_cpld_init (soc_echo 0x0FFFFFFF))).1 = 0
        ↔ dir_reg_verify (up_board_cpld_init (soc_echo 0x0FFFFFFF)) = 0x0FFFFFFF)
    ∧ (cpld_reg_update (up_board_cpld_init (soc_echo 0x0FFFFFFF))).1 = 0 :=
  ⟨by decide, by decide,
    (cpld_reg_update_verify (up_board_cpld_init (soc_echo 0x0FFFFFFF))
      (by decide) (by decide)).1,
    (cpld_reg_update_verify (up_board_cpld_init (soc_echo 0x0FFFFFFF))
      (by decide) (by decide)).2.2.2.2.1,
    by decide⟩

/-- C6: for a register of width `N` with `1 <= N <= 64` holding `R`, the log of
`cpld_reg_update` starts with reset low, reset high, followed by exactly `N`
write steps (strobe low, data-in, strobe high), then the verify phase and the
latch pulse or error report; the data-in levels it drives, in order, are bit
`N-1`, bit `N-2`, ..., bit 0 of `R`, and there are `N` of them. -/
theorem cpld_reg_update_write (c : up_board_cpld)
    (_h1 : 1 ≤ c.dir_reg_size) (_h64 : c.dir_reg_size ≤ 64) :
    (cpld_reg_update c).2.soc.log
        = c.soc.log ++ (spec_reset_pulse ++ (spec_write_phase c.dir_reg c.dir_reg_size
          ++ (spec_verify_phase (fun k => c.soc.data_out (c.soc.nread + k)) c.dir_reg_size
          ++ (if dir_reg_verify c ≠ c.dir_reg then [Event.pr_err c.dir_reg (dir_reg_verify c)]
              else spec_latch_pulse))))
    ∧ data_in_levels ((cpld_reg_update c).2.soc.log.drop c.soc.log.length)
        = (List.range c.dir_reg_size).map
            (fun k => if c.dir_reg.testBit (c.dir_reg_size - 1 - k) then 1 else 0)
    ∧ (data_in_levels ((cpld_reg_update c).2.soc.log.drop c.soc.log.length)).length
        = c.dir_reg_size
    ∧ (∀ i, (c.dir_reg >>> i) &&& 0x1 = if c.dir_reg.testBit i then 1 else 0) := by
  have hlog := (cpld_reg_update_soc c).2
  have hlev : data_in_levels ((cpld_reg_update c).2.soc.log.drop c.soc.log.length)
      = (List.range c.dir_reg_size).map
          (fun k => if c.dir_reg.testBit (c.dir_reg_size - 1 - k) then 1 else 0) := by
    rw [hlog, List.drop_left]
    simp only [data_in_levels_append, data_in_levels_write_phase, data_in_levels_verify_phase]
    split <;> simp [data_in_levels, spec_reset_pulse, spec_latch_pulse]
  refine ⟨hlog, hlev, ?_, fun i => shiftRight_and_one _ i⟩
  rw [hlev, List.length_map, List.length_range]

set_option maxRecDepth 100000 in
/-- Witness for C6: a 4-bit register holding `0b1010` drives data-in with
`1, 0, 1, 0`. -/
theorem cpld_reg_update_write_witness :
    1 ≤ (4 : Nat) ∧ (4 : Nat) ≤ 64
    ∧ data_in_levels ((cpld_reg_update
        { dir_reg := 0b1010, dir_reg_size := 4, soc := soc_stuck_low }).2.soc.log.drop 0)
        = [1, 0, 1, 0] := by
  refine ⟨by decide, by decide, ?_⟩
  have h := (cpld_reg_update_write { dir_reg := 0b1010, dir_reg_size := 4, soc := soc_stuck_low }
    (by decide) (by decide)).2.1
  exact h.trans (by decide)

/-! ## The pin table -/

theorem pin_at_set (pins : List up_board_pin_info) (o q : Nat) (p : up_board_pin_info) :
    pin_at (pins.set o p) q = if q = o ∧ o < pins.length then p else pin_at pins q := by
  unfold pin_at
  rw [List.getD_eq_getElem?_getD, List.getD_eq_getElem?_getD, List.getElem?_set]
  by_cases h : o = q
  · subst h
    by_cases hl : o < pins.length
    · simp [hl]
    · simp [hl]
      rw [List.getElem?_eq_none (by omega)]
      rfl
  · have h' : ¬ q = o := fun e => h e.symm
    simp [h, h']

theorem list_set_getElem_self {α : Type} (l : List α) (i : Nat) (h : i < l.length) :
    l.set i (l[i]) = l := by
  induction l generalizing i with
  | nil => simp at h
  | cons a l ih =>
    cases i with
    | zero => rfl
    | succ i =>
      simp only [List.set_cons_succ, List.getElem_cons_succ, List.cons.injEq, true_and]
      exact ih i (by simpa using h)

theorem set_flag_self (pins : List up_board_pin_info) (o : Nat)
    (h : (pin_at pins o).func_enabled = true) :
    pins.set o { pin_at pins o with func_enabled := true } = pins := by
  have hp : ({ pin_at pins o with func_enabled := true } : up_board_pin_info) = pin_at pins o := by
    cases hq : pin_at pins o with
    | mk d m f e =>
      rw [hq] at h
      simp at h
      simp [h]
  rw [hp]
  by_cases hl : o < pins.length
  · unfold pin_at
    rw [List.getD_eq_getElem _ _ hl, list_set_getElem_self]
  · exact List.set_eq_of_length_le (by omega)

theorem pin_at_with_func_enabled (en : Nat → Bool) (ps : List up_board_pin_info) (k q : Nat) :
    same_layout (pin_at (with_func_enabled en k ps) q) (pin_at ps q) := by
  induction ps generalizing k q with
  | nil => exact ⟨rfl, rfl, rfl⟩
  | cons p ps ih =>
    cases q with
    | zero => exact ⟨rfl, rfl, rfl⟩
    | succ q => exact ih (k + 1) q

/-! ## Generic facts about the loop of `up_pinmux_set_mux` -/

section Generic

variable {σ : Type}

theorem set_mux_pin_frame (pd : up_board_pinctrl_pdata σ) (o : Nat) :
    (up_pinmux_set_mux_pin pd o).2.reg_set_bit = pd.reg_set_bit
    ∧ (up_pinmux_set_mux_pin pd o).2.groups = pd.groups
    ∧ (up_pinmux_set_mux_pin pd o).2.pins
        = if (up_pinmux_set_mux_pin pd o).1 = 0
          then pd.pins.set o { pin_at pd.pins o with func_enabled := true }
          else pd.pins := by
  unfold up_pinmux_set_mux_pin reg_set_bit_call
  dsimp only
  split_ifs <;> simp_all

theorem set_mux_loop_frame (l : List Nat) (pd : up_board_pinctrl_pdata σ) :
    (up_pinmux_set_mux_loop l pd).2.reg_set_bit = pd.reg_set_bit
    ∧ (up_pinmux_set_mux_loop l pd).2.groups = pd.groups
    ∧ (up_pinmux_set_mux_loop l pd).2.pins.length = pd.pins.length := by
  induction l generalizing pd with
  | nil => exact ⟨rfl, rfl, rfl⟩
  | cons o rest ih =>
    rw [up_pinmux_set_mux_loop]
    have hf := set_mux_pin_frame pd o
    have hlen : (up_pinmux_set_mux_pin pd o).2.pins.length = pd.pins.length := by
      rw [hf.2.2]; split <;> simp
    split
    · exact ⟨hf.1, hf.2.1, hlen⟩
    · have := ih (up_pinmux_set_mux_pin pd o).2
      exact ⟨this.1.trans hf.1, this.2.1.trans hf.2.1, this.2.2.trans hlen⟩

/-- After a successful loop the pins listed are flagged and nothing else in the
pin table has changed. -/
theorem set_mux_loop_pins (l : List Nat) (pd : up_board_pinctrl_pdata σ)
    (hok : (up_pinmux_set_mux_loop l pd).1 = 0) (q : Nat) :
    pin_at (up_pinmux_set_mux_loop l pd).2.pins q
      = if q ∈ l ∧ q < pd.pins.length then { pin_at pd.pins q with func_enabled := true }
        else pin_at pd.pins q := by
  induction l generalizing pd with
  | nil => simp [up_pinmux_set_mux_loop]
  | cons o rest ih =>
    rw [up_pinmux_set_mux_loop] at hok ⊢
    have hf := set_mux_pin_frame pd o
    by_cases h1 : (up_pinmux_set_mux_pin pd o).1 ≠ 0
    · rw [if_pos h1] at hok
      exact absurd hok h1
    · rw [if_neg h1] at hok ⊢
      have h0 : (up_pinmux_set_mux_pin pd o).1 = 0 := not_not.mp h1
      have hpins := hf.2.2
      rw [if_pos h0] at hpins
      rw [ih _ hok, hpins, List.length_set, pin_at_set]
      by_cases hq : q = o
      · subst hq
        by_cases hl : q < pd.pins.length
        · by_cases hr : q ∈ rest <;> simp [hl, hr]
        · simp [hl]
      · by_cases hr : q ∈ rest <;> simp [hq, hr]

end Generic

/-! ## The pinmux loop over the real register store -/

theorem verify_errors_append (l₁ l₂ : List Event) :
    verify_errors (l₁ ++ l₂) = verify_errors l₁ + verify_errors l₂ := by
  simp [verify_errors, List.filter_append]

theorem verify_errors_write_phase (R n : Nat) : verify_errors (spec_write_phase R n) = 0 := by
  induction n with
  | zero => simp [spec_write_phase, verify_errors]
  | succ n ih =>
    rw [spec_write_phase_succ, verify_errors_append, ih]
    simp [verify_errors]

theorem verify_errors_verify_phase (f : Nat → Int) (n : Nat) :
    verify_errors (spec_verify_phase f n) = 0 := by
  induction n generalizing f with
  | zero => simp [spec_verify_phase, verify_errors]
  | succ n ih =>
    rw [spec_verify_phase_succ, verify_errors_append, ih]
    simp [verify_errors]

theorem verify_errors_cpld_reg_update (c : up_board_cpld) :
    verify_errors (cpld_reg_update c).2.soc.log
      = verify_errors c.soc.log + (if (cpld_reg_update c).1 ≠ 0 then 1 else 0) := by
  rw [cpld_reg_update_eq]
  split <;>
    (simp only [verify_errors_append, verify_errors_write_phase, verify_errors_verify_phase]
     simp [spec_reset_pulse, spec_latch_pulse, verify_errors, EIO])

/-- A call of `up_board_cpld_reg_set_bit` reports a verification failure in the
log exactly when it returns non-zero. -/
theorem verify_errors_set_bit (c : up_board_cpld) (B : Nat) (V : Int) :
    verify_errors (up_board_cpld_reg_set_bit c B V).2.soc.log
      = verify_errors c.soc.log + (if (up_board_cpld_reg_set_bit c B V).1 ≠ 0 then 1 else 0) := by
  rw [set_bit_unfold]
  split
  · exact verify_errors_cpld_reg_update _
  · simp

theorem pin_reg_congr {p q : up_board_pin_info} (h : same_layout p q) (R : Nat) :
    pin_reg p R = pin_reg q R := by
  unfold pin_reg
  rw [h.1, h.2.1, h.2.2]

theorem set_mux_pin_real (pd : up_board_pinctrl_pdata up_board_cpld) (o : Nat)
    (hcb : pd.reg_set_bit = up_board_cpld_reg_set_bit) :
    verify_errors (up_pinmux_set_mux_pin pd o).2.cpld.soc.log
        = verify_errors pd.cpld.soc.log + (if (up_pinmux_set_mux_pin pd o).1 ≠ 0 then 1 else 0)
    ∧ ((up_pinmux_set_mux_pin pd o).1 = 0 →
        (up_pinmux_set_mux_pin pd o).2.cpld.dir_reg = pin_reg (pin_at pd.pins o) pd.cpld.dir_reg) := by
  unfold up_pinmux_set_mux_pin reg_set_bit_call pin_reg
  dsimp only
  simp only [hcb]
  by_cases hd : (pin_at pd.pins o).func_dir ≠ UP_BOARD_PDIR_NONE
  · simp only [if_pos hd]
    have e1 := verify_errors_set_bit pd.cpld (u32 (pin_at pd.pins o).dir_ctrl_offset)
      (pin_at pd.pins o).func_dir
    have d1 := set_bit_dir_reg pd.cpld (u32 (pin_at pd.pins o).dir_ctrl_offset)
      (pin_at pd.pins o).func_dir
    by_cases h1 : (up_board_cpld_reg_set_bit pd.cpld (u32 (pin_at pd.pins o).dir_ctrl_offset)
        (pin_at pd.pins o).func_dir).1 ≠ 0
    · simp only [if_pos h1] at e1 ⊢
      exact ⟨e1, fun h => absurd h h1⟩
    · simp only [if_neg h1] at e1 ⊢
      by_cases hm : (pin_at pd.pins o).mux_ctrl_offset ≠ UP_BOARD_UNASSIGNED
      · simp only [if_pos hm]
        have e2 := verify_errors_set_bit
          (up_board_cpld_reg_set_bit pd.cpld (u32 (pin_at pd.pins o).dir_ctrl_offset)
            (pin_at pd.pins o).func_dir).2
          (u32 (pin_at pd.pins o).mux_ctrl_offset) UP_BOARD_PMUX_FUNC
        have d2 := set_bit_dir_reg
          (up_board_cpld_reg_set_bit pd.cpld (u32 (pin_at pd.pins o).dir_ctrl_offset)
            (pin_at pd.pins o).func_dir).2
          (u32 (pin_at pd.pins o).mux_ctrl_offset) UP_BOARD_PMUX_FUNC
        rw [e1, Nat.add_zero] at e2
        by_cases h2 : (up_board_cpld_reg_set_bit
            (up_board_cpld_reg_set_bit pd.cpld (u32 (pin_at pd.pins o).dir_ctrl_offset)
              (pin_at pd.pins o).func_dir).2
            (u32 (pin_at pd.pins o).mux_ctrl_offset) UP_BOARD_PMUX_FUNC).1 ≠ 0
        · simp only [if_pos h2] at e2 ⊢
          exact ⟨e2, fun h => absurd h h2⟩
        · simp only [if_neg h2] at e2 ⊢
          refine ⟨by simpa using e2, fun _ => ?_⟩
          rw [d2, d1]
      · simp only [if_neg hm]
        refine ⟨by simpa using e1, fun _ => ?_⟩
        simp [d1]
  · simp only [if_neg hd, hcb]
    by_cases hm : (pin_at pd.pins o).mux_ctrl_offset ≠ UP_BOARD_UNASSIGNED
    · simp only [if_pos hm, hcb]
      have e2 := verify_errors_set_bit pd.cpld
        (u32 (pin_at pd.pins o).mux_ctrl_offset) UP_BOARD_PMUX_FUNC
      have d2 := set_bit_dir_reg pd.cpld
        (u32 (pin_at pd.pins o).mux_ctrl_offset) UP_BOARD_PMUX_FUNC
      by_cases h2 : (up_board_cpld_reg_set_bit pd.cpld
          (u32 (pin_at pd.pins o).mux_ctrl_offset) UP_BOARD_PMUX_FUNC).1 ≠ 0
      · simp [h2, e2]
      · simp only [not_not] at h2
        simp [h2, e2, d2]
    · simp [hm]

/-- The loop of `up_pinmux_set_mux` over the real register store: a
verification failure is logged exactly when the loop returns non-zero, and on
success the register holds `group_reg`. -/
theorem set_mux_loop_real (L : Nat → up_board_pin_info) (l : List Nat)
    (pd : up_board_pinctrl_pdata up_board_cpld)
    (hcb : pd.reg_set_bit = up_board_cpld_reg_set_bit)
    (hL : ∀ o, same_layout (pin_at pd.pins o) (L o)) :
    verify_errors (up_pinmux_set_mux_loop l pd).2.cpld.soc.log
        = verify_errors pd.cpld.soc.log + (if (up_pinmux_set_mux_loop l pd).1 ≠ 0 then 1 else 0)
    ∧ ((up_pinmux_set_mux_loop l pd).1 = 0 →
        (up_pinmux_set_mux_loop l pd).2.cpld.dir_reg = group_reg L l pd.cpld.dir_reg) := by
  induction l generalizing pd with
  | nil => simp [up_pinmux_set_mux_loop, group_reg]
  | cons o rest ih =>
    rw [up_pinmux_set_mux_loop, group_reg]
    have hb := set_mux_pin_real pd o hcb
    have hf := set_mux_pin_frame pd o
    by_cases h1 : (up_pinmux_set_mux_pin pd o).1 ≠ 0
    · simp only [if_pos h1] at hb ⊢
      exact ⟨hb.1, fun h => absurd h h1⟩
    · simp only [if_neg h1] at hb ⊢
      have h0 : (up_pinmux_set_mux_pin pd o).1 = 0 := not_not.mp h1
      have hpins := hf.2.2
      rw [if_pos h0] at hpins
      have hL' : ∀ q, same_layout (pin_at (up_pinmux_set_mux_pin pd o).2.pins q) (L q) := by
        intro q
        rw [hpins, pin_at_set]
        split
        · rename_i hq
          have := hL q
          rw [hq.1] at this ⊢
          exact this
        · exact hL q
      have := ih (up_pinmux_set_mux_pin pd o).2 (hf.1.trans hcb) hL'
      rw [hb.1, Nat.add_zero, hb.2 h0, pin_reg_congr (hL o)] at this
      exact this

/-! ## Register arithmetic of a group -/

theorem u32_small {x : Int} (h0 : 0 ≤ x) (h : x < 64) : u32 x < 64 ∧ ((u32 x : Nat) : Int) = x := by
  unfold u32
  rw [Int.emod_eq_of_lt h0 (by omega)]
  constructor
  · omega
  · exact Int.toNat_of_nonneg h0

theorem pin_reg_spec {pin : up_board_pin_info} {R : Nat} (hR : R < 2 ^ 64)
    (hfd : pin.func_dir = UP_BOARD_PDIR_OUT ∨ pin.func_dir = UP_BOARD_PDIR_IN)
    (hd0 : 0 ≤ pin.dir_ctrl_offset) (hd1 : pin.dir_ctrl_offset < 28)
    (hmux : pin.mux_ctrl_offset = UP_BOARD_UNASSIGNED
      ∨ (28 ≤ pin.mux_ctrl_offset ∧ pin.mux_ctrl_offset < 64)) :
    pin_reg pin R < 2 ^ 64
    ∧ ∀ i, (pin_reg pin R).testBit i
        = if i = u32 pin.dir_ctrl_offset then decide (pin.func_dir = UP_BOARD_PDIR_IN)
          else if pin.mux_ctrl_offset ≠ UP_BOARD_UNASSIGNED ∧ i = u32 pin.mux_ctrl_offset then true
          else R.testBit i := by
  have hdir := u32_small hd0 (by omega : pin.dir_ctrl_offset < 64)
  have hne : pin.func_dir ≠ UP_BOARD_PDIR_NONE := by
    rcases hfd with h | h <;> rw [h] <;> decide
  have hfd' : decide (pin.func_dir ≠ 0) = decide (pin.func_dir = UP_BOARD_PDIR_IN) := by
    rcases hfd with h | h <;> rw [h] <;> decide
  have hR1 := new_dir_reg_lt pin.func_dir hR hdir.1
  unfold pin_reg
  simp only [if_pos hne]
  by_cases hm : pin.mux_ctrl_offset ≠ UP_BOARD_UNASSIGNED
  · have hmx : 28 ≤ pin.mux_ctrl_offset ∧ pin.mux_ctrl_offset < 64 := by
      rcases hmux with h | h
      · exact absurd h hm
      · exact h
    have hmu := u32_small (by omega : 0 ≤ pin.mux_ctrl_offset) hmx.2
    have hdm : u32 pin.dir_ctrl_offset ≠ u32 pin.mux_ctrl_offset := by
      intro e
      have : ((u32 pin.dir_ctrl_offset : Nat) : Int) = ((u32 pin.mux_ctrl_offset : Nat) : Int) := by
        rw [e]
      rw [hdir.2, hmu.2] at this
      omega
    simp only [if_pos hm]
    refine ⟨new_dir_reg_lt _ hR1 hmu.1, fun i => ?_⟩
    rw [new_dir_reg_testBit _ hR1 hmu.1, new_dir_reg_testBit _ hR hdir.1, hfd']
    by_cases h1 : i = u32 pin.mux_ctrl_offset
    · have h2 : ¬ i = u32 pin.dir_ctrl_offset := fun e => hdm (e.symm.trans h1)
      simp [h1, hm, UP_BOARD_PMUX_FUNC, hdm.symm]
    · simp [h1]
  · simp only [if_neg hm]
    refine ⟨hR1, fun i => ?_⟩
    rw [new_dir_reg_testBit _ hR hdir.1, hfd']
    simp [not_not.mp hm]

/-- Bits of the register left by a successful `up_pinmux_set_mux` over a group
whose pins satisfy `group_ok`. -/
theorem group_reg_spec (L : Nat → up_board_pin_info) (l : List Nat) (R : Nat)
    (hR : R < 2 ^ 64) (hok : group_ok L l) :
    group_reg L l R < 2 ^ 64
    ∧ (∀ i, (∀ p ∈ l, i ≠ u32 (L p).dir_ctrl_offset ∧ i ≠ u32 (L p).mux_ctrl_offset) →
        (group_reg L l R).testBit i = R.testBit i)
    ∧ (∀ p ∈ l,
        (group_reg L l R).testBit (u32 (L p).dir_ctrl_offset)
          = decide ((L p).func_dir = UP_BOARD_PDIR_IN)
        ∧ ((L p).mux_ctrl_offset ≠ UP_BOARD_UNASSIGNED →
            (group_reg L l R).testBit (u32 (L p).mux_ctrl_offset) = true)) := by
  induction l generalizing R with
  | nil => exact ⟨hR, fun _ _ => rfl, fun p hp => absurd hp (List.not_mem_nil p)⟩
  | cons o rest ih =>
    have ho := hok.1 o (List.mem_cons_self o rest)
    have hok' : group_ok L rest :=
      ⟨fun p hp => hok.1 p (List.mem_cons_of_mem o hp),
       fun p hp q hq => hok.2 p (List.mem_cons_of_mem o hp) q (List.mem_cons_of_mem o hq)⟩
    have hpr := pin_reg_spec (R := R) hR ho.1 ho.2.1 ho.2.2.1 ho.2.2.2
    have hih := ih (pin_reg (L o) R) hpr.1 hok'
    rw [group_reg]
    have hodir := u32_small ho.2.1 (by omega : (L o).dir_ctrl_offset < 64)
    refine ⟨hih.1, fun i hi => ?_, fun p hp => ?_⟩
    · rw [hih.2.1 i (fun p hp => hi p (List.mem_cons_of_mem o hp)), hpr.2 i]
      have := hi o (List.mem_cons_self o rest)
      simp [this.1, this.2]
    · by_cases hpr' : p ∈ rest
      · exact hih.2.2 p hpr'
      · have hpo : p = o := by
          rcases List.mem_cons.1 hp with h | h
          · exact h
          · exact absurd h hpr'
        subst hpo
        constructor
        · by_cases hex : ∃ q ∈ rest, (L q).dir_ctrl_offset = (L p).dir_ctrl_offset
          · obtain ⟨q, hq, hqe⟩ := hex
            have hfd := hok.2 q (List.mem_cons_of_mem p hq) p (List.mem_cons_self p rest) hqe
            have := (hih.2.2 q hq).1
            rw [hqe, hfd] at this
            exact this
          · have hfr : ∀ q ∈ rest, u32 (L p).dir_ctrl_offset ≠ u32 (L q).dir_ctrl_offset
                ∧ u32 (L p).dir_ctrl_offset ≠ u32 (L q).mux_ctrl_offset := by
              intro q hq
              have hqk := hok.1 q (List.mem_cons_of_mem p hq)
              have hqdir := u32_small hqk.2.1 (by omega : (L q).dir_ctrl_offset < 64)
              constructor
              · intro e
                apply hex
                refine ⟨q, hq, ?_⟩
                rw [← hqdir.2, ← hodir.2, e]
              · intro e
                rcases hqk.2.2.2 with hm | hm
                · rw [hm] at e
                  have : u32 UP_BOARD_UNASSIGNED = 4294967295 := by decide
                  rw [this] at e
                  have := hodir.1
                  omega
                · have hqm := u32_small (by omega : 0 ≤ (L q).mux_ctrl_offset) hm.2
                  have : ((u32 (L p).dir_ctrl_offset : Nat) : Int)
                      = ((u32 (L q).mux_ctrl_offset : Nat) : Int) := by rw [e]
                  rw [hodir.2, hqm.2] at this
                  omega
            rw [hih.2.1 _ hfr, hpr.2]
            simp
        · intro hm
          have hmx : 28 ≤ (L p).mux_ctrl_offset ∧ (L p).mux_ctrl_offset < 64 := by
            rcases ho.2.2.2 with h | h
            · exact absurd h hm
            · exact h
          have hpm := u32_small (by omega : 0 ≤ (L p).mux_ctrl_offset) hmx.2
          by_cases hex : ∃ q ∈ rest, (L q).mux_ctrl_offset = (L p).mux_ctrl_offset
          · obtain ⟨q, hq, hqe⟩ := hex
            have := (hih.2.2 q hq).2 (by rw [hqe]; exact hm)
            rw [hqe] at this
            exact this
          · have hfr : ∀ q ∈ rest, u32 (L p).mux_ctrl_offset ≠ u32 (L q).dir_ctrl_offset
                ∧ u32 (L p).mux_ctrl_offset ≠ u32 (L q).mux_ctrl_offset := by
              intro q hq
              have hqk := hok.1 q (List.mem_cons_of_mem p hq)
              have hqdir := u32_small hqk.2.1 (by omega : (L q).dir_ctrl_offset < 64)
              constructor
              · intro e
                have : ((u32 (L p).mux_ctrl_offset : Nat) : Int)
                    = ((u32 (L q).dir_ctrl_offset : Nat) : Int) := by rw [e]
                rw [hpm.2, hqdir.2] at this
                omega
              · intro e
                rcases hqk.2.2.2 with hm' | hm'
                · rw [hm'] at e
                  have : u32 UP_BOARD_UNASSIGNED = 4294967295 := by decide
                  rw [this] at e
                  have := hpm.1
                  omega
                · have hqm := u32_small (by omega : 0 ≤ (L q).mux_ctrl_offset) hm'.2
                  apply hex
                  refine ⟨q, hq, ?_⟩
                  rw [← hqm.2, ← hpm.2, e]
            rw [hih.2.1 _ hfr, hpr.2]
            have hdm : u32 (L p).mux_ctrl_offset ≠ u32 (L p).dir_ctrl_offset := by
              intro e
              have : ((u32 (L p).mux_ctrl_offset : Nat) : Int)
                  = ((u32 (L p).dir_ctrl_offset : Nat) : Int) := by rw [e]
              rw [hpm.2, hodir.2] at this
              omega
            simp [hdm, hm]

/-- An iteration of the loop of `up_pinmux_set_mux` does nothing when the pin's
bits already hold the selected function and the pin is already flagged. -/
theorem set_mux_pin_noop (pd : up_board_pinctrl_pdata up_board_cpld) (o : Nat)
    (hcb : pd.reg_set_bit = up_board_cpld_reg_set_bit) (hR : pd.cpld.dir_reg < 2 ^ 64)
    (hfd : (pin_at pd.pins o).func_dir = UP_BOARD_PDIR_OUT
      ∨ (pin_at pd.pins o).func_dir = UP_BOARD_PDIR_IN)
    (hd0 : 0 ≤ (pin_at pd.pins o).dir_ctrl_offset) (hd1 : (pin_at pd.pins o).dir_ctrl_offset < 28)
    (hmux : (pin_at pd.pins o).mux_ctrl_offset = UP_BOARD_UNASSIGNED
      ∨ (28 ≤ (pin_at pd.pins o).mux_ctrl_offset ∧ (pin_at pd.pins o).mux_ctrl_offset < 64))
    (hbd : pd.cpld.dir_reg.testBit (u32 (pin_at pd.pins o).dir_ctrl_offset)
      = decide ((pin_at pd.pins o).func_dir = UP_BOARD_PDIR_IN))
    (hbm : (pin_at pd.pins o).mux_ctrl_offset ≠ UP_BOARD_UNASSIGNED →
      pd.cpld.dir_reg.testBit (u32 (pin_at pd.pins o).mux_ctrl_offset) = true)
    (hen : (pin_at pd.pins o).func_enabled = true) :
    up_pinmux_set_mux_pin pd o = (0, pd) := by
  have hdir := u32_small hd0 (by omega : (pin_at pd.pins o).dir_ctrl_offset < 64)
  have hne : (pin_at pd.pins o).func_dir ≠ UP_BOARD_PDIR_NONE := by
    rcases hfd with h | h <;> rw [h] <;> decide
  have hfd' : decide ((pin_at pd.pins o).func_dir ≠ 0)
      = decide ((pin_at pd.pins o).func_dir = UP_BOARD_PDIR_IN) := by
    rcases hfd with h | h <;> rw [h] <;> decide
  have h1 : up_board_cpld_reg_set_bit pd.cpld (u32 (pin_at pd.pins o).dir_ctrl_offset)
      (pin_at pd.pins o).func_dir = (0, pd.cpld) :=
    set_bit_noop _ _ _ hR hdir.1 (hbd.trans hfd'.symm)
  have hpins := set_flag_self pd.pins o hen
  unfold up_pinmux_set_mux_pin reg_set_bit_call
  dsimp only
  simp only [hcb, if_pos hne, h1]
  by_cases hm : (pin_at pd.pins o).mux_ctrl_offset ≠ UP_BOARD_UNASSIGNED
  · have hmx : 28 ≤ (pin_at pd.pins o).mux_ctrl_offset ∧ (pin_at pd.pins o).mux_ctrl_offset < 64 := by
      rcases hmux with h | h
      · exact absurd h hm
      · exact h
    have hmu := u32_small (by omega : 0 ≤ (pin_at pd.pins o).mux_ctrl_offset) hmx.2
    have h2 : up_board_cpld_reg_set_bit pd.cpld (u32 (pin_at pd.pins o).mux_ctrl_offset)
        UP_BOARD_PMUX_FUNC = (0, pd.cpld) :=
      set_bit_noop _ _ _ hR hmu.1 (by rw [hbm hm]; decide)
    simp only [if_pos hm, h2, ne_eq, not_true_eq_false, if_false, hpins]
    rw [← hcb]
  · simp only [if_neg hm, ne_eq, not_true_eq_false, if_false, hpins]
    rw [← hcb]

theorem set_mux_loop_noop (L : Nat → up_board_pin_info) (l : List Nat)
    (pd : up_board_pinctrl_pdata up_board_cpld)
    (hcb : pd.reg_set_bit = up_board_cpld_reg_set_bit) (hR : pd.cpld.dir_reg < 2 ^ 64)
    (hL : ∀ o, same_layout (pin_at pd.pins o) (L o)) (hok : group_ok L l)
    (hset : ∀ p ∈ l,
      pd.cpld.dir_reg.testBit (u32 (L p).dir_ctrl_offset) = decide ((L p).func_dir = UP_BOARD_PDIR_IN)
      ∧ ((L p).mux_ctrl_offset ≠ UP_BOARD_UNASSIGNED →
          pd.cpld.dir_reg.testBit (u32 (L p).mux_ctrl_offset) = true)
      ∧ (pin_at pd.pins p).func_enabled = true) :
    up_pinmux_set_mux_loop l pd = (0, pd) := by
  induction l with
  | nil => rfl
  | cons o rest ih =>
    have ho := hok.1 o (List.mem_cons_self o rest)
    have hs := hset o (List.mem_cons_self o rest)
    have hl := hL o
    rw [← hl.1, ← hl.2.1, ← hl.2.2] at ho hs
    have hb := set_mux_pin_noop pd o hcb hR ho.1 ho.2.1 ho.2.2.1 ho.2.2.2 hs.1 hs.2.1 hs.2.2
    rw [up_pinmux_set_mux_loop, hb]
    simp only [ne_eq, not_true_eq_false, if_false]
    exact ih ⟨fun p hp => hok.1 p (List.mem_cons_of_mem o hp),
        fun p hp q hq => hok.2 p (List.mem_cons_of_mem o hp) q (List.mem_cons_of_mem o hq)⟩
      (fun p hp => hset p (List.mem_cons_of_mem o hp))

/-! ## The shipped tables -/

theorem with_func_enabled_length (en : Nat → Bool) (k : Nat) (ps : List up_board_pin_info) :
    (with_func_enabled en k ps).length = ps.length := by
  induction ps generalizing k with
  | nil => rfl
  | cons p ps ih => simp [with_func_enabled, ih]

theorem shipped_group_ok (g : Nat) :
    group_ok (pin_at up_board_pins) (up_board_pinctrl_groups.getD g []) := by
  by_cases hg : g < 9
  · interval_cases g <;> decide
  · have : up_board_pinctrl_groups.getD g [] = [] := by
      apply List.getD_eq_default
      simp [up_board_pinctrl_groups]
      omega
    rw [this]
    exact ⟨fun p hp => absurd hp (List.not_mem_nil p), fun p hp => absurd hp (List.not_mem_nil p)⟩

/-- What a run of `up_pinmux_set_mux` on the shipped tables leaves behind when no
verification failure is reported. -/
theorem set_mux_shipped (g fn : Nat) (c : up_board_cpld) (en : Nat → Bool)
    (hv : verify_errors (up_pinmux_set_mux (up_board_pinctrl_pdata_of c en) fn g).2.cpld.soc.log
      = verify_errors c.soc.log) :
    (up_pinmux_set_mux (up_board_pinctrl_pdata_of c en) fn g).1 = 0
    ∧ (up_pinmux_set_mux (up_board_pinctrl_pdata_of c en) fn g).2.cpld.dir_reg
        = group_reg (pin_at up_board_pins) (up_board_pinctrl_groups.getD g []) c.dir_reg
    ∧ (∀ q, pin_at (up_pinmux_set_mux (up_board_pinctrl_pdata_of c en) fn g).2.pins q
        = if q ∈ up_board_pinctrl_groups.getD g [] ∧ q < 28
          then { pin_at (up_board_pinctrl_pdata_of c en).pins q with func_enabled := true }
          else pin_at (up_board_pinctrl_pdata_of c en).pins q) := by
  have hL : ∀ o, same_layout (pin_at (up_board_pinctrl_pdata_of c en).pins o)
      (pin_at up_board_pins o) := fun o => pin_at_with_func_enabled en up_board_pins 0 o
  have hrun : up_pinmux_set_mux (up_board_pinctrl_pdata_of c en) fn g
      = up_pinmux_set_mux_loop (up_board_pinctrl_groups.getD g [])
          (up_board_pinctrl_pdata_of c en) := rfl
  rw [hrun] at hv ⊢
  have hreal := set_mux_loop_real (pin_at up_board_pins) (up_board_pinctrl_groups.getD g [])
    (up_board_pinctrl_pdata_of c en) rfl hL
  have hret : (up_pinmux_set_mux_loop (up_board_pinctrl_groups.getD g [])
      (up_board_pinctrl_pdata_of c en)).1 = 0 := by
    by_contra hne
    have h1 := hreal.1
    rw [if_pos hne] at h1
    have h2 : (up_board_pinctrl_pdata_of c en).cpld.soc.log = c.soc.log := rfl
    rw [h2] at h1
    omega
  refine ⟨hret, hreal.2 hret, fun q => ?_⟩
  have := set_mux_loop_pins (up_board_pinctrl_groups.getD g []) (up_board_pinctrl_pdata_of c en)
    hret q
  have hlen : (up_board_pinctrl_pdata_of c en).pins.length = 28 :=
    with_func_enabled_length en 0 up_board_pins
  rw [hlen] at this
  exact this

theorem shipped_group_in_range (g p : Nat) (hp : p ∈ up_board_pinctrl_groups.getD g []) :
    p < 28 := by
  by_cases hg : g < 9
  · have hall : ∀ g, g < 9 → ∀ p ∈ up_board_pinctrl_groups.getD g [], p < 28 := by decide
    exact hall g hg p hp
  · have : up_board_pinctrl_groups.getD g [] = [] := by
      apply List.getD_eq_default
      simp [up_board_pinctrl_groups]
      omega
    rw [this] at hp
    exact absurd hp (List.not_mem_nil p)

/-! ## Claims about function selection -/

/-- C7: for every group `g` of the shipped group table, every `u64` register
value and every state of the `func_enabled` flags of the shipped pin table, if
`up_pinmux_set_mux` logs no verification failure (every shift cycle verifies)
then it returns 0 and afterwards, for each pin of the group, the register bit
at the pin's direction-control offset is 1 exactly when its function-direction
is IN (and 0 when OUT), the bit at its mux-control offset, when one is
assigned, is 1, and its `func_enabled` flag is true; register bits that are
no direction or mux bit of a pin of the group are unchanged, pin entries
outside the group are unchanged, and no static field of the table changes. -/
theorem set_mux_selects_function (g fn : Nat) (c : up_board_cpld) (en : Nat → Bool)
    (hg : g < up_board_pinctrl_groups.length) (hR : c.dir_reg < 2 ^ 64)
    (hv : verify_errors (up_pinmux_set_mux (up_board_pinctrl_pdata_of c en) fn g).2.cpld.soc.log
      = verify_errors c.soc.log) :
    (up_pinmux_set_mux (up_board_pinctrl_pdata_of c en) fn g).1 = 0
    ∧ (∀ p ∈ up_board_pinctrl_groups.getD g [],
        (up_pinmux_set_mux (up_board_pinctrl_pdata_of c en) fn g).2.cpld.dir_reg.testBit
            (u32 (pin_at up_board_pins p).dir_ctrl_offset)
          = decide ((pin_at up_board_pins p).func_dir = UP_BOARD_PDIR_IN)
        ∧ ((pin_at up_board_pins p).func_dir = UP_BOARD_PDIR_IN
            ∨ (pin_at up_board_pins p).func_dir = UP_BOARD_PDIR_OUT)
        ∧ ((pin_at up_board_pins p).mux_ctrl_offset ≠ UP_BOARD_UNASSIGNED →
            (up_pinmux_set_mux (up_board_pinctrl_pdata_of c en) fn g).2.cpld.dir_reg.testBit
              (u32 (pin_at up_board_pins p).mux_ctrl_offset) = true)
        ∧ (pin_at (up_pinmux_set_mux (up_board_pinctrl_pdata_of c en) fn g).2.pins p).func_enabled
            = true)
    ∧ (∀ i, (∀ p ∈ up_board_pinctrl_groups.getD g [],
          i ≠ u32 (pin_at up_board_pins p).dir_ctrl_offset
          ∧ i ≠ u32 (pin_at up_board_pins p).mux_ctrl_offset) →
        (up_pinmux_set_mux (up_board_pinctrl_pdata_of c en) fn g).2.cpld.dir_reg.testBit i
          = c.dir_reg.testBit i)
    ∧ (∀ q, q ∉ up_board_pinctrl_groups.getD g [] →
        pin_at (up_pinmux_set_mux (up_board_pinctrl_pdata_of c en) fn g).2.pins q
          = pin_at (up_board_pinctrl_pdata_of c en).pins q)
    ∧ (∀ q, same_layout
        (pin_at (up_pinmux_set_mux (up_board_pinctrl_pdata_of c en) fn g).2.pins q)
        (pin_at up_board_pins q)) := by
  have _ := hg
  obtain ⟨hret, hreg, hpins⟩ := set_mux_shipped g fn c en hv
  have hspec := group_reg_spec (pin_at up_board_pins) (up_board_pinctrl_groups.getD g [])
    c.dir_reg hR (shipped_group_ok g)
  have hL : ∀ o, same_layout (pin_at (up_board_pinctrl_pdata_of c en).pins o)
      (pin_at up_board_pins o) := fun o => pin_at_with_func_enabled en up_board_pins 0 o
  refine ⟨hret, fun p hp => ⟨?_, ?_, ?_, ?_⟩, fun i hi => ?_, fun q hq => ?_, fun q => ?_⟩
  · rw [hreg]; exact (hspec.2.2 p hp).1
  · exact ((shipped_group_ok g).1 p hp).1.symm
  · rw [hreg]; exact (hspec.2.2 p hp).2
  · rw [hpins p, if_pos ⟨hp, shipped_group_in_range g p hp⟩]
  · rw [hreg]; exact hspec.2.1 i hi
  · rw [hpins q, if_neg (fun h => hq h.1)]
  · rw [hpins q]
    split
    · exact hL q
    · exact hL q

set_option maxRecDepth 100000 in
/-- Witness for C7: group 6 (`pwm0_grp`, pin 12, direction bit 24, OUT) selected
from the initial register on hardware that echoes `0x0EFFFFFF`. -/
theorem set_mux_selects_function_witness :
    6 < up_board_pinctrl_groups.length
    ∧ (up_board_cpld_init (soc_echo 0x0EFFFFFF)).dir_reg < 2 ^ 64
    ∧ verify_errors (up_pinmux_set_mux (up_board_pinctrl_pdata_of
          (up_board_cpld_init (soc_echo 0x0EFFFFFF)) (fun _ => false)) 6 6).2.cpld.soc.log
        = verify_errors (up_board_cpld_init (soc_echo 0x0EFFFFFF)).soc.log
    ∧ (up_pinmux_set_mux (up_board_pinctrl_pdata_of
          (up_board_cpld_init (soc_echo 0x0EFFFFFF)) (fun _ => false)) 6 6).1 = 0
    ∧ (up_pinmux_set_mux (up_board_pinctrl_pdata_of
          (up_board_cpld_init (soc_echo 0x0EFFFFFF)) (fun _ => false)) 6 6).2.cpld.dir_reg
        = 0x0EFFFFFF :=
  ⟨by decide, by decide, by decide,
    (set_mux_selects_function 6 6 (up_board_cpld_init (soc_echo 0x0EFFFFFF)) (fun _ => false)
      (by decide) (by decide) (by decide)).1,
    by decide⟩

/-- C9: for every group of the shipped group table, every `u64` register value
and every state of the `func_enabled` flags, if the first `up_pinmux_set_mux`
logs no verification failure then a second call for the same group returns 0
and leaves the whole state as the first call left it: same register value,
same pin table, same log (no line driven or sampled, so no shift cycle). -/
theorem set_mux_twice (g fn : Nat) (c : up_board_cpld) (en : Nat → Bool)
    (hg : g < up_board_pinctrl_groups.length) (hR : c.dir_reg < 2 ^ 64)
    (hv : verify_errors (up_pinmux_set_mux (up_board_pinctrl_pdata_of c en) fn g).2.cpld.soc.log
      = verify_errors c.soc.log) :
    up_pinmux_set_mux (up_pinmux_set_mux (up_board_pinctrl_pdata_of c en) fn g).2 fn g
        = (0, (up_pinmux_set_mux (up_board_pinctrl_pdata_of c en) fn g).2)
    ∧ (up_pinmux_set_mux (up_pinmux_set_mux (up_board_pinctrl_pdata_of c en) fn g).2 fn g).2.cpld.dir_reg
        = (up_pinmux_set_mux (up_board_pinctrl_pdata_of c en) fn g).2.cpld.dir_reg
    ∧ (up_pinmux_set_mux (up_pinmux_set_mux (up_board_pinctrl_pdata_of c en) fn g).2 fn g).2.pins
        = (up_pinmux_set_mux (up_board_pinctrl_pdata_of c en) fn g).2.pins
    ∧ (up_pinmux_set_mux (up_pinmux_set_mux (up_board_pinctrl_pdata_of c en) fn g).2 fn g).2.cpld.soc.log
        = (up_pinmux_set_mux (up_board_pinctrl_pdata_of c en) fn g).2.cpld.soc.log
    ∧ shift_cycles
        (up_pinmux_set_mux (up_pinmux_set_mux (up_board_pinctrl_pdata_of c en) fn g).2 fn g).2.cpld.soc.log
        = shift_cycles (up_pinmux_set_mux (up_board_pinctrl_pdata_of c en) fn g).2.cpld.soc.log := by
  have _ := hg
  obtain ⟨_, hreg, hpins⟩ := set_mux_shipped g fn c en hv
  have hspec := group_reg_spec (pin_at up_board_pins) (up_board_pinctrl_groups.getD g [])
    c.dir_reg hR (shipped_group_ok g)
  have hL : ∀ o, same_layout (pin_at (up_board_pinctrl_pdata_of c en).pins o)
      (pin_at up_board_pins o) := fun o => pin_at_with_func_enabled en up_board_pins 0 o
  have hframe := set_mux_loop_frame (up_board_pinctrl_groups.getD g [])
    (up_board_pinctrl_pdata_of c en)
  have hrun : up_pinmux_set_mux (up_board_pinctrl_pdata_of c en) fn g
      = up_pinmux_set_mux_loop (up_board_pinctrl_groups.getD g [])
          (up_board_pinctrl_pdata_of c en) := rfl
  rw [← hrun] at hframe
  have h2 : up_pinmux_set_mux (up_pinmux_set_mux (up_board_pinctrl_pdata_of c en) fn g).2 fn g
      = (0, (up_pinmux_set_mux (up_board_pinctrl_pdata_of c en) fn g).2) := by
    have hgroups : (up_pinmux_set_mux (up_board_pinctrl_pdata_of c en) fn g).2.groups
        = up_board_pinctrl_groups := hframe.2.1
    have hunf : up_pinmux_set_mux (up_pinmux_set_mux (up_board_pinctrl_pdata_of c en) fn g).2 fn g
        = up_pinmux_set_mux_loop (up_board_pinctrl_groups.getD g [])
            (up_pinmux_set_mux (up_board_pinctrl_pdata_of c en) fn g).2 := by
      rw [← hgroups]; rfl
    rw [hunf]
    apply set_mux_loop_noop (pin_at up_board_pins) _ _ hframe.1 _ _ (shipped_group_ok g)
    · intro p hp
      refine ⟨?_, ?_, ?_⟩
      · rw [hreg]; exact (hspec.2.2 p hp).1
      · rw [hreg]; exact (hspec.2.2 p hp).2
      · rw [hpins p, if_pos ⟨hp, shipped_group_in_range g p hp⟩]
    · rw [hreg]; exact hspec.1
    · intro q
      rw [hpins q]
      split
      · exact hL q
      · exact hL q
  rw [h2]
  exact ⟨rfl, rfl, rfl, rfl, rfl⟩

set_option maxRecDepth 100000 in
/-- Witness for C9: group 6 (`pwm0_grp`) selected twice from the initial
register on hardware that echoes `0x0EFFFFFF`. -/
theorem set_mux_twice_witness :
    6 < up_board_pinctrl_groups.length
    ∧ (up_board_cpld_init (soc_echo 0x0EFFFFFF)).dir_reg < 2 ^ 64
    ∧ verify_errors (up_pinmux_set_mux (up_board_pinctrl_pdata_of
          (up_board_cpld_init (soc_echo 0x0EFFFFFF)) (fun _ => false)) 6 6).2.cpld.soc.log
        = verify_errors (up_board_cpld_init (soc_echo 0x0EFFFFFF)).soc.log
    ∧ shift_cycles (up_pinmux_set_mux (up_pinmux_set_mux (up_board_pinctrl_pdata_of
          (up_board_cpld_init (soc_echo 0x0EFFFFFF)) (fun _ => false)) 6 6).2 6 6).2.cpld.soc.log
        = shift_cycles (up_pinmux_set_mux (up_board_pinctrl_pdata_of
          (up_board_cpld_init (soc_echo 0x0EFFFFFF)) (fun _ => false)) 6 6).2.cpld.soc.log :=
  ⟨by decide, by decide, by decide,
    (set_mux_twice 6 6 (up_board_cpld_init (soc_echo 0x0EFFFFFF)) (fun _ => false)
      (by decide) (by decide) (by decide)).2.2.2.2⟩



/-! ## Recording the `reg_set_bit` calls of the pinmux loop -/

section Recording

variable {σ : Type}

/-- One iteration of the loop under `recording`: same result and state as
without, plus the calls made; all calls but a failing last one returned 0. -/
theorem set_mux_pin_recording (pd : up_board_pinctrl_pdata σ) (cs : List reg_set_bit_record)
    (o : Nat) :
    ∃ new : List reg_set_bit_record,
      up_pinmux_set_mux_pin (with_recording pd cs) o
        = ((up_pinmux_set_mux_pin pd o).1,
           with_recording (up_pinmux_set_mux_pin pd o).2 (cs ++ new))
      ∧ ((up_pinmux_set_mux_pin pd o).1 = 0 → ∀ r ∈ new, r.ret = 0)
      ∧ ((up_pinmux_set_mux_pin pd o).1 ≠ 0 →
          ∃ init last, new = init ++ [last] ∧ (∀ r ∈ init, r.ret = 0)
            ∧ last.ret = (up_pinmux_set_mux_pin pd o).1
            ∧ (last.offset = u32 (pin_at pd.pins o).dir_ctrl_offset
                ∨ last.offset = u32 (pin_at pd.pins o).mux_ctrl_offset)) := by
  unfold up_pinmux_set_mux_pin reg_set_bit_call with_recording recording
  dsimp only
  by_cases hd : (pin_at pd.pins o).func_dir ≠ UP_BOARD_PDIR_NONE
  · simp only [if_pos hd]
    by_cases h1 : (pd.reg_set_bit pd.cpld (u32 (pin_at pd.pins o).dir_ctrl_offset)
        (pin_at pd.pins o).func_dir).1 ≠ 0
    · simp only [if_pos h1]
      refine ⟨[⟨u32 (pin_at pd.pins o).dir_ctrl_offset, (pin_at pd.pins o).func_dir,
        (pd.reg_set_bit pd.cpld (u32 (pin_at pd.pins o).dir_ctrl_offset)
          (pin_at pd.pins o).func_dir).1⟩], rfl, fun h => absurd h h1, fun _ => ?_⟩
      exact ⟨[], _, rfl, fun r hr => absurd hr (List.not_mem_nil r), rfl, Or.inl rfl⟩
    · simp only [if_neg h1]
      have h10 := not_not.mp h1
      by_cases hm : (pin_at pd.pins o).mux_ctrl_offset ≠ UP_BOARD_UNASSIGNED
      · simp only [if_pos hm]
        by_cases h2 : (pd.reg_set_bit
            (pd.reg_set_bit pd.cpld (u32 (pin_at pd.pins o).dir_ctrl_offset)
              (pin_at pd.pins o).func_dir).2
            (u32 (pin_at pd.pins o).mux_ctrl_offset) UP_BOARD_PMUX_FUNC).1 ≠ 0
        · simp only [if_pos h2]
          refine ⟨[⟨u32 (pin_at pd.pins o).dir_ctrl_offset, (pin_at pd.pins o).func_dir,
              (pd.reg_set_bit pd.cpld (u32 (pin_at pd.pins o).dir_ctrl_offset)
                (pin_at pd.pins o).func_dir).1⟩,
            ⟨u32 (pin_at pd.pins o).mux_ctrl_offset, UP_BOARD_PMUX_FUNC,
              (pd.reg_set_bit
                (pd.reg_set_bit pd.cpld (u32 (pin_at pd.pins o).dir_ctrl_offset)
                  (pin_at pd.pins o).func_dir).2
                (u32 (pin_at pd.pins o).mux_ctrl_offset) UP_BOARD_PMUX_FUNC).1⟩],
            by simp, fun h => absurd h h2, fun _ => ?_⟩
          refine ⟨[_], _, rfl, fun r hr => ?_, rfl, Or.inr rfl⟩
          rw [List.mem_singleton.1 hr]
          exact h10
        · simp only [if_neg h2]
          have h20 := not_not.mp h2
          refine ⟨[⟨u32 (pin_at pd.pins o).dir_ctrl_offset, (pin_at pd.pins o).func_dir,
              (pd.reg_set_bit pd.cpld (u32 (pin_at pd.pins o).dir_ctrl_offset)
                (pin_at pd.pins o).func_dir).1⟩,
            ⟨u32 (pin_at pd.pins o).mux_ctrl_offset, UP_BOARD_PMUX_FUNC,
              (pd.reg_set_bit
                (pd.reg_set_bit pd.cpld (u32 (pin_at pd.pins o).dir_ctrl_offset)
                  (pin_at pd.pins o).func_dir).2
                (u32 (pin_at pd.pins o).mux_ctrl_offset) UP_BOARD_PMUX_FUNC).1⟩],
            by simp, fun _ r hr => ?_, fun h => absurd rfl h⟩
          simp only [List.mem_cons, List.mem_singleton, List.not_mem_nil, or_false] at hr
          rcases hr with e | e
          · rw [e]; exact h10
          · rw [e]; exact h20
      · simp only [if_neg hm]
        refine ⟨[⟨u32 (pin_at pd.pins o).dir_ctrl_offset, (pin_at pd.pins o).func_dir,
            (pd.reg_set_bit pd.cpld (u32 (pin_at pd.pins o).dir_ctrl_offset)
              (pin_at pd.pins o).func_dir).1⟩],
          by simp, fun _ r hr => ?_, fun h => absurd rfl h⟩
        rw [List.mem_singleton.1 hr]
        exact h10
  · simp only [if_neg hd]
    by_cases hm : (pin_at pd.pins o).mux_ctrl_offset ≠ UP_BOARD_UNASSIGNED
    · simp only [if_pos hm]
      by_cases h2 : (pd.reg_set_bit pd.cpld
          (u32 (pin_at pd.pins o).mux_ctrl_offset) UP_BOARD_PMUX_FUNC).1 ≠ 0
      · refine ⟨[⟨u32 (pin_at pd.pins o).mux_ctrl_offset, UP_BOARD_PMUX_FUNC,
            (pd.reg_set_bit pd.cpld
              (u32 (pin_at pd.pins o).mux_ctrl_offset) UP_BOARD_PMUX_FUNC).1⟩],
          by simp [h2], fun h => ?_, fun _ => ?_⟩
        · simp [h2] at h
        · refine ⟨[], _, rfl, fun r hr => absurd hr (List.not_mem_nil r), ?_, Or.inr rfl⟩
          simp [h2]
      · have h20 := not_not.mp h2
        refine ⟨[⟨u32 (pin_at pd.pins o).mux_ctrl_offset, UP_BOARD_PMUX_FUNC,
            (pd.reg_set_bit pd.cpld
              (u32 (pin_at pd.pins o).mux_ctrl_offset) UP_BOARD_PMUX_FUNC).1⟩],
          by simp [h20], fun _ r hr => ?_, fun h => ?_⟩
        · rw [List.mem_singleton.1 hr]; exact h20
        · simp [h20] at h
    · simp only [if_neg hm]
      exact ⟨[], by simp, fun _ r hr => absurd hr (List.not_mem_nil r), fun h => absurd rfl h⟩

/-- The loop of `up_pinmux_set_mux` under `recording`: same result and state
as without, plus the calls made.  On success every call returned 0; on failure
the last call made is the first that failed, its result is the result of the
loop, it was made for the pin `p` reached after the pins `done`, and the pin
table is as the iterations for `done` left it. -/
theorem set_mux_loop_recording (l : List Nat) (pd : up_board_pinctrl_pdata σ)
    (cs : List reg_set_bit_record) :
    ∃ new : List reg_set_bit_record,
      up_pinmux_set_mux_loop l (with_recording pd cs)
        = ((up_pinmux_set_mux_loop l pd).1,
           with_recording (up_pinmux_set_mux_loop l pd).2 (cs ++ new))
      ∧ ((up_pinmux_set_mux_loop l pd).1 = 0 → ∀ r ∈ new, r.ret = 0)
      ∧ ((up_pinmux_set_mux_loop l pd).1 ≠ 0 →
          ∃ init last done p rest, new = init ++ [last] ∧ (∀ r ∈ init, r.ret = 0)
            ∧ last.ret = (up_pinmux_set_mux_loop l pd).1
            ∧ l = done ++ p :: rest
            ∧ (up_pinmux_set_mux_loop done pd).1 = 0
            ∧ (last.offset = u32 (pin_at (up_pinmux_set_mux_loop done pd).2.pins p).dir_ctrl_offset
                ∨ last.offset
                  = u32 (pin_at (up_pinmux_set_mux_loop done pd).2.pins p).mux_ctrl_offset)
            ∧ (up_pinmux_set_mux_loop l pd).2.pins = (up_pinmux_set_mux_loop done pd).2.pins) := by
  induction l generalizing pd cs with
  | nil =>
    refine ⟨[], by simp [up_pinmux_set_mux_loop], fun _ r hr => absurd hr (List.not_mem_nil r),
      fun h => absurd rfl h⟩
  | cons o rest ih =>
    obtain ⟨new1, hrun1, hok1, hfail1⟩ := set_mux_pin_recording pd cs o
    rw [up_pinmux_set_mux_loop, up_pinmux_set_mux_loop, hrun1]
    dsimp only
    by_cases h1 : (up_pinmux_set_mux_pin pd o).1 ≠ 0
    · simp only [if_pos h1]
      refine ⟨new1, rfl, fun h => absurd h h1, fun _ => ?_⟩
      obtain ⟨init, last, hnew, hinit, hlast, hoff⟩ := hfail1 h1
      have hpins := (set_mux_pin_frame pd o).2.2
      rw [if_neg h1] at hpins
      exact ⟨init, last, [], o, rest, hnew, hinit, hlast, rfl, rfl, hoff, hpins⟩
    · simp only [if_neg h1]
      have h10 := not_not.mp h1
      obtain ⟨new2, hrun2, hok2, hfail2⟩ := ih (up_pinmux_set_mux_pin pd o).2 (cs ++ new1)
      refine ⟨new1 ++ new2, ?_, fun h r hr => ?_, fun h => ?_⟩
      · rw [hrun2, List.append_assoc]
      · rcases List.mem_append.1 hr with hr | hr
        · exact hok1 h10 r hr
        · exact hok2 h r hr
      · obtain ⟨init, last, done, p, rest', hnew, hinit, hlast, hl, hdone, hoff, hpins⟩ := hfail2 h
        refine ⟨new1 ++ init, last, o :: done, p, rest', ?_, ?_, hlast, ?_, ?_, ?_, ?_⟩
        · rw [hnew, List.append_assoc]
        · intro r hr
          rcases List.mem_append.1 hr with hr | hr
          · exact hok1 h10 r hr
          · exact hinit r hr
        · rw [hl]; rfl
        · rw [up_pinmux_set_mux_loop, if_neg h1]; exact hdone
        · rw [up_pinmux_set_mux_loop, if_neg h1]; exact hoff
        · rw [up_pinmux_set_mux_loop, if_neg h1]; exact hpins

end Recording

/-! ## Claims about partial function selection -/

set_option maxRecDepth 100000 in
/-- C8 as stated fails: pin 5 of the shipped table has direction-control offset
10, no mux offset and function-direction NONE; selecting a group made of pin 5
on the initial board issues no `reg_set_bit` call at all, so none on bit 10. -/
theorem pin5_group_issues_no_call :
    pin_at up_board_pins 5
        = { dir_ctrl_offset := 10, mux_ctrl_offset := UP_BOARD_UNASSIGNED,
            func_dir := UP_BOARD_PDIR_NONE, func_enabled := false }
    ∧ (up_pinmux_set_mux (with_recording
        { up_board_pinctrl_pdata_of (up_board_cpld_init soc_stuck_low) (fun _ => false) with
          groups := [[5]] } []) 0 0).1 = 0
    ∧ (up_pinmux_set_mux (with_recording
        { up_board_pinctrl_pdata_of (up_board_cpld_init soc_stuck_low) (fun _ => false) with
          groups := [[5]] } []) 0 0).2.cpld.2 = []
    ∧ ¬ (∃ r ∈ (up_pinmux_set_mux (with_recording
        { up_board_pinctrl_pdata_of (up_board_cpld_init soc_stuck_low) (fun _ => false) with
          groups := [[5]] } []) 0 0).2.cpld.2, r.offset = 10) := by
  refine ⟨by decide, by decide, by decide, by decide⟩

/-- C8 amended: with the shipped pin table in any flag state, whatever the
`reg_set_bit` callback and the CPLD state, the iteration of `up_pinmux_set_mux`
for pin index 5 (direction-control offset 10, mux-control offset unassigned,
function-direction NONE) makes no `reg_set_bit` call, neither on bit 10 nor on
a mux bit: the call list and the CPLD state are unchanged, and the pin is
flagged function-enabled; so selecting a group made of pin 5 returns 0 with no
call. -/
theorem set_mux_pin5 {σ : Type} (f : σ → Nat → Int → Int × σ) (cpld : σ) (en : Nat → Bool)
    (groups : List (List Nat)) (cs : List reg_set_bit_record) (fn : Nat) :
    up_pinmux_set_mux_pin (with_recording
        { cpld := cpld, reg_set_bit := f, pins := with_func_enabled en 0 up_board_pins,
          groups := groups } cs) 5
      = (0, with_recording
          { cpld := cpld, reg_set_bit := f,
            pins := (with_func_enabled en 0 up_board_pins).set 5
              { pin_at up_board_pins 5 with func_enabled := true },
            groups := groups } cs)
    ∧ up_pinmux_set_mux (with_recording
        { cpld := cpld, reg_set_bit := f, pins := with_func_enabled en 0 up_board_pins,
          groups := [[5]] } cs) fn 0
      = (0, with_recording
          { cpld := cpld, reg_set_bit := f,
            pins := (with_func_enabled en 0 up_board_pins).set 5
              { pin_at up_board_pins 5 with func_enabled := true },
            groups := [[5]] } cs) := by
  have hpin : pin_at (with_func_enabled en 0 up_board_pins) 5
      = { pin_at up_board_pins 5 with func_enabled := en 5 } := rfl
  have hbody : ∀ gs : List (List Nat), up_pinmux_set_mux_pin (with_recording
        { cpld := cpld, reg_set_bit := f, pins := with_func_enabled en 0 up_board_pins,
          groups := gs } cs) 5
      = (0, with_recording
          { cpld := cpld, reg_set_bit := f,
            pins := (with_func_enabled en 0 up_board_pins).set 5
              { pin_at up_board_pins 5 with func_enabled := true },
            groups := gs } cs) := by
    intro gs
    unfold up_pinmux_set_mux_pin with_recording
    dsimp only
    rw [hpin]
    rfl
  refine ⟨hbody groups, ?_⟩
  unfold up_pinmux_set_mux
  have hg : (with_recording
        { cpld := cpld, reg_set_bit := f, pins := with_func_enabled en 0 up_board_pins,
          groups := [[5]] } cs).groups.getD 0 [] = [5] := rfl
  rw [hg, up_pinmux_set_mux_loop, hbody]
  rfl

set_option maxRecDepth 100000 in
/-- C10: `up_pinmux_set_mux` does not roll back.  On the shipped tables, group 1
(`uart2_grp`, pins 25 and 27), from the initial register with no pin flagged,
on hardware that echoes the first shift cycle and reads 0 afterwards, the call
returns `-EIO` while bit 20 (direction bit of pin 25), changed from 1 to 0 for
the earlier pin, stays 0 and pin 25 stays flagged function-enabled; pin 27,
being processed at the failure, is not flagged.  And for every callback, pin
table, group and starting state: the calls made are as recorded; if the result
is 0 every call returned 0; otherwise the last call made is the first that
returned non-zero, the result is its result, it was made for the direction or
mux offset of the pin `p` reached after the pins `done` of the group, exactly
the pins of `done` have been flagged, and `p` keeps its flag unless it is also
one of `done`. -/
theorem set_mux_no_rollback :
    (∃ (g : Nat) (c : up_board_cpld) (en : Nat → Bool),
        g < up_board_pinctrl_groups.length
        ∧ up_board_pinctrl_groups.getD g [] = [25, 27]
        ∧ (up_pinmux_set_mux (up_board_pinctrl_pdata_of c en) 0 g).1 = - EIO
        ∧ c.dir_reg.testBit (u32 (pin_at up_board_pins 25).dir_ctrl_offset) = true
        ∧ (up_pinmux_set_mux (up_board_pinctrl_pdata_of c en) 0 g).2.cpld.dir_reg.testBit
            (u32 (pin_at up_board_pins 25).dir_ctrl_offset) = false
        ∧ (pin_at (up_board_pinctrl_pdata_of c en).pins 25).func_enabled = false
        ∧ (pin_at (up_pinmux_set_mux (up_board_pinctrl_pdata_of c en) 0 g).2.pins 25).func_enabled
            = true
        ∧ (pin_at (up_pinmux_set_mux (up_board_pinctrl_pdata_of c en) 0 g).2.pins 27).func_enabled
            = false)
    ∧ (∀ (σ : Type) (pd : up_board_pinctrl_pdata σ) (fn g : Nat) (cs : List reg_set_bit_record),
        ∃ new : List reg_set_bit_record,
          up_pinmux_set_mux (with_recording pd cs) fn g
            = ((up_pinmux_set_mux pd fn g).1,
               with_recording (up_pinmux_set_mux pd fn g).2 (cs ++ new))
          ∧ ((up_pinmux_set_mux pd fn g).1 = 0 → ∀ r ∈ new, r.ret = 0)
          ∧ ((up_pinmux_set_mux pd fn g).1 ≠ 0 →
              ∃ init last done p rest, new = init ++ [last] ∧ (∀ r ∈ init, r.ret = 0)
                ∧ last.ret = (up_pinmux_set_mux pd fn g).1
                ∧ pd.groups.getD g [] = done ++ p :: rest
                ∧ (last.offset = u32 (pin_at pd.pins p).dir_ctrl_offset
                    ∨ last.offset = u32 (pin_at pd.pins p).mux_ctrl_offset)
                ∧ (∀ q, pin_at (up_pinmux_set_mux pd fn g).2.pins q
                    = if q ∈ done ∧ q < pd.pins.length
                      then { pin_at pd.pins q with func_enabled := true }
                      else pin_at pd.pins q)
                ∧ (p ∉ done → (pin_at (up_pinmux_set_mux pd fn g).2.pins p).func_enabled
                    = (pin_at pd.pins p).func_enabled))) := by
  constructor
  · exact ⟨1, up_board_cpld_init (soc_echo_once 0x0FEFFFFF), fun _ => false,
      by decide, by decide, by decide, by decide, by decide, by decide, by decide, by decide⟩
  · intro σ pd fn g cs
    obtain ⟨new, hrun, hok, hfail⟩ := set_mux_loop_recording (pd.groups.getD g []) pd cs
    refine ⟨new, hrun, hok, fun h => ?_⟩
    obtain ⟨init, last, done, p, rest, hnew, hinit, hlast, hl, hdone, hoff, hpins⟩ := hfail h
    have hq : ∀ q, pin_at (up_pinmux_set_mux pd fn g).2.pins q
        = if q ∈ done ∧ q < pd.pins.length
          then { pin_at pd.pins q with func_enabled := true }
          else pin_at pd.pins q := by
      intro q
      have := set_mux_loop_pins done pd hdone q
      rw [← hpins] at this
      exact this
    have hp := set_mux_loop_pins done pd hdone p
    refine ⟨init, last, done, p, rest, hnew, hinit, hlast, hl, ?_, hq, fun hnd => ?_⟩
    · rw [hp] at hoff
      split at hoff <;> exact hoff
    · rw [hq p, if_neg (fun hh => hnd hh.1)]



/-! ## The GPIO operations of the pinmux -/

theorem pdata_of_layout (c : up_board_cpld) (en : Nat → Bool) (P : Nat) :
    (pin_at (up_board_pinctrl_pdata_of c en).pins P).dir_ctrl_offset
        = (pin_at up_board_pins P).dir_ctrl_offset
    ∧ (pin_at (up_board_pinctrl_pdata_of c en).pins P).mux_ctrl_offset
        = (pin_at up_board_pins P).mux_ctrl_offset
    ∧ (pin_at (up_board_pinctrl_pdata_of c en).pins P).func_dir
        = (pin_at up_board_pins P).func_dir :=
  pin_at_with_func_enabled en up_board_pins 0 P

theorem shipped_dir_offset (P : Nat) (hP : P < 28) :
    u32 (pin_at up_board_pins P).dir_ctrl_offset < 28 := by
  have hall : ∀ p, p < 28 → u32 (pin_at up_board_pins p).dir_ctrl_offset < 28 := by decide
  exact hall P hP

theorem shipped_mux_offset (P : Nat)
    (hm : (pin_at up_board_pins P).mux_ctrl_offset ≠ UP_BOARD_UNASSIGNED) :
    28 ≤ u32 (pin_at up_board_pins P).mux_ctrl_offset
    ∧ u32 (pin_at up_board_pins P).mux_ctrl_offset < 31 := by
  by_cases hP : P < 28
  · have hall : ∀ p, p < 28 →
        (pin_at up_board_pins p).mux_ctrl_offset ≠ UP_BOARD_UNASSIGNED →
        28 ≤ u32 (pin_at up_board_pins p).mux_ctrl_offset
        ∧ u32 (pin_at up_board_pins p).mux_ctrl_offset < 31 := by decide
    exact hall P hP hm
  · exfalso
    apply hm
    unfold pin_at
    rw [List.getD_eq_default _ _ (by simp [up_board_pins]; omega)]

section GpioOps

variable {σ : Type}

theorem set_direction_recording (pd : up_board_pinctrl_pdata σ) (cs : List reg_set_bit_record)
    (o : Nat) (input : Bool) :
    up_gpio_set_direction (with_recording pd cs) o input
      = ((up_gpio_set_direction pd o input).1,
         with_recording (up_gpio_set_direction pd o input).2
          (cs ++ [{ offset := u32 (pin_at pd.pins o).dir_ctrl_offset,
                    value := if input then UP_BOARD_PDIR_IN else UP_BOARD_PDIR_OUT,
                    ret := (up_gpio_set_direction pd o input).1 }])) := rfl

theorem request_enable_recording (pd : up_board_pinctrl_pdata σ) (cs : List reg_set_bit_record)
    (o : Nat) :
    up_gpio_request_enable (with_recording pd cs) o
      = ((up_gpio_request_enable pd o).1,
         with_recording (up_gpio_request_enable pd o).2
          (cs ++ if (pin_at pd.pins o).mux_ctrl_offset ≠ UP_BOARD_UNASSIGNED then
              [{ offset := u32 (pin_at pd.pins o).mux_ctrl_offset, value := UP_BOARD_PMUX_GPIO,
                 ret := (up_gpio_request_enable pd o).1 }]
            else [])) := by
  unfold up_gpio_request_enable reg_set_bit_call with_recording recording
  dsimp only
  by_cases hm : (pin_at pd.pins o).mux_ctrl_offset ≠ UP_BOARD_UNASSIGNED
  · simp only [if_pos hm]
    by_cases h1 : (pd.reg_set_bit pd.cpld (u32 (pin_at pd.pins o).mux_ctrl_offset)
        UP_BOARD_PMUX_GPIO).1 ≠ 0
    · simp only [if_pos h1]
    · have h0 := not_not.mp h1
      simp [h0]
  · simp only [if_neg hm, List.append_nil]

theorem request_enable_frame (pd : up_board_pinctrl_pdata σ) (o : Nat) :
    (up_gpio_request_enable pd o).2.pins = pd.pins
    ∧ (up_gpio_request_enable pd o).2.groups = pd.groups
    ∧ (up_gpio_request_enable pd o).2.reg_set_bit = pd.reg_set_bit := by
  unfold up_gpio_request_enable reg_set_bit_call
  dsimp only
  split_ifs <;> exact ⟨rfl, rfl, rfl⟩

theorem disable_free_frame (pd : up_board_pinctrl_pdata σ) (o : Nat) :
    (up_gpio_disable_free pd o).pins = pd.pins
    ∧ (up_gpio_disable_free pd o).groups = pd.groups
    ∧ (up_gpio_disable_free pd o).reg_set_bit = pd.reg_set_bit := by
  unfold up_gpio_disable_free reg_set_bit_call
  dsimp only
  split_ifs <;> exact ⟨rfl, rfl, rfl⟩

end GpioOps

theorem set_direction_shipped (c : up_board_cpld) (en : Nat → Bool) (P : Nat) (input : Bool) :
    up_gpio_set_direction (up_board_pinctrl_pdata_of c en) P input
      = ((up_board_cpld_reg_set_bit c (u32 (pin_at up_board_pins P).dir_ctrl_offset)
            (if input then UP_BOARD_PDIR_IN else UP_BOARD_PDIR_OUT)).1,
         up_board_pinctrl_pdata_of
          (up_board_cpld_reg_set_bit c (u32 (pin_at up_board_pins P).dir_ctrl_offset)
            (if input then UP_BOARD_PDIR_IN else UP_BOARD_PDIR_OUT)).2 en) := by
  unfold up_gpio_set_direction reg_set_bit_call
  dsimp only
  rw [(pdata_of_layout c en P).1]
  rfl

theorem request_enable_shipped (c : up_board_cpld) (en : Nat → Bool) (P : Nat) :
    up_gpio_request_enable (up_board_pinctrl_pdata_of c en) P
      = if (pin_at up_board_pins P).mux_ctrl_offset ≠ UP_BOARD_UNASSIGNED then
          ((up_board_cpld_reg_set_bit c (u32 (pin_at up_board_pins P).mux_ctrl_offset)
              UP_BOARD_PMUX_GPIO).1,
           up_board_pinctrl_pdata_of
            (up_board_cpld_reg_set_bit c (u32 (pin_at up_board_pins P).mux_ctrl_offset)
              UP_BOARD_PMUX_GPIO).2 en)
        else (0, up_board_pinctrl_pdata_of c en) := by
  unfold up_gpio_request_enable reg_set_bit_call
  dsimp only
  rw [(pdata_of_layout c en P).2.1]
  by_cases hm : (pin_at up_board_pins P).mux_ctrl_offset ≠ UP_BOARD_UNASSIGNED
  · simp only [if_pos hm]
    have hcb : (up_board_pinctrl_pdata_of c en).reg_set_bit = up_board_cpld_reg_set_bit := rfl
    have hc : (up_board_pinctrl_pdata_of c en).cpld = c := rfl
    rw [hcb, hc]
    by_cases h1 : (up_board_cpld_reg_set_bit c (u32 (pin_at up_board_pins P).mux_ctrl_offset)
        UP_BOARD_PMUX_GPIO).1 ≠ 0
    · rw [if_pos h1]; rfl
    · rw [if_neg h1]
      have h0 := not_not.mp h1
      rw [h0]; rfl
  · simp only [if_neg hm]

/-! ## Claims about the GPIO operations of the pinmux -/

set_option maxRecDepth 100000 in
/-- C11: for every callback, pin table, pin index `o` and state: when the
`func_enabled` flag of pin `o` is false, `up_gpio_disable_free` makes no
`reg_set_bit` call and changes nothing; when it is true, the calls it makes are
`reg_set_bit(dir_ctrl_offset, func_dir)` if `func_dir` is not NONE, followed by
`reg_set_bit(mux_ctrl_offset, 1)` if a mux offset is assigned, whatever the
first call returned; the pin table is not touched and the function returns no
result.  On the shipped board with pin 0 flagged and data-out stuck low, both
calls are made although the first returns `-EIO`. -/
theorem gpio_disable_free_calls {σ : Type} (pd : up_board_pinctrl_pdata σ)
    (cs : List reg_set_bit_record) (o : Nat) :
    ((pin_at pd.pins o).func_enabled = false →
        up_gpio_disable_free (with_recording pd cs) o = with_recording pd cs
        ∧ up_gpio_disable_free pd o = pd)
    ∧ ((pin_at pd.pins o).func_enabled = true →
        up_gpio_disable_free (with_recording pd cs) o
          = with_recording (up_gpio_disable_free pd o)
              (cs ++ ((if (pin_at pd.pins o).func_dir ≠ UP_BOARD_PDIR_NONE then
                    [{ offset := u32 (pin_at pd.pins o).dir_ctrl_offset,
                       value := (pin_at pd.pins o).func_dir,
                       ret := (pd.reg_set_bit pd.cpld (u32 (pin_at pd.pins o).dir_ctrl_offset)
                                (pin_at pd.pins o).func_dir).1 }]
                  else [])
                ++ (if (pin_at pd.pins o).mux_ctrl_offset ≠ UP_BOARD_UNASSIGNED then
                    [{ offset := u32 (pin_at pd.pins o).mux_ctrl_offset,
                       value := UP_BOARD_PMUX_FUNC,
                       ret := (pd.reg_set_bit
                          (if (pin_at pd.pins o).func_dir ≠ UP_BOARD_PDIR_NONE then
                            (pd.reg_set_bit pd.cpld (u32 (pin_at pd.pins o).dir_ctrl_offset)
                              (pin_at pd.pins o).func_dir).2
                           else pd.cpld)
                          (u32 (pin_at pd.pins o).mux_ctrl_offset) UP_BOARD_PMUX_FUNC).1 }]
                  else []))))
    ∧ (up_gpio_disable_free pd o).pins = pd.pins
    ∧ (up_gpio_disable_free (with_recording
          (up_board_pinctrl_pdata_of (up_board_cpld_init soc_stuck_low) (fun i => i == 0)) []) 0).cpld.2
        = [{ offset := 9, value := 0, ret := - EIO }, { offset := 28, value := 1, ret := - EIO }] := by
  refine ⟨fun hf => ?_, fun hf => ?_, (disable_free_frame pd o).1, by decide⟩
  · constructor
    · unfold up_gpio_disable_free
      have : (pin_at (with_recording pd cs).pins o).func_enabled = false := hf
      simp only [this]
      rfl
    · unfold up_gpio_disable_free
      simp only [hf]
      rfl
  · unfold up_gpio_disable_free reg_set_bit_call with_recording recording
    dsimp only
    simp only [hf, if_true]
    by_cases hd : (pin_at pd.pins o).func_dir ≠ UP_BOARD_PDIR_NONE
    · by_cases hm : (pin_at pd.pins o).mux_ctrl_offset ≠ UP_BOARD_UNASSIGNED
      · simp only [if_pos hd, if_pos hm, List.append_assoc, List.singleton_append]
      · simp only [if_pos hd, if_neg hm, List.append_nil]
    · by_cases hm : (pin_at pd.pins o).mux_ctrl_offset ≠ UP_BOARD_UNASSIGNED
      · simp only [if_neg hd, if_pos hm, List.nil_append]
      · simp only [if_neg hd, if_neg hm, List.append_nil]

/-- C12: on the shipped board, for every pin index `P`, `u64` register and flag
state: if pin `P` has a mux-control offset, `up_gpio_request_enable` makes
exactly one `reg_set_bit` call, on that offset with value 0, and returns its
result; if the mux-control offset is unassigned it returns 0 with no call and
no change at all; in both cases the pin table (so every `func_enabled` flag)
is unchanged, every bit other than the mux bit is unchanged, and in
particular the direction-control bit of every pin is unchanged. -/
theorem gpio_request_enable_claims (c : up_board_cpld) (en : Nat → Bool)
    (cs : List reg_set_bit_record) (P : Nat) (hR : c.dir_reg < 2 ^ 64) :
    ((pin_at up_board_pins P).mux_ctrl_offset ≠ UP_BOARD_UNASSIGNED →
        up_gpio_request_enable (with_recording (up_board_pinctrl_pdata_of c en) cs) P
          = ((up_board_cpld_reg_set_bit c (u32 (pin_at up_board_pins P).mux_ctrl_offset)
                UP_BOARD_PMUX_GPIO).1,
             with_recording
              (up_board_pinctrl_pdata_of
                (up_board_cpld_reg_set_bit c (u32 (pin_at up_board_pins P).mux_ctrl_offset)
                  UP_BOARD_PMUX_GPIO).2 en)
              (cs ++ [{ offset := u32 (pin_at up_board_pins P).mux_ctrl_offset,
                        value := 0,
                        ret := (up_board_cpld_reg_set_bit c
                          (u32 (pin_at up_board_pins P).mux_ctrl_offset)
                          UP_BOARD_PMUX_GPIO).1 }])))
    ∧ ((pin_at up_board_pins P).mux_ctrl_offset = UP_BOARD_UNASSIGNED →
        up_gpio_request_enable (with_recording (up_board_pinctrl_pdata_of c en) cs) P
          = (0, with_recording (up_board_pinctrl_pdata_of c en) cs))
    ∧ (up_gpio_request_enable (with_recording (up_board_pinctrl_pdata_of c en) cs) P).2.pins
        = (up_board_pinctrl_pdata_of c en).pins
    ∧ (∀ i, i ≠ u32 (pin_at up_board_pins P).mux_ctrl_offset →
        (up_gpio_request_enable (with_recording (up_board_pinctrl_pdata_of c en) cs)
            P).2.cpld.1.dir_reg.testBit i = c.dir_reg.testBit i)
    ∧ (∀ q, q < 28 →
        (up_gpio_request_enable (with_recording (up_board_pinctrl_pdata_of c en) cs)
            P).2.cpld.1.dir_reg.testBit (u32 (pin_at up_board_pins q).dir_ctrl_offset)
          = c.dir_reg.testBit (u32 (pin_at up_board_pins q).dir_ctrl_offset)) := by
  have hrec := request_enable_recording (up_board_pinctrl_pdata_of c en) cs P
  have hship := request_enable_shipped c en P
  rw [(pdata_of_layout c en P).2.1] at hrec
  have hbits : ∀ i, i ≠ u32 (pin_at up_board_pins P).mux_ctrl_offset →
      (up_gpio_request_enable (with_recording (up_board_pinctrl_pdata_of c en) cs)
          P).2.cpld.1.dir_reg.testBit i = c.dir_reg.testBit i := by
    intro i hi
    rw [hrec, hship]
    by_cases hm : (pin_at up_board_pins P).mux_ctrl_offset ≠ UP_BOARD_UNASSIGNED
    · rw [if_pos hm]
      have hlt : u32 (pin_at up_board_pins P).mux_ctrl_offset < 64 := by
        have := (shipped_mux_offset P hm).2
        omega
      show (up_board_cpld_reg_set_bit c _ _).2.dir_reg.testBit i = _
      rw [set_bit_dir_reg, new_dir_reg_testBit _ hR hlt, if_neg hi]
    · rw [if_neg hm]
      rfl
  refine ⟨fun hm => ?_, fun hm => ?_, ?_, hbits, fun q hq => ?_⟩
  · rw [hrec, hship, if_pos hm, if_pos hm]
    rfl
  · have hm' : ¬ (pin_at up_board_pins P).mux_ctrl_offset ≠ UP_BOARD_UNASSIGNED :=
      fun h => h hm
    rw [hrec, hship, if_neg hm', if_neg hm', List.append_nil]
  · rw [hrec]
    exact (request_enable_frame (up_board_pinctrl_pdata_of c en) P).1
  · apply hbits
    intro e
    have hd := shipped_dir_offset q hq
    by_cases hm : (pin_at up_board_pins P).mux_ctrl_offset ≠ UP_BOARD_UNASSIGNED
    · have := (shipped_mux_offset P hm).1
      omega
    · rw [not_not.mp hm] at e
      have h4 : u32 UP_BOARD_UNASSIGNED = 4294967295 := by decide
      rw [h4] at e
      omega

set_option maxRecDepth 100000 in
/-- Witness for C12: pin 0 (mux bit 28) claimed as GPIO on the initial board. -/
theorem gpio_request_enable_claims_witness :
    (up_board_cpld_init soc_stuck_low).dir_reg < 2 ^ 64
    ∧ (up_gpio_request_enable (with_recording
        (up_board_pinctrl_pdata_of (up_board_cpld_init soc_stuck_low) (fun _ => false)) []) 0).1 = 0
    ∧ (up_gpio_request_enable (with_recording
        (up_board_pinctrl_pdata_of (up_board_cpld_init soc_stuck_low) (fun _ => false)) []) 0).2.cpld.2
        = [{ offset := 28, value := 0, ret := 0 }]
    ∧ (∀ q, q < 28 →
        (up_gpio_request_enable (with_recording
          (up_board_pinctrl_pdata_of (up_board_cpld_init soc_stuck_low) (fun _ => false)) [])
            0).2.cpld.1.dir_reg.testBit (u32 (pin_at up_board_pins q).dir_ctrl_offset)
          = (up_board_cpld_init soc_stuck_low).dir_reg.testBit
              (u32 (pin_at up_board_pins q).dir_ctrl_offset)) :=
  ⟨by decide, by decide, by decide,
    (gpio_request_enable_claims (up_board_cpld_init soc_stuck_low) (fun _ => false) [] 0
      (by decide)).2.2.2.2⟩

/-- C13: on the shipped board, for every pin `P` of the pin table, requested
direction, `u64` register and flag state: `up_gpio_set_direction` makes exactly
one `reg_set_bit` call, on the direction-control offset of `P`, with value 1
for input and 0 for output, and returns the result of that call; when the
result is 0 the register bit at that offset is 1 exactly when input was
requested and every other bit is unchanged. -/
theorem gpio_set_direction_claims (c : up_board_cpld) (en : Nat → Bool)
    (cs : List reg_set_bit_record) (P : Nat) (input : Bool)
    (hP : P < up_board_pins.length) (hR : c.dir_reg < 2 ^ 64) :
    up_gpio_set_direction (with_recording (up_board_pinctrl_pdata_of c en) cs) P input
        = ((up_board_cpld_reg_set_bit c (u32 (pin_at up_board_pins P).dir_ctrl_offset)
              (if input then 1 else 0)).1,
           with_recording
            (up_board_pinctrl_pdata_of
              (up_board_cpld_reg_set_bit c (u32 (pin_at up_board_pins P).dir_ctrl_offset)
                (if input then 1 else 0)).2 en)
            (cs ++ [{ offset := u32 (pin_at up_board_pins P).dir_ctrl_offset,
                      value := if input then 1 else 0,
                      ret := (up_board_cpld_reg_set_bit c
                        (u32 (pin_at up_board_pins P).dir_ctrl_offset)
                        (if input then 1 else 0)).1 }]))
    ∧ ((up_gpio_set_direction (with_recording (up_board_pinctrl_pdata_of c en) cs) P input).1 = 0 →
        ∀ i, (up_gpio_set_direction (with_recording (up_board_pinctrl_pdata_of c en) cs)
            P input).2.cpld.1.dir_reg.testBit i
          = if i = u32 (pin_at up_board_pins P).dir_ctrl_offset then input
            else c.dir_reg.testBit i) := by
  have hrec := set_direction_recording (up_board_pinctrl_pdata_of c en) cs P input
  have hship := set_direction_shipped c en P input
  rw [(pdata_of_layout c en P).1] at hrec
  have hval : (if input then UP_BOARD_PDIR_IN else UP_BOARD_PDIR_OUT : Int)
      = if input then 1 else 0 := by
    cases input <;> rfl
  rw [hval] at hrec hship
  have heq : up_gpio_set_direction (with_recording (up_board_pinctrl_pdata_of c en) cs) P input
        = ((up_board_cpld_reg_set_bit c (u32 (pin_at up_board_pins P).dir_ctrl_offset)
              (if input then 1 else 0)).1,
           with_recording
            (up_board_pinctrl_pdata_of
              (up_board_cpld_reg_set_bit c (u32 (pin_at up_board_pins P).dir_ctrl_offset)
                (if input then 1 else 0)).2 en)
            (cs ++ [{ offset := u32 (pin_at up_board_pins P).dir_ctrl_offset,
                      value := if input then 1 else 0,
                      ret := (up_board_cpld_reg_set_bit c
                        (u32 (pin_at up_board_pins P).dir_ctrl_offset)
                        (if input then 1 else 0)).1 }])) := by
    rw [hrec, hship]
  refine ⟨heq, fun _ i => ?_⟩
  rw [heq]
  have hlt : u32 (pin_at up_board_pins P).dir_ctrl_offset < 64 := by
    have := shipped_dir_offset P (by simpa [up_board_pins] using hP)
    omega
  show (up_board_cpld_reg_set_bit c _ _).2.dir_reg.testBit i = _
  rw [set_bit_dir_reg, new_dir_reg_testBit _ hR hlt]
  cases input <;> simp

set_option maxRecDepth 100000 in
/-- Witness for C13: pin 9 (direction bit 7) set to output on the initial
board, on hardware that echoes `0x0FFFFF7F`. -/
theorem gpio_set_direction_claims_witness :
    9 < up_board_pins.length
    ∧ (up_board_cpld_init (soc_echo 0x0FFFFF7F)).dir_reg < 2 ^ 64
    ∧ (up_gpio_set_direction (with_recording
        (up_board_pinctrl_pdata_of (up_board_cpld_init (soc_echo 0x0FFFFF7F)) (fun _ => false))
        []) 9 false).1 = 0
    ∧ (up_gpio_set_direction (with_recording
        (up_board_pinctrl_pdata_of (up_board_cpld_init (soc_echo 0x0FFFFF7F)) (fun _ => false))
        []) 9 false).2.cpld.2 = [{ offset := 7, value := 0, ret := 0 }]
    ∧ (up_gpio_set_direction (with_recording
        (up_board_pinctrl_pdata_of (up_board_cpld_init (soc_echo 0x0FFFFF7F)) (fun _ => false))
        []) 9 false).2.cpld.1.dir_reg = 0x0FFFFF7F := by
  have h := (gpio_set_direction_claims (up_board_cpld_init (soc_echo 0x0FFFFF7F))
    (fun _ => false) [] 9 false (by decide) (by decide)).1
  refine ⟨by decide, by decide, ?_, ?_, ?_⟩
  · rw [h]; decide
  · rw [h]; decide
  · rw [h]; decide

/-! ## Claims about the direction/value consumer -/

set_option maxRecDepth 100000 in
/-- C14 as stated fails: on the initial board with SoC calls that succeed and
hardware that echoes `0x0FFFFDFF`, `up_gpio_dir_out` for header pin 0 calls the
pinmux direction-set path first and the SoC pin's `gpiod_direction_output`
second; and when the CPLD update fails (data-out stuck low) it returns `-EIO`
and the SoC pin's direction is never set. -/
theorem gpio_dir_out_cpld_first :
    (up_gpio_dir_out (gpio_kernel_of (up_board_cpld_init (soc_echo 0x0FFFFDFF))
        (fun _ => false) (fun _ => 0)) 0 1).2.calls
      = [gpio_call.pinctrl_gpio_direction_output 0 0, gpio_call.gpiod_direction_output 0 1 0]
    ∧ (up_gpio_dir_out (gpio_kernel_of (up_board_cpld_init soc_stuck_low)
        (fun _ => false) (fun _ => 0)) 0 1).1 = - EIO
    ∧ (up_gpio_dir_out (gpio_kernel_of (up_board_cpld_init soc_stuck_low)
        (fun _ => false) (fun _ => 0)) 0 1).2.calls
      = [gpio_call.pinctrl_gpio_direction_output 0 (- EIO)] := by
  refine ⟨by decide, by decide, by decide⟩

/-- C14 amended: for every header pin and state, `up_gpio_dir_out` first updates
the CPLD direction bit to output through the pinmux direction-set path
(`up_gpio_set_direction` with `input = false`); if that fails its error is
returned and the SoC pin is not touched; only if it succeeds is the SoC pin's
direction set to output, with the requested value, and that call's result
returned. -/
theorem gpio_dir_out_order {σ : Type} (k : gpio_kernel σ) (offset : Nat) (value : Int) :
    up_gpio_dir_out k offset value
      = if (up_gpio_set_direction k.pdata offset false).1 ≠ 0 then
          ((up_gpio_set_direction k.pdata offset false).1,
           { k with
             pdata := (up_gpio_set_direction k.pdata offset false).2,
             calls := k.calls ++ [gpio_call.pinctrl_gpio_direction_output offset
               (up_gpio_set_direction k.pdata offset false).1] })
        else
          (k.soc_ret k.nsoc,
           { pdata := (up_gpio_set_direction k.pdata offset false).2,
             soc_ret := k.soc_ret,
             nsoc := k.nsoc + 1,
             calls := k.calls ++ [gpio_call.pinctrl_gpio_direction_output offset 0,
               gpio_call.gpiod_direction_output offset value (k.soc_ret k.nsoc)] }) := by
  unfold up_gpio_dir_out pinctrl_gpio_direction_output gpiod_direction_output soc_gpio_call
  dsimp only
  by_cases h : (up_gpio_set_direction k.pdata offset false).1 ≠ 0
  · simp only [if_pos h]
  · simp only [if_neg h, not_not.mp h, List.append_assoc, List.singleton_append]

/-- C15: for every header pin and state, `up_gpio_dir_in` first sets the SoC
pin's direction to input; if that fails its error is returned and nothing else
happens: the pinmux is not called and the pinctrl platform data, with the CPLD
register and its log, is unchanged (no shift cycle); if it succeeds the CPLD
direction bit is then set to input through the pinmux direction-set path
(`up_gpio_set_direction` with `input = true`, which on the shipped board is
`reg_set_bit(dir_ctrl_offset, 1)`) and that result is returned. -/
theorem gpio_dir_in_order {σ : Type} (k : gpio_kernel σ) (offset : Nat) :
    up_gpio_dir_in k offset
        = (if k.soc_ret k.nsoc ≠ 0 then
            (k.soc_ret k.nsoc,
             { k with
               nsoc := k.nsoc + 1,
               calls := k.calls ++ [gpio_call.gpiod_direction_input offset (k.soc_ret k.nsoc)] })
          else
            ((up_gpio_set_direction k.pdata offset true).1,
             { pdata := (up_gpio_set_direction k.pdata offset true).2,
               soc_ret := k.soc_ret,
               nsoc := k.nsoc + 1,
               calls := k.calls ++ [gpio_call.gpiod_direction_input offset 0,
                 gpio_call.pinctrl_gpio_direction_input offset
                  (up_gpio_set_direction k.pdata offset true).1] }))
    ∧ (k.soc_ret k.nsoc ≠ 0 →
        (up_gpio_dir_in k offset).1 = k.soc_ret k.nsoc
        ∧ (up_gpio_dir_in k offset).2.pdata = k.pdata)
    ∧ (∀ (c : up_board_cpld) (en : Nat → Bool) (sr : Nat → Int),
        (sr 0 ≠ 0 →
          (up_gpio_dir_in (gpio_kernel_of c en sr) offset).2.pdata.cpld = c
          ∧ shift_cycles (up_gpio_dir_in (gpio_kernel_of c en sr) offset).2.pdata.cpld.soc.log
              = shift_cycles c.soc.log)
        ∧ (sr 0 = 0 →
          (up_gpio_dir_in (gpio_kernel_of c en sr) offset).1
              = (up_board_cpld_reg_set_bit c (u32 (pin_at up_board_pins offset).dir_ctrl_offset)
                  1).1
          ∧ (up_gpio_dir_in (gpio_kernel_of c en sr) offset).2.pdata.cpld
              = (up_board_cpld_reg_set_bit c (u32 (pin_at up_board_pins offset).dir_ctrl_offset)
                  1).2)) := by
  have hmain : up_gpio_dir_in k offset
        = (if k.soc_ret k.nsoc ≠ 0 then
            (k.soc_ret k.nsoc,
             { k with
               nsoc := k.nsoc + 1,
               calls := k.calls ++ [gpio_call.gpiod_direction_input offset (k.soc_ret k.nsoc)] })
          else
            ((up_gpio_set_direction k.pdata offset true).1,
             { pdata := (up_gpio_set_direction k.pdata offset true).2,
               soc_ret := k.soc_ret,
               nsoc := k.nsoc + 1,
               calls := k.calls ++ [gpio_call.gpiod_direction_input offset 0,
                 gpio_call.pinctrl_gpio_direction_input offset
                  (up_gpio_set_direction k.pdata offset true).1] })) := by
    unfold up_gpio_dir_in pinctrl_gpio_direction_input gpiod_direction_input soc_gpio_call
    dsimp only
    by_cases h : k.soc_ret k.nsoc ≠ 0
    · simp only [if_pos h]
    · simp only [if_neg h, not_not.mp h, List.append_assoc, List.singleton_append]
  refine ⟨hmain, fun h => ?_, fun c en sr => ⟨fun h => ?_, fun h => ?_⟩⟩
  · rw [hmain, if_pos h]
    exact ⟨rfl, rfl⟩
  · have : up_gpio_dir_in (gpio_kernel_of c en sr) offset
        = (sr 0, { gpio_kernel_of c en sr with
            nsoc := 1, calls := [gpio_call.gpiod_direction_input offset (sr 0)] }) := by
      unfold up_gpio_dir_in gpiod_direction_input soc_gpio_call
      dsimp only
      have h' : (gpio_kernel_of c en sr).soc_ret (gpio_kernel_of c en sr).nsoc ≠ 0 := h
      rw [if_pos h']
      rfl
    rw [this]
    exact ⟨rfl, rfl⟩
  · have : up_gpio_dir_in (gpio_kernel_of c en sr) offset
        = pinctrl_gpio_direction_input
            { gpio_kernel_of c en sr with
              nsoc := 1, calls := [gpio_call.gpiod_direction_input offset (sr 0)] } offset := by
      unfold up_gpio_dir_in gpiod_direction_input soc_gpio_call
      dsimp only
      have h' : ¬ (gpio_kernel_of c en sr).soc_ret (gpio_kernel_of c en sr).nsoc ≠ 0 :=
        fun hh => hh h
      rw [if_neg h']
      rfl
    rw [this]
    unfold pinctrl_gpio_direction_input
    dsimp only
    have hs := set_direction_shipped c en offset true
    have hk : (gpio_kernel_of c en sr).pdata = up_board_pinctrl_pdata_of c en := rfl
    rw [hk, hs]
    exact ⟨rfl, rfl⟩

set_option maxRecDepth 100000 in
/-- C16 as stated fails: on the initial board `up_gpio_free` for header pin 0
performs the pinmux release first and the SoC pin's `gpio_free` second. -/
theorem gpio_free_pinmux_first :
    (up_gpio_free (gpio_kernel_of (up_board_cpld_init soc_stuck_low)
        (fun _ => false) (fun _ => 0)) 0).calls
      = [gpio_call.pinctrl_free_gpio 0, gpio_call.gpio_free 0]
    ∧ (up_gpio_free (gpio_kernel_of (up_board_cpld_init soc_stuck_low)
        (fun _ => false) (fun _ => 0)) 0).calls
      ≠ [gpio_call.gpio_free 0, gpio_call.pinctrl_free_gpio 0] := by
  refine ⟨by decide, by decide⟩

/-- C16 amended: for every header pin and state, `up_gpio_free` first performs
the pinmux release of the pin (`up_gpio_disable_free`) and only afterwards
releases ownership of the underlying SoC pin (`gpio_free`). -/
theorem gpio_free_order {σ : Type} (k : gpio_kernel σ) (offset : Nat) :
    up_gpio_free k offset
      = { pdata := up_gpio_disable_free k.pdata offset,
          soc_ret := k.soc_ret,
          nsoc := k.nsoc,
          calls := k.calls ++ [gpio_call.pinctrl_free_gpio offset, gpio_call.gpio_free offset] } := by
  unfold up_gpio_free gpio_free pinctrl_free_gpio
  simp only [List.append_assoc, List.singleton_append]

/-- The direction bit stored by `up_gpio_set_direction` on the shipped board. -/
theorem set_direction_bit (c : up_board_cpld) (en : Nat → Bool) (P : Nat) (input : Bool)
    (hP : P < 28) (hR : c.dir_reg < 2 ^ 64) :
    (up_gpio_set_direction (up_board_pinctrl_pdata_of c en) P input).2.cpld.dir_reg.testBit
        (u32 (pin_at up_board_pins P).dir_ctrl_offset) = input := by
  rw [set_direction_shipped]
  have hlt : u32 (pin_at up_board_pins P).dir_ctrl_offset < 64 := by
    have := shipped_dir_offset P hP
    omega
  show (up_board_cpld_reg_set_bit c _ _).2.dir_reg.testBit _ = _
  rw [set_bit_dir_reg, new_dir_reg_testBit _ hR hlt]
  cases input <;> simp [UP_BOARD_PDIR_IN, UP_BOARD_PDIR_OUT]

/-- Complete description of `up_gpio_request`. -/
theorem gpio_request_eq {σ : Type} (k : gpio_kernel σ) (offset : Nat) :
    up_gpio_request k offset
      = if (up_gpio_request_enable k.pdata offset).1 ≠ 0 then
          ((up_gpio_request_enable k.pdata offset).1,
           { k with
             pdata := (up_gpio_request_enable k.pdata offset).2,
             calls := k.calls ++ [gpio_call.pinctrl_request_gpio offset
               (up_gpio_request_enable k.pdata offset).1] })
        else if (up_gpio_set_direction (up_gpio_request_enable k.pdata offset).2 offset
            (decide (k.soc_ret k.nsoc ≠ 0))).1 ≠ 0 then
          ((up_gpio_set_direction (up_gpio_request_enable k.pdata offset).2 offset
              (decide (k.soc_ret k.nsoc ≠ 0))).1,
           { pdata := (up_gpio_set_direction (up_gpio_request_enable k.pdata offset).2 offset
               (decide (k.soc_ret k.nsoc ≠ 0))).2,
             soc_ret := k.soc_ret,
             nsoc := k.nsoc + 1,
             calls := k.calls ++ [gpio_call.pinctrl_request_gpio offset 0,
               gpio_call.gpiod_get_direction offset (k.soc_ret k.nsoc),
               if k.soc_ret k.nsoc ≠ 0 then
                 gpio_call.pinctrl_gpio_direction_input offset
                   (up_gpio_set_direction (up_gpio_request_enable k.pdata offset).2 offset
                     (decide (k.soc_ret k.nsoc ≠ 0))).1
               else
                 gpio_call.pinctrl_gpio_direction_output offset
                   (up_gpio_set_direction (up_gpio_request_enable k.pdata offset).2 offset
                     (decide (k.soc_ret k.nsoc ≠ 0))).1] })
        else
          (k.soc_ret (k.nsoc + 1),
           { pdata := (up_gpio_set_direction (up_gpio_request_enable k.pdata offset).2 offset
               (decide (k.soc_ret k.nsoc ≠ 0))).2,
             soc_ret := k.soc_ret,
             nsoc := k.nsoc + 1 + 1,
             calls := k.calls ++ [gpio_call.pinctrl_request_gpio offset 0,
               gpio_call.gpiod_get_direction offset (k.soc_ret k.nsoc),
               if k.soc_ret k.nsoc ≠ 0 then gpio_call.pinctrl_gpio_direction_input offset 0
               else gpio_call.pinctrl_gpio_direction_output offset 0,
               gpio_call.gpio_request offset (k.soc_ret (k.nsoc + 1))] }) := by
  unfold up_gpio_request gpio_request gpiod_get_direction soc_gpio_call pinctrl_request_gpio
    pinctrl_gpio_direction_input pinctrl_gpio_direction_output
  dsimp only
  by_cases h0 : (up_gpio_request_enable k.pdata offset).1 ≠ 0
  · simp only [if_pos h0]
  · have h00 := not_not.mp h0
    by_cases hd : k.soc_ret k.nsoc ≠ 0
    · have hb : decide (k.soc_ret k.nsoc ≠ 0) = true := by simp [hd]
      rw [hb]
      by_cases h1 : (up_gpio_set_direction (up_gpio_request_enable k.pdata offset).2 offset
          true).1 ≠ 0
      · simp [h00, hd, h1]
      · have h10 := not_not.mp h1
        simp [h00, hd, h10]
    · have hb : decide (k.soc_ret k.nsoc ≠ 0) = false := by simp [hd]
      have hd0 := not_not.mp hd
      rw [hb]
      by_cases h1 : (up_gpio_set_direction (up_gpio_request_enable k.pdata offset).2 offset
          false).1 ≠ 0
      · simp [h00, hd0, h1]
      · have h10 := not_not.mp h1
        simp [h00, hd0, h10]

set_option maxRecDepth 100000 in
/-- C17: for every header pin and state, `up_gpio_request` first makes the
pinmux GPIO claim; if that fails its error is returned and no SoC call is
made; otherwise it queries the SoC pin's direction and sets the CPLD direction
through the pinmux direction-set path, to input when the query is non-zero and
to output when it is zero; if that fails its error is returned and the SoC pin
is not acquired; only when both have succeeded is `gpio_request` called on the
SoC pin, last, and its result returned.  On the shipped board, when
`gpio_request` is reached the register bit at the pin's direction-control
offset is 1 exactly when the direction query was non-zero. -/
theorem gpio_request_order {σ : Type} (k : gpio_kernel σ) (offset : Nat) :
    ((up_gpio_request_enable k.pdata offset).1 ≠ 0 →
        (up_gpio_request k offset).1 = (up_gpio_request_enable k.pdata offset).1
        ∧ (up_gpio_request k offset).2.nsoc = k.nsoc
        ∧ (up_gpio_request k offset).2.calls
            = k.calls ++ [gpio_call.pinctrl_request_gpio offset
                (up_gpio_request_enable k.pdata offset).1])
    ∧ ((up_gpio_request_enable k.pdata offset).1 = 0 →
        (up_gpio_set_direction (up_gpio_request_enable k.pdata offset).2 offset
          (decide (k.soc_ret k.nsoc ≠ 0))).1 ≠ 0 →
        (up_gpio_request k offset).1
            = (up_gpio_set_direction (up_gpio_request_enable k.pdata offset).2 offset
                (decide (k.soc_ret k.nsoc ≠ 0))).1
        ∧ (up_gpio_request k offset).2.calls
            = k.calls ++ [gpio_call.pinctrl_request_gpio offset 0,
                gpio_call.gpiod_get_direction offset (k.soc_ret k.nsoc),
                if k.soc_ret k.nsoc ≠ 0 then
                  gpio_call.pinctrl_gpio_direction_input offset
                    (up_gpio_set_direction (up_gpio_request_enable k.pdata offset).2 offset
                      (decide (k.soc_ret k.nsoc ≠ 0))).1
                else
                  gpio_call.pinctrl_gpio_direction_output offset
                    (up_gpio_set_direction (up_gpio_request_enable k.pdata offset).2 offset
                      (decide (k.soc_ret k.nsoc ≠ 0))).1])
    ∧ ((up_gpio_request_enable k.pdata offset).1 = 0 →
        (up_gpio_set_direction (up_gpio_request_enable k.pdata offset).2 offset
          (decide (k.soc_ret k.nsoc ≠ 0))).1 = 0 →
        (up_gpio_request k offset).1 = k.soc_ret (k.nsoc + 1)
        ∧ (up_gpio_request k offset).2.pdata
            = (up_gpio_set_direction (up_gpio_request_enable k.pdata offset).2 offset
                (decide (k.soc_ret k.nsoc ≠ 0))).2
        ∧ (up_gpio_request k offset).2.calls
            = k.calls ++ [gpio_call.pinctrl_request_gpio offset 0,
                gpio_call.gpiod_get_direction offset (k.soc_ret k.nsoc),
                if k.soc_ret k.nsoc ≠ 0 then gpio_call.pinctrl_gpio_direction_input offset 0
                else gpio_call.pinctrl_gpio_direction_output offset 0,
                gpio_call.gpio_request offset (k.soc_ret (k.nsoc + 1))])
    ∧ (∀ (c : up_board_cpld) (en : Nat → Bool) (sr : Nat → Int),
        offset < 28 → c.dir_reg < 2 ^ 64 →
        (up_gpio_request_enable (up_board_pinctrl_pdata_of c en) offset).1 = 0 →
        (up_gpio_set_direction (up_gpio_request_enable (up_board_pinctrl_pdata_of c en) offset).2
          offset (decide (sr 0 ≠ 0))).1 = 0 →
        (up_gpio_request (gpio_kernel_of c en sr) offset).2.pdata.cpld.dir_reg.testBit
            (u32 (pin_at up_board_pins offset).dir_ctrl_offset) = decide (sr 0 ≠ 0))
    ∧ (up_gpio_request (gpio_kernel_of (up_board_cpld_init (soc_echo 0x0FFFFDFF))
          (fun _ => false) (fun _ => 0)) 0).2.calls
        = [gpio_call.pinctrl_request_gpio 0 0, gpio_call.gpiod_get_direction 0 0,
            gpio_call.pinctrl_gpio_direction_output 0 0, gpio_call.gpio_request 0 0] := by
  refine ⟨fun h => ?_, fun h0 h1 => ?_, fun h0 h1 => ?_, fun c en sr hP hR h0 h1 => ?_, by decide⟩
  · rw [gpio_request_eq, if_pos h]
    exact ⟨rfl, rfl, rfl⟩
  · have h0' : ¬ (up_gpio_request_enable k.pdata offset).1 ≠ 0 := fun hh => hh h0
    rw [gpio_request_eq, if_neg h0', if_pos h1]
    exact ⟨rfl, rfl⟩
  · have h0' : ¬ (up_gpio_request_enable k.pdata offset).1 ≠ 0 := fun hh => hh h0
    have h1' : ¬ (up_gpio_set_direction (up_gpio_request_enable k.pdata offset).2 offset
        (decide (k.soc_ret k.nsoc ≠ 0))).1 ≠ 0 := fun hh => hh h1
    rw [gpio_request_eq, if_neg h0', if_neg h1']
    exact ⟨rfl, rfl, rfl⟩
  · have hk : (gpio_kernel_of c en sr).pdata = up_board_pinctrl_pdata_of c en := rfl
    have hs : (gpio_kernel_of c en sr).soc_ret (gpio_kernel_of c en sr).nsoc = sr 0 := rfl
    have h0' : ¬ (up_gpio_request_enable (gpio_kernel_of c en sr).pdata offset).1 ≠ 0 := by
      rw [hk]; exact fun hh => hh h0
    have h1' : ¬ (up_gpio_set_direction
        (up_gpio_request_enable (gpio_kernel_of c en sr).pdata offset).2 offset
        (decide ((gpio_kernel_of c en sr).soc_ret (gpio_kernel_of c en sr).nsoc ≠ 0))).1 ≠ 0 := by
      rw [hk, hs]; exact fun hh => hh h1
    rw [gpio_request_eq, if_neg h0', if_neg h1']
    dsimp only
    rw [hk, hs]
    obtain ⟨c', hc', hR'⟩ : ∃ c' : up_board_cpld,
        (up_gpio_request_enable (up_board_pinctrl_pdata_of c en) offset).2
          = up_board_pinctrl_pdata_of c' en ∧ c'.dir_reg < 2 ^ 64 := by
      rw [request_enable_shipped]
      by_cases hm : (pin_at up_board_pins offset).mux_ctrl_offset ≠ UP_BOARD_UNASSIGNED
      · rw [if_pos hm]
        refine ⟨_, rfl, ?_⟩
        rw [set_bit_dir_reg]
        have := (shipped_mux_offset offset hm).2
        exact new_dir_reg_lt _ hR (by omega)
      · rw [if_neg hm]
        exact ⟨c, rfl, hR⟩
    rw [hc']
    exact set_direction_bit c' en offset _ hP hR'

/-! ## Claims about the indicator consumer and the initial register -/

set_option maxRecDepth 100000 in
/-- C18: for every callback, LED context and brightness level,
`up_led_brightness_set` makes exactly one `reg_set_bit` call, on the offset of
the LED, with value 1 when the level is not `LED_OFF` (zero) and 0 when it
is; any two non-zero levels give the same resulting state; the result of
`reg_set_bit` is dropped.  The LED contexts of the shipped board have offsets
31, 32 and 33, and on the real register store the register afterwards is the
stored value with that bit set to `level != 0`; with data-out stuck low the
call for LED 31 returns `-EIO` inside, which the function does not report. -/
theorem led_brightness_set_claims {σ : Type} (pd : up_board_leds_pdata σ)
    (cs : List reg_set_bit_record) (led : up_board_led) (value v w : Int) :
    up_led_brightness_set (leds_with_recording pd cs) led value
        = leds_with_recording (up_led_brightness_set pd led value)
            (cs ++ [{ offset := led.offset,
                      value := if value ≠ 0 then 1 else 0,
                      ret := (pd.reg_set_bit pd.cpld led.offset
                        (if value ≠ 0 then 1 else 0)).1 }])
    ∧ (v ≠ 0 → w ≠ 0 → up_led_brightness_set pd led v = up_led_brightness_set pd led w)
    ∧ (∀ c : up_board_cpld,
        up_board_leds_probe (up_board_leds_pdata_of c)
          = [{ offset := 31 }, { offset := 32 }, { offset := 33 }])
    ∧ (∀ c : up_board_cpld,
        (up_led_brightness_set (up_board_leds_pdata_of c) led value).cpld.dir_reg
          = new_dir_reg c.dir_reg led.offset (if value ≠ 0 then 1 else 0))
    ∧ (∀ (c : up_board_cpld) (i : Nat), c.dir_reg < 2 ^ 64 → led.offset < 64 →
        (up_led_brightness_set (up_board_leds_pdata_of c) led value).cpld.dir_reg.testBit i
          = if i = led.offset then decide (value ≠ 0) else c.dir_reg.testBit i)
    ∧ (up_led_brightness_set (leds_with_recording
          (up_board_leds_pdata_of (up_board_cpld_init soc_stuck_low)) []) { offset := 31 } 255).cpld.2
        = [{ offset := 31, value := 1, ret := - EIO }] := by
  refine ⟨rfl, fun hv hw => ?_, fun _ => rfl, fun c => ?_, fun c i hR hB => ?_, by decide⟩
  · unfold up_led_brightness_set
    have h1 : v ≠ LED_OFF := hv
    have h2 : w ≠ LED_OFF := hw
    simp only [if_pos h1, if_pos h2]
  · show (up_board_cpld_reg_set_bit c led.offset _).2.dir_reg = _
    rw [set_bit_dir_reg]
    rfl
  · show (up_board_cpld_reg_set_bit c led.offset _).2.dir_reg.testBit i = _
    have hval : (if value ≠ LED_OFF then (1 : Int) else 0) = if value ≠ 0 then 1 else 0 := rfl
    rw [set_bit_dir_reg, new_dir_reg_testBit _ hR hB, hval]
    by_cases hv : value ≠ 0
    · simp [hv]
    · simp [not_not.mp hv]

/-- C19: the static `up_board_cpld` starts with `dir_reg = 0x0FFFFFFF` and
`dir_reg_size = 34`; in that value the bit at the direction-control offset of
every pin of the shipped pin table is 1 (`UP_BOARD_PDIR_IN`), the bit at every
assigned mux-control offset is 0 (`UP_BOARD_PMUX_GPIO`), and the bits 31, 32
and 33 of the three LEDs are 0; the value fits the 34-bit width. -/
theorem initial_register_all_inputs (soc : Soc) :
    (up_board_cpld_init soc).dir_reg = 0x0FFFFFFF
    ∧ (up_board_cpld_init soc).dir_reg_size = 34
    ∧ (up_board_cpld_init soc).dir_reg = CPLD_DIR_REG_INIT
    ∧ CPLD_DIR_REG_INIT < 2 ^ 34
    ∧ (∀ p ∈ up_board_pins,
        CPLD_DIR_REG_INIT.testBit (u32 p.dir_ctrl_offset) = decide (UP_BOARD_PDIR_IN = 1)
        ∧ CPLD_DIR_REG_INIT.testBit (u32 p.dir_ctrl_offset) = true
        ∧ (p.mux_ctrl_offset ≠ UP_BOARD_UNASSIGNED →
            CPLD_DIR_REG_INIT.testBit (u32 p.mux_ctrl_offset) = false))
    ∧ UP_BOARD_PMUX_GPIO = 0
    ∧ (∀ l ∈ up_board_leds, CPLD_DIR_REG_INIT.testBit l.cpld_offset = false)
    ∧ up_board_leds.map (fun l => l.cpld_offset) = [31, 32, 33] := by
  refine ⟨rfl, rfl, rfl, by decide, by decide, rfl, by decide, rfl⟩



/-! ## Strobe pulses of a shift cycle -/

theorem spec_verify_phase_snoc (f : Nat → Int) (n : Nat) :
    spec_verify_phase f (n + 1)
      = spec_verify_phase f n ++ [Event.set_value Line.strobe_gpio 0,
          Event.set_value Line.strobe_gpio 1, Event.get_value Line.data_out_gpio (f n)] := by
  unfold spec_verify_phase
  rw [List.range_succ, List.flatMap_append]
  simp

theorem strobe_highs_append (l₁ l₂ : List Event) :
    strobe_highs (l₁ ++ l₂) = strobe_highs l₁ + strobe_highs l₂ := by
  simp [strobe_highs, List.count_append]

theorem strobe_lows_append (l₁ l₂ : List Event) :
    strobe_lows (l₁ ++ l₂) = strobe_lows l₁ + strobe_lows l₂ := by
  simp [strobe_lows, List.count_append]

theorem strobe_write_phase (R n : Nat) :
    strobe_highs (spec_write_phase R n) = n ∧ strobe_lows (spec_write_phase R n) = n := by
  induction n with
  | zero => simp [spec_write_phase, strobe_highs, strobe_lows]
  | succ n ih =>
    rw [spec_write_phase_succ, strobe_highs_append, strobe_lows_append, ih.1, ih.2]
    constructor
    · simp [strobe_highs, List.count_cons]; omega
    · simp [strobe_lows, List.count_cons]; omega

theorem strobe_verify_phase (f : Nat → Int) (n : Nat) :
    strobe_highs (spec_verify_phase f n) = n ∧ strobe_lows (spec_verify_phase f n) = n := by
  induction n generalizing f with
  | zero => simp [spec_verify_phase, strobe_highs, strobe_lows]
  | succ n ih =>
    rw [spec_verify_phase_succ, strobe_highs_append, strobe_lows_append, (ih _).1, (ih _).2]
    constructor
    · simp [strobe_highs, List.count_cons]; omega
    · simp [strobe_lows, List.count_cons]; omega

/-! ## Further claims about the register transport and the register store -/

/-- C21: for a register of width `N` with `1 <= N <= 64`, every invocation of
`cpld_reg_update` performs the whole shift whatever the register value: reset
pulse, `N` write steps, `N` verify steps.  When it returns 0 the verify phase
is followed by exactly one strobe low-then-high pulse, and the strobe line has
been driven low `2N+1` times and high `2N+1` times.  When it fails there is no
latch pulse: the strobe line has been driven low `2N` times and high `2N` times,
and after the last data-out sample only the error message is logged, no line
is driven. -/
theorem cpld_reg_update_pulses (c : up_board_cpld)
    (h1 : 1 ≤ c.dir_reg_size) (_h64 : c.dir_reg_size ≤ 64) :
    (∃ tail, (cpld_reg_update c).2.soc.log.drop c.soc.log.length
        = spec_reset_pulse ++ (spec_write_phase c.dir_reg c.dir_reg_size
          ++ (spec_verify_phase (fun k => c.soc.data_out (c.soc.nread + k)) c.dir_reg_size
          ++ tail))
      ∧ ((cpld_reg_update c).1 = 0 → tail = spec_latch_pulse)
      ∧ ((cpld_reg_update c).1 ≠ 0 →
          tail = [Event.pr_err c.dir_reg (dir_reg_verify c)] ∧ driven tail = []))
    ∧ ((cpld_reg_update c).1 = 0 →
        strobe_highs ((cpld_reg_update c).2.soc.log.drop c.soc.log.length)
            = 2 * c.dir_reg_size + 1
        ∧ strobe_lows ((cpld_reg_update c).2.soc.log.drop c.soc.log.length)
            = 2 * c.dir_reg_size + 1)
    ∧ ((cpld_reg_update c).1 ≠ 0 →
        strobe_highs ((cpld_reg_update c).2.soc.log.drop c.soc.log.length)
            = 2 * c.dir_reg_size
        ∧ strobe_lows ((cpld_reg_update c).2.soc.log.drop c.soc.log.length)
            = 2 * c.dir_reg_size
        ∧ ∃ pre, (cpld_reg_update c).2.soc.log.drop c.soc.log.length
            = pre ++ [Event.get_value Line.data_out_gpio
                (c.soc.data_out (c.soc.nread + (c.dir_reg_size - 1))),
              Event.pr_err c.dir_reg (dir_reg_verify c)]) := by
  have hlog := (cpld_reg_update_soc c).2
  have hret := cpld_reg_update_ret c
  have hdrop : (cpld_reg_update c).2.soc.log.drop c.soc.log.length
      = spec_reset_pulse ++ (spec_write_phase c.dir_reg c.dir_reg_size
          ++ (spec_verify_phase (fun k => c.soc.data_out (c.soc.nread + k)) c.dir_reg_size
          ++ (if dir_reg_verify c ≠ c.dir_reg then [Event.pr_err c.dir_reg (dir_reg_verify c)]
              else spec_latch_pulse))) := by
    rw [hlog, List.drop_left]
  have hcount : strobe_highs (spec_reset_pulse ++ (spec_write_phase c.dir_reg c.dir_reg_size
          ++ spec_verify_phase (fun k => c.soc.data_out (c.soc.nread + k)) c.dir_reg_size))
        = 2 * c.dir_reg_size
      ∧ strobe_lows (spec_reset_pulse ++ (spec_write_phase c.dir_reg c.dir_reg_size
          ++ spec_verify_phase (fun k => c.soc.data_out (c.soc.nread + k)) c.dir_reg_size))
        = 2 * c.dir_reg_size := by
    simp only [strobe_highs_append, strobe_lows_append, (strobe_write_phase _ _).1,
      (strobe_write_phase _ _).2, (strobe_verify_phase _ _).1, (strobe_verify_phase _ _).2]
    constructor
    · simp [strobe_highs, spec_reset_pulse, List.count_cons]; omega
    · simp [strobe_lows, spec_reset_pulse, List.count_cons]; omega
  by_cases hv : dir_reg_verify c ≠ c.dir_reg
  · have hr : (cpld_reg_update c).1 ≠ 0 := by
      rw [hret, if_pos hv]; decide
    rw [if_pos hv] at hdrop
    refine ⟨⟨_, hdrop, fun h => absurd h hr, fun _ => ⟨rfl, rfl⟩⟩, fun h => absurd h hr,
      fun _ => ⟨?_, ?_, ?_⟩⟩
    · rw [hdrop, ← List.append_assoc, ← List.append_assoc, strobe_highs_append,
        List.append_assoc, hcount.1]
      simp [strobe_highs]
    · rw [hdrop, ← List.append_assoc, ← List.append_assoc, strobe_lows_append,
        List.append_assoc, hcount.2]
      simp [strobe_lows]
    · obtain ⟨n, hn⟩ : ∃ n, c.dir_reg_size = n + 1 := ⟨c.dir_reg_size - 1, by omega⟩
      rw [hdrop, hn, spec_verify_phase_snoc, Nat.add_sub_cancel]
      refine ⟨spec_reset_pulse ++ (spec_write_phase c.dir_reg (n + 1)
        ++ (spec_verify_phase (fun k => c.soc.data_out (c.soc.nread + k)) n
        ++ [Event.set_value Line.strobe_gpio 0, Event.set_value Line.strobe_gpio 1])), ?_⟩
      simp
  · have hr : (cpld_reg_update c).1 = 0 := by
      rw [hret, if_neg hv]
    rw [if_neg hv] at hdrop
    refine ⟨⟨_, hdrop, fun _ => rfl, fun h => absurd hr h⟩, fun _ => ⟨?_, ?_⟩,
      fun h => absurd hr h⟩
    · rw [hdrop, ← List.append_assoc, ← List.append_assoc, strobe_highs_append,
        List.append_assoc, hcount.1]
      simp [strobe_highs, spec_latch_pulse, List.count_cons]
    · rw [hdrop, ← List.append_assoc, ← List.append_assoc, strobe_lows_append,
        List.append_assoc, hcount.2]
      simp [strobe_lows, spec_latch_pulse, List.count_cons]

set_option maxRecDepth 100000 in
/-- Witness for C21: the initial 34-bit register on hardware that echoes it
(69 strobe pulses). -/
theorem cpld_reg_update_pulses_witness :
    1 ≤ (up_board_cpld_init (soc_echo 0x0FFFFFFF)).dir_reg_size
    ∧ (up_board_cpld_init (soc_echo 0x0FFFFFFF)).dir_reg_size ≤ 64
    ∧ (cpld_reg_update (up_board_cpld_init (soc_echo 0x0FFFFFFF))).1 = 0
    ∧ strobe_highs ((cpld_reg_update (up_board_cpld_init (soc_echo 0x0FFFFFFF))).2.soc.log.drop
        (up_board_cpld_init (soc_echo 0x0FFFFFFF)).soc.log.length) = 2 * 34 + 1 :=
  ⟨by decide, by decide, by decide,
    ((cpld_reg_update_pulses (up_board_cpld_init (soc_echo 0x0FFFFFFF))
      (by decide) (by decide)).2.1 (by decide)).1⟩

/-- C22: for a `u64` register, an offset `B < 64` and a value `V`: if
`up_board_cpld_reg_set_bit(B, V)` returns non-zero (it then returns `-EIO`, a
verification failure), an immediately repeated call returns 0 and is a no-op:
no line is driven or sampled and the register keeps the value whose shift
failed, whatever the hardware would read back (`soc'` is any state of the
signal lines at the time of the retry). -/
theorem reg_set_bit_retry_is_noop (c : up_board_cpld) (B : Nat) (V : Int) (soc' : Soc)
    (hR : c.dir_reg < 2 ^ 64) (hB : B < 64)
    (hfail : (up_board_cpld_reg_set_bit c B V).1 ≠ 0) :
    (up_board_cpld_reg_set_bit c B V).1 = - EIO
    ∧ (up_board_cpld_reg_set_bit c B V).2.dir_reg ≠ c.dir_reg
    ∧ up_board_cpld_reg_set_bit (up_board_cpld_reg_set_bit c B V).2 B V
        = (0, (up_board_cpld_reg_set_bit c B V).2)
    ∧ up_board_cpld_reg_set_bit { (up_board_cpld_reg_set_bit c B V).2 with soc := soc' } B V
        = (0, { (up_board_cpld_reg_set_bit c B V).2 with soc := soc' })
    ∧ shift_cycles
        (up_board_cpld_reg_set_bit (up_board_cpld_reg_set_bit c B V).2 B V).2.soc.log
        = shift_cycles (up_board_cpld_reg_set_bit c B V).2.soc.log := by
  obtain ⟨hne, _, hret, hreg⟩ := set_bit_failure c B V hfail
  have hbit : (up_board_cpld_reg_set_bit c B V).2.dir_reg.testBit B = decide (V ≠ 0) := by
    rw [hreg, new_dir_reg_testBit V hR hB]; simp
  have hlt : (up_board_cpld_reg_set_bit c B V).2.dir_reg < 2 ^ 64 := by
    rw [hreg]; exact new_dir_reg_lt V hR hB
  have h2 := set_bit_noop (up_board_cpld_reg_set_bit c B V).2 B V hlt hB hbit
  refine ⟨hret, by rw [hreg]; exact hne, h2, ?_, by rw [h2]⟩
  exact set_bit_noop { (up_board_cpld_reg_set_bit c B V).2 with soc := soc' } B V hlt hB hbit

set_option maxRecDepth 100000 in
/-- Witness for C22: setting bit 31 of the initial register with data-out
stuck low fails; the retry, even on hardware that would echo, is a no-op. -/
theorem reg_set_bit_retry_is_noop_witness :
    (up_board_cpld_init soc_stuck_low).dir_reg < 2 ^ 64 ∧ (31 : Nat) < 64
    ∧ (up_board_cpld_reg_set_bit (up_board_cpld_init soc_stuck_low) 31 1).1 ≠ 0
    ∧ up_board_cpld_reg_set_bit
        { (up_board_cpld_reg_set_bit (up_board_cpld_init soc_stuck_low) 31 1).2 with
          soc := soc_echo 0x8FFFFFFF } 31 1
        = (0, { (up_board_cpld_reg_set_bit (up_board_cpld_init soc_stuck_low) 31 1).2 with
          soc := soc_echo 0x8FFFFFFF }) :=
  ⟨by decide, by decide, by decide,
    (reg_set_bit_retry_is_noop (up_board_cpld_init soc_stuck_low) 31 1 (soc_echo 0x8FFFFFFF)
      (by decide) (by decide) (by decide)).2.2.2.1⟩

/-- C23: with register width 34, for every offset `B` with `34 <= B < 64` and
every stored register value whose bit `B` is clear, `up_board_cpld_reg_set_bit(B,
1)` returns `-EIO` whatever the data-out samples are, as long as each is 0 or
1: the verification value is below `2^34` while the value shifted has bit `B`
set. -/
theorem reg_set_bit_above_width_fails (c : up_board_cpld) (B : Nat)
    (hN : c.dir_reg_size = 34) (h34 : 34 ≤ B) (hB : B < 64)
    (hclear : c.dir_reg.testBit B = false)
    (hbit : ∀ k, k < 34 →
      c.soc.data_out (c.soc.nread + k) = 0 ∨ c.soc.data_out (c.soc.nread + k) = 1) :
    (up_board_cpld_reg_set_bit c B 1).1 = - EIO
    ∧ dir_reg_verify { c with dir_reg := (up_board_cpld_reg_set_bit c B 1).2.dir_reg } < 2 ^ 34
    ∧ (up_board_cpld_reg_set_bit c B 1).2.dir_reg.testBit B = true := by
  have hnew : new_dir_reg c.dir_reg B 1 = c.dir_reg ||| (1 <<< B) % 2 ^ 64 := by
    simp [new_dir_reg]
  have hset : (new_dir_reg c.dir_reg B 1).testBit B = true := by
    rw [hnew, testBit_set hB]; simp
  have hne : new_dir_reg c.dir_reg B 1 ≠ c.dir_reg := by
    intro e
    rw [e, hclear] at hset
    exact Bool.noConfusion hset
  have hvbit : ∀ j, (dir_reg_verify { c with dir_reg := new_dir_reg c.dir_reg B 1 }).testBit j
      = (decide (j < 34) && decide (c.soc.data_out (c.soc.nread + (34 - 1 - j)) = 1)) := by
    intro j
    have := dir_reg_verify_testBit { c with dir_reg := new_dir_reg c.dir_reg B 1 }
      (by show c.dir_reg_size ≤ 64; omega)
      (by intro k hk; exact hbit k (by have : k < c.dir_reg_size := hk; omega)) j
    rw [this]
    show (decide (j < c.dir_reg_size) && _) = _
    rw [hN]
  have hvne : dir_reg_verify { c with dir_reg := new_dir_reg c.dir_reg B 1 }
      ≠ new_dir_reg c.dir_reg B 1 := by
    intro e
    have := hvbit B
    rw [e, hset] at this
    have hB' : ¬ B < 34 := by omega
    simp [hB'] at this
  refine ⟨?_, ?_, ?_⟩
  · rw [set_bit_unfold, if_pos hne, cpld_reg_update_ret]
    exact if_pos hvne
  · rw [set_bit_dir_reg]
    apply Nat.lt_pow_two_of_testBit
    intro i hi
    rw [hvbit i]
    have : ¬ i < 34 := by omega
    simp [this]
  · rw [set_bit_dir_reg]; exact hset

set_option maxRecDepth 100000 in
/-- Witness for C23: offset 40 on the initial register, data-out echoing the
low 34 bits. -/
theorem reg_set_bit_above_width_fails_witness :
    (up_board_cpld_init (soc_echo 0x0FFFFFFF)).dir_reg_size = 34
    ∧ 34 ≤ (40 : Nat) ∧ (40 : Nat) < 64
    ∧ (up_board_cpld_init (soc_echo 0x0FFFFFFF)).dir_reg.testBit 40 = false
    ∧ (up_board_cpld_reg_set_bit (up_board_cpld_init (soc_echo 0x0FFFFFFF)) 40 1).1 = - EIO :=
  ⟨rfl, by decide, by decide, by decide,
    (reg_set_bit_above_width_fails (up_board_cpld_init (soc_echo 0x0FFFFFFF)) 40
      rfl (by decide) (by decide) (by decide)
      (fun k _ => by
        show (if Nat.testBit 0x0FFFFFFF (33 - (0 + k) % 34) then (1 : Int) else 0) = 0 ∨
          (if Nat.testBit 0x0FFFFFFF (33 - (0 + k) % 34) then (1 : Int) else 0) = 1
        split
        · exact Or.inr rfl
        · exact Or.inl rfl)).1⟩

theorem oe_highs_append (l₁ l₂ : List Event) :
    oe_highs (l₁ ++ l₂) = oe_highs l₁ + oe_highs l₂ := by
  simp [oe_highs, List.count_append]

theorem oe_highs_write_phase (R n : Nat) : oe_highs (spec_write_phase R n) = 0 := by
  induction n with
  | zero => simp [spec_write_phase, oe_highs]
  | succ n ih =>
    rw [spec_write_phase_succ, oe_highs_append, ih]
    simp [oe_highs, List.count_cons]

theorem oe_highs_verify_phase (f : Nat → Int) (n : Nat) :
    oe_highs (spec_verify_phase f n) = 0 := by
  induction n generalizing f with
  | zero => simp [spec_verify_phase, oe_highs]
  | succ n ih =>
    rw [spec_verify_phase_succ, oe_highs_append, ih]
    simp [oe_highs, List.count_cons]

/-- A shift cycle never drives the output-enable line high. -/
theorem oe_highs_cpld_reg_update (c : up_board_cpld) :
    oe_highs (cpld_reg_update c).2.soc.log = oe_highs c.soc.log := by
  rw [(cpld_reg_update_soc c).2]
  simp only [oe_highs_append, oe_highs_write_phase, oe_highs_verify_phase]
  split <;> simp [oe_highs, spec_reset_pulse, spec_latch_pulse, List.count_cons]

set_option maxRecDepth 100000 in
/-- C24: `up_board_cpld_setup` drives output-enable high only after the shift
cycle that loads the initial configuration has verified.  If a line cannot be
set up, that error is returned and nothing is driven.  If the initial
`cpld_reg_update` fails, its error (`-EIO`) is returned, the state is the one
left by `cpld_reg_update` and output-enable has not been driven high.  If it
succeeds, the log continues with the whole shift cycle ending in the latch
pulse, followed by output-enable driven high as the last action, and 0 is
returned.  On the initial board this gives `-EIO` with data-out stuck low and
0 with hardware that echoes the register. -/
theorem cpld_setup_output_enable (env : gpio_lookup) (c : up_board_cpld) :
    (up_board_cpld_setup_loop env cpld_gpios ≠ 0 →
        up_board_cpld_setup env c = (up_board_cpld_setup_loop env cpld_gpios, c))
    ∧ (up_board_cpld_setup_loop env cpld_gpios = 0 → (cpld_reg_update c).1 ≠ 0 →
        (up_board_cpld_setup env c).1 = (cpld_reg_update c).1
        ∧ (up_board_cpld_setup env c).1 = - EIO
        ∧ (up_board_cpld_setup env c).2 = (cpld_reg_update c).2
        ∧ oe_highs (up_board_cpld_setup env c).2.soc.log = oe_highs c.soc.log)
    ∧ (up_board_cpld_setup_loop env cpld_gpios = 0 → (cpld_reg_update c).1 = 0 →
        (up_board_cpld_setup env c).1 = 0
        ∧ (up_board_cpld_setup env c).2.soc.log
            = c.soc.log ++ (spec_reset_pulse ++ (spec_write_phase c.dir_reg c.dir_reg_size
              ++ (spec_verify_phase (fun k => c.soc.data_out (c.soc.nread + k)) c.dir_reg_size
              ++ (spec_latch_pulse ++ [Event.set_value Line.oe_gpio 1]))))
        ∧ oe_highs (up_board_cpld_setup env c).2.soc.log = oe_highs c.soc.log + 1)
    ∧ (oe_highs (up_board_cpld_setup env c).2.soc.log
        = oe_highs c.soc.log + if (up_board_cpld_setup env c).1 = 0 then 1 else 0)
    ∧ (up_board_cpld_setup gpio_lookup_ok (up_board_cpld_init soc_stuck_low)).1 = - EIO
    ∧ oe_highs (up_board_cpld_setup gpio_lookup_ok (up_board_cpld_init soc_stuck_low)).2.soc.log
        = 0
    ∧ (up_board_cpld_setup gpio_lookup_ok (up_board_cpld_init (soc_echo 0x0FFFFFFF))).1 = 0
    ∧ (up_board_cpld_setup gpio_lookup_ok
        (up_board_cpld_init (soc_echo 0x0FFFFFFF))).2.soc.log.getLast?
        = some (Event.set_value Line.oe_gpio 1) := by
  have hA : up_board_cpld_setup_loop env cpld_gpios ≠ 0 →
      up_board_cpld_setup env c = (up_board_cpld_setup_loop env cpld_gpios, c) := by
    intro h
    unfold up_board_cpld_setup
    rw [if_pos h]
  have hB : up_board_cpld_setup_loop env cpld_gpios = 0 → (cpld_reg_update c).1 ≠ 0 →
      up_board_cpld_setup env c = cpld_reg_update c := by
    intro h0 h1
    unfold up_board_cpld_setup
    rw [if_neg (fun hh => hh h0)]
    dsimp only
    rw [if_pos h1]
  have hC : up_board_cpld_setup_loop env cpld_gpios = 0 → (cpld_reg_update c).1 = 0 →
      up_board_cpld_setup env c
        = (0, { (cpld_reg_update c).2 with
            soc := gpiod_set_value (cpld_reg_update c).2.soc Line.oe_gpio 1 }) := by
    intro h0 h1
    unfold up_board_cpld_setup
    rw [if_neg (fun hh => hh h0)]
    dsimp only
    rw [if_neg (fun hh => hh h1)]
  have hret := cpld_reg_update_ret c
  have hB' : up_board_cpld_setup_loop env cpld_gpios = 0 → (cpld_reg_update c).1 ≠ 0 →
        (up_board_cpld_setup env c).1 = (cpld_reg_update c).1
        ∧ (up_board_cpld_setup env c).1 = - EIO
        ∧ (up_board_cpld_setup env c).2 = (cpld_reg_update c).2
        ∧ oe_highs (up_board_cpld_setup env c).2.soc.log = oe_highs c.soc.log := by
    intro h0 h1
    rw [hB h0 h1]
    refine ⟨rfl, ?_, rfl, oe_highs_cpld_reg_update c⟩
    by_cases hv : dir_reg_verify c ≠ c.dir_reg
    · rw [hret, if_pos hv]
    · rw [hret, if_neg hv] at h1
      exact absurd rfl h1
  have hC' : up_board_cpld_setup_loop env cpld_gpios = 0 → (cpld_reg_update c).1 = 0 →
        (up_board_cpld_setup env c).1 = 0
        ∧ (up_board_cpld_setup env c).2.soc.log
            = c.soc.log ++ (spec_reset_pulse ++ (spec_write_phase c.dir_reg c.dir_reg_size
              ++ (spec_verify_phase (fun k => c.soc.data_out (c.soc.nread + k)) c.dir_reg_size
              ++ (spec_latch_pulse ++ [Event.set_value Line.oe_gpio 1]))))
        ∧ oe_highs (up_board_cpld_setup env c).2.soc.log = oe_highs c.soc.log + 1 := by
    intro h0 h1
    rw [hC h0 h1]
    have hv : ¬ dir_reg_verify c ≠ c.dir_reg := by
      intro hv
      rw [hret, if_pos hv] at h1
      exact absurd h1 (by decide)
    have hlog := (cpld_reg_update_soc c).2
    rw [if_neg hv] at hlog
    refine ⟨rfl, ?_, ?_⟩
    · show (cpld_reg_update c).2.soc.log ++ [Event.set_value Line.oe_gpio 1] = _
      rw [hlog]
      simp only [List.append_assoc]
    · show oe_highs ((cpld_reg_update c).2.soc.log ++ [Event.set_value Line.oe_gpio 1]) = _
      rw [oe_highs_append, oe_highs_cpld_reg_update]
      simp [oe_highs]
  refine ⟨hA, hB', hC', ?_, by decide, by decide, by decide, by decide⟩
  by_cases h0 : up_board_cpld_setup_loop env cpld_gpios = 0
  · by_cases h1 : (cpld_reg_update c).1 = 0
    · rw [(hC' h0 h1).2.2, (hC' h0 h1).1]
      simp
    · have hne : (up_board_cpld_setup env c).1 ≠ 0 := by
        rw [(hB' h0 h1).1]; exact h1
      rw [(hB' h0 h1).2.2.2, if_neg hne]
      simp
  · have hne : (up_board_cpld_setup env c).1 ≠ 0 := by
      rw [hA h0]; exact h0
    rw [if_neg hne, hA h0]
    simp



/-! ## Claim and release of pins over the register store -/

/-- The register value stored by `up_gpio_request_enable` over the register
store, whatever the result of the shift cycle. -/
theorem request_enable_real_reg (pd : up_board_pinctrl_pdata up_board_cpld) (o : Nat)
    (hcb : pd.reg_set_bit = up_board_cpld_reg_set_bit) :
    (up_gpio_request_enable pd o).2.cpld.dir_reg
      = if (pin_at pd.pins o).mux_ctrl_offset ≠ UP_BOARD_UNASSIGNED
        then new_dir_reg pd.cpld.dir_reg (u32 (pin_at pd.pins o).mux_ctrl_offset)
          UP_BOARD_PMUX_GPIO
        else pd.cpld.dir_reg := by
  unfold up_gpio_request_enable
  dsimp only
  split
  · split <;> simp [reg_set_bit_call, hcb, set_bit_dir_reg]
  · rfl

/-- The register value stored by `up_gpio_disable_free` over the register
store: the value of one loop iteration of `up_pinmux_set_mux` when the flag is
set, the old value otherwise. -/
theorem disable_free_real_reg (pd : up_board_pinctrl_pdata up_board_cpld) (o : Nat)
    (hcb : pd.reg_set_bit = up_board_cpld_reg_set_bit) :
    (up_gpio_disable_free pd o).cpld.dir_reg
      = if (pin_at pd.pins o).func_enabled = true
        then pin_reg (pin_at pd.pins o) pd.cpld.dir_reg else pd.cpld.dir_reg := by
  unfold up_gpio_disable_free pin_reg
  dsimp only
  split
  · split <;> split <;> simp [reg_set_bit_call, hcb, set_bit_dir_reg]
  · rfl

/-- The register value stored by `up_gpio_set_direction` over the register
store. -/
theorem set_direction_real_reg (pd : up_board_pinctrl_pdata up_board_cpld) (o : Nat)
    (input : Bool) (hcb : pd.reg_set_bit = up_board_cpld_reg_set_bit) :
    (up_gpio_set_direction pd o input).2.cpld.dir_reg
      = new_dir_reg pd.cpld.dir_reg (u32 (pin_at pd.pins o).dir_ctrl_offset)
          (if input then UP_BOARD_PDIR_IN else UP_BOARD_PDIR_OUT) := by
  simp [up_gpio_set_direction, reg_set_bit_call, hcb, set_bit_dir_reg]

/-- The pin table, the group table and the callback are left alone by
`up_gpio_set_direction`. -/
theorem set_direction_frame {σ : Type} (pd : up_board_pinctrl_pdata σ) (o : Nat) (input : Bool) :
    (up_gpio_set_direction pd o input).2.pins = pd.pins
    ∧ (up_gpio_set_direction pd o input).2.groups = pd.groups
    ∧ (up_gpio_set_direction pd o input).2.reg_set_bit = pd.reg_set_bit :=
  ⟨rfl, rfl, rfl⟩

/-- C25: pins 0 and 1 form group 2 (`i2c0_grp`) and share the mux-control
offset 28.  For every `u64` register value and every state of the flags, if
selecting group 2 logs no verification failure, then in the state it reaches
bit 28 of the stored register is 1; after `up_gpio_request_enable` for pin 0
and then for pin 1 it is 0; and after the following `up_gpio_disable_free` for
pin 0 it is 1 again (function-selected), pin 1 having been claimed as GPIO and
never released.  The three later calls may or may not verify. -/
theorem shared_mux_bit_interferes (c : up_board_cpld) (en : Nat → Bool) (fn : Nat)
    (hR : c.dir_reg < 2 ^ 64)
    (hv : verify_errors (up_pinmux_set_mux (up_board_pinctrl_pdata_of c en) fn 2).2.cpld.soc.log
      = verify_errors c.soc.log) :
    up_board_pinctrl_groups.getD 2 [] = [0, 1]
    ∧ (pin_at up_board_pins 0).mux_ctrl_offset = 28
    ∧ (pin_at up_board_pins 1).mux_ctrl_offset = 28
    ∧ (up_pinmux_set_mux (up_board_pinctrl_pdata_of c en) fn 2).1 = 0
    ∧ (up_pinmux_set_mux (up_board_pinctrl_pdata_of c en) fn 2).2.cpld.dir_reg.testBit 28 = true
    ∧ (up_gpio_request_enable (up_gpio_request_enable
          (up_pinmux_set_mux (up_board_pinctrl_pdata_of c en) fn 2).2 0).2 1).2.cpld.dir_reg.testBit 28
        = false
    ∧ (up_gpio_disable_free (up_gpio_request_enable (up_gpio_request_enable
          (up_pinmux_set_mux (up_board_pinctrl_pdata_of c en) fn 2).2 0).2 1).2 0).cpld.dir_reg.testBit 28
        = true := by
  obtain ⟨h0, hreg, hpins⟩ := set_mux_shipped 2 fn c en hv
  have hgs := group_reg_spec (pin_at up_board_pins) (up_board_pinctrl_groups.getD 2 [])
    c.dir_reg hR (shipped_group_ok 2)
  have hcb1 : (up_pinmux_set_mux (up_board_pinctrl_pdata_of c en) fn 2).2.reg_set_bit
      = up_board_cpld_reg_set_bit :=
    (set_mux_loop_frame ((up_board_pinctrl_pdata_of c en).groups.getD 2 [])
      (up_board_pinctrl_pdata_of c en)).1
  have hp0 : pin_at (up_pinmux_set_mux (up_board_pinctrl_pdata_of c en) fn 2).2.pins 0
      = { dir_ctrl_offset := 9, mux_ctrl_offset := 28, func_dir := UP_BOARD_PDIR_OUT,
          func_enabled := true } := by
    rw [hpins 0, if_pos (by decide)]; rfl
  have hp1 : pin_at (up_pinmux_set_mux (up_board_pinctrl_pdata_of c en) fn 2).2.pins 1
      = { dir_ctrl_offset := 23, mux_ctrl_offset := 28, func_dir := UP_BOARD_PDIR_OUT,
          func_enabled := true } := by
    rw [hpins 1, if_pos (by decide)]; rfl
  have hR1 : (up_pinmux_set_mux (up_board_pinctrl_pdata_of c en) fn 2).2.cpld.dir_reg < 2 ^ 64 := by
    rw [hreg]; exact hgs.1
  have hb1 : (up_pinmux_set_mux (up_board_pinctrl_pdata_of c en) fn 2).2.cpld.dir_reg.testBit 28
      = true := by
    rw [hreg]
    exact (hgs.2.2 0 (by decide)).2 (by decide)
  generalize (up_pinmux_set_mux (up_board_pinctrl_pdata_of c en) fn 2).2 = s1 at hcb1 hp0 hp1 hR1 hb1 ⊢
  -- first claim: pin 0
  have hf2 := request_enable_frame s1 0
  have hr2 := request_enable_real_reg s1 0 hcb1
  rw [hp0] at hr2
  have hm : ((28 : Int) ≠ UP_BOARD_UNASSIGNED) := by decide
  have hu : u32 28 = 28 := by decide
  have hu9 : u32 9 = 9 := by decide
  simp only [hm, if_true, ne_eq, not_false_eq_true, hu] at hr2
  have hcb2 : (up_gpio_request_enable s1 0).2.reg_set_bit = up_board_cpld_reg_set_bit := by
    rw [hf2.2.2]; exact hcb1
  have hR2 : (up_gpio_request_enable s1 0).2.cpld.dir_reg < 2 ^ 64 := by
    rw [hr2]; exact new_dir_reg_lt _ hR1 (by decide)
  have hq1 : pin_at (up_gpio_request_enable s1 0).2.pins 1
      = { dir_ctrl_offset := 23, mux_ctrl_offset := 28, func_dir := UP_BOARD_PDIR_OUT,
          func_enabled := true } := by
    rw [hf2.1]; exact hp1
  have hq0 : pin_at (up_gpio_request_enable s1 0).2.pins 0
      = { dir_ctrl_offset := 9, mux_ctrl_offset := 28, func_dir := UP_BOARD_PDIR_OUT,
          func_enabled := true } := by
    rw [hf2.1]; exact hp0
  generalize (up_gpio_request_enable s1 0).2 = s2 at hcb2 hR2 hq1 hq0 ⊢
  -- second claim: pin 1
  have hf3 := request_enable_frame s2 1
  have hr3 := request_enable_real_reg s2 1 hcb2
  rw [hq1] at hr3
  simp only [hm, if_true, ne_eq, not_false_eq_true, hu] at hr3
  have hcb3 : (up_gpio_request_enable s2 1).2.reg_set_bit = up_board_cpld_reg_set_bit := by
    rw [hf3.2.2]; exact hcb2
  have hR3 : (up_gpio_request_enable s2 1).2.cpld.dir_reg < 2 ^ 64 := by
    rw [hr3]; exact new_dir_reg_lt _ hR2 (by decide)
  have hb3 : (up_gpio_request_enable s2 1).2.cpld.dir_reg.testBit 28 = false := by
    rw [hr3, new_dir_reg_testBit _ hR2 (by decide)]
    simp [ UP_BOARD_PMUX_GPIO]
  have ht0 : pin_at (up_gpio_request_enable s2 1).2.pins 0
      = { dir_ctrl_offset := 9, mux_ctrl_offset := 28, func_dir := UP_BOARD_PDIR_OUT,
          func_enabled := true } := by
    rw [hf3.1]; exact hq0
  generalize (up_gpio_request_enable s2 1).2 = s3 at hcb3 hR3 hb3 ht0 ⊢
  -- release of pin 0
  have hr4 := disable_free_real_reg s3 0 hcb3
  rw [ht0] at hr4
  have hfd : (UP_BOARD_PDIR_OUT ≠ UP_BOARD_PDIR_NONE) := by decide
  simp only [if_true, pin_reg, hm, hfd, ne_eq, not_false_eq_true, hu, hu9] at hr4
  refine ⟨by decide, by decide, by decide, h0, hb1, hb3, ?_⟩
  rw [hr4, new_dir_reg_testBit _ (new_dir_reg_lt _ hR3 (by decide)) (by decide)]
  simp [UP_BOARD_PMUX_FUNC]

set_option maxRecDepth 100000 in
/-- Witness for C25: the register `0x0F7FFDFF` (bits 9, 23 and 28 clear) on
hardware that echoes `0x1F7FFDFF`, so that selecting group 2 runs one shift
cycle, for bit 28, and it verifies. -/
theorem shared_mux_bit_interferes_witness :
    (0x0F7FFDFF : Nat) < 2 ^ 64
    ∧ shift_cycles (up_pinmux_set_mux (up_board_pinctrl_pdata_of
          { dir_reg := 0x0F7FFDFF, dir_reg_size := 34, soc := soc_echo 0x1F7FFDFF }
          (fun _ => false)) 2 2).2.cpld.soc.log = 1
    ∧ verify_errors (up_pinmux_set_mux (up_board_pinctrl_pdata_of
          { dir_reg := 0x0F7FFDFF, dir_reg_size := 34, soc := soc_echo 0x1F7FFDFF }
          (fun _ => false)) 2 2).2.cpld.soc.log = 0
    ∧ (up_gpio_disable_free (up_gpio_request_enable (up_gpio_request_enable
          (up_pinmux_set_mux (up_board_pinctrl_pdata_of
            { dir_reg := 0x0F7FFDFF, dir_reg_size := 34, soc := soc_echo 0x1F7FFDFF }
            (fun _ => false)) 2 2).2 0).2 1).2 0).cpld.dir_reg.testBit 28 = true :=
  ⟨by decide, by decide, by decide,
    (shared_mux_bit_interferes
      { dir_reg := 0x0F7FFDFF, dir_reg_size := 34, soc := soc_echo 0x1F7FFDFF }
      (fun _ => false) 2 (by decide) (by decide)).2.2.2.2.2.2⟩

/-! ## Invariants of sequences of consumer operations -/

/-- The stored register stays a `u64` value under `new_dir_reg`, for every
offset. -/
theorem new_dir_reg_lt_u64 {R : Nat} (B : Nat) (V : Int) (hR : R < 2 ^ 64) :
    new_dir_reg R B V < 2 ^ 64 := by
  unfold new_dir_reg
  split
  · exact Nat.or_lt_two_pow hR (Nat.mod_lt _ (by positivity))
  · exact lt_of_le_of_lt Nat.and_le_left hR

/-- The stored register stays below `2 ^ 34` under `new_dir_reg` for an offset
below 34. -/
theorem new_dir_reg_lt_width {R B : Nat} (V : Int) (hR : R < 2 ^ 34) (hB : B < 34) :
    new_dir_reg R B V < 2 ^ 34 := by
  unfold new_dir_reg
  split
  · rw [one_shiftLeft_mod (by omega)]
    exact Nat.or_lt_two_pow hR (Nat.pow_lt_pow_right (by decide) hB)
  · exact lt_of_le_of_lt Nat.and_le_left hR

/-- An index past the end of the pin table yields the pin with no direction
and no mux control. -/
theorem pin_at_ge (pins : List up_board_pin_info) (P : Nat) (h : pins.length ≤ P) :
    pin_at pins P
      = { dir_ctrl_offset := UP_BOARD_UNASSIGNED, mux_ctrl_offset := UP_BOARD_UNASSIGNED,
          func_dir := UP_BOARD_PDIR_NONE, func_enabled := false } := by
  unfold pin_at
  exact List.getD_eq_default _ _ h

/-- A pin of the shipped table with a function-direction has its
direction-control offset in `0..27`. -/
theorem shipped_func_dir_offset (P : Nat)
    (h : (pin_at up_board_pins P).func_dir ≠ UP_BOARD_PDIR_NONE) :
    u32 (pin_at up_board_pins P).dir_ctrl_offset < 28 := by
  by_cases hP : P < 28
  · exact shipped_dir_offset P hP
  · exfalso
    apply h
    rw [pin_at_ge _ _ (by simp only [up_board_pins, List.length_cons, List.length_nil]; omega)]

section invariants

variable {σ : Type} (f : σ → Nat → Int → Int × σ) (good : σ → Prop) (okB : Nat → Prop)

/-- One `reg_set_bit` call with an admitted offset keeps `pdata_inv`. -/
theorem reg_set_bit_call_inv (hf : ∀ s B V, okB B → good s → good (f s B V).2)
    (pd : up_board_pinctrl_pdata σ) (off v : Int) (hinv : pdata_inv f good pd)
    (hoff : okB (u32 off)) : pdata_inv f good (reg_set_bit_call pd off v).2 := by
  obtain ⟨h1, h2, h3, h4⟩ := hinv
  refine ⟨h1, h2, h3, ?_⟩
  show good (pd.reg_set_bit pd.cpld (u32 off) v).2
  rw [h1]
  exact hf _ _ _ hoff h4

/-- The function `up_gpio_set_direction` keeps `pdata_inv` when the
direction-control offset of the pin is admitted. -/
theorem set_direction_inv (hf : ∀ s B V, okB B → good s → good (f s B V).2)
    (pd : up_board_pinctrl_pdata σ) (o : Nat) (input : Bool) (hinv : pdata_inv f good pd)
    (hoff : okB (u32 (pin_at up_board_pins o).dir_ctrl_offset)) :
    pdata_inv f good (up_gpio_set_direction pd o input).2 := by
  obtain ⟨hd, _, _⟩ := hinv.2.2.1 o
  unfold up_gpio_set_direction
  dsimp only
  apply reg_set_bit_call_inv f good okB hf _ _ _ hinv
  rw [hd]
  exact hoff

/-- The function `up_gpio_request_enable` keeps `pdata_inv`. -/
theorem request_enable_inv (hf : ∀ s B V, okB B → good s → good (f s B V).2)
    (hok : ∀ B, B < 34 → okB B)
    (pd : up_board_pinctrl_pdata σ) (o : Nat) (hinv : pdata_inv f good pd) :
    pdata_inv f good (up_gpio_request_enable pd o).2 := by
  obtain ⟨_, hm, _⟩ := hinv.2.2.1 o
  unfold up_gpio_request_enable
  dsimp only
  split
  · rename_i h
    have hoff : okB (u32 (pin_at pd.pins o).mux_ctrl_offset) := by
      rw [hm] at h ⊢
      exact hok _ (by have := (shipped_mux_offset o h).2; omega)
    have hc := reg_set_bit_call_inv f good okB hf pd _ UP_BOARD_PMUX_GPIO hinv hoff
    split <;> exact hc
  · exact hinv

/-- The function `up_gpio_disable_free` keeps `pdata_inv`. -/
theorem disable_free_inv (hf : ∀ s B V, okB B → good s → good (f s B V).2)
    (hok : ∀ B, B < 34 → okB B)
    (pd : up_board_pinctrl_pdata σ) (o : Nat) (hinv : pdata_inv f good pd) :
    pdata_inv f good (up_gpio_disable_free pd o) := by
  obtain ⟨hd, hm, hfd⟩ := hinv.2.2.1 o
  have step1 : pdata_inv f good
      (if (pin_at pd.pins o).func_dir ≠ UP_BOARD_PDIR_NONE then
        (reg_set_bit_call pd (pin_at pd.pins o).dir_ctrl_offset (pin_at pd.pins o).func_dir).2
      else pd) := by
    split
    · rename_i h
      apply reg_set_bit_call_inv f good okB hf _ _ _ hinv
      rw [hfd] at h
      rw [hd]
      exact hok _ (by have := shipped_func_dir_offset o h; omega)
    · exact hinv
  unfold up_gpio_disable_free
  dsimp only
  split
  · split
    · rename_i h
      apply reg_set_bit_call_inv f good okB hf _ _ _ step1
      rw [hm] at h ⊢
      exact hok _ (by have := (shipped_mux_offset o h).2; omega)
    · exact step1
  · exact hinv

end invariants

section invariants_mux

variable {σ : Type} (f : σ → Nat → Int → Int × σ) (good : σ → Prop) (okB : Nat → Prop)

/-- One iteration of the loop of `up_pinmux_set_mux` keeps `pdata_inv`,
whatever it returns. -/
theorem set_mux_pin_inv (hf : ∀ s B V, okB B → good s → good (f s B V).2)
    (hok : ∀ B, B < 34 → okB B)
    (pd : up_board_pinctrl_pdata σ) (o : Nat) (hinv : pdata_inv f good pd) :
    pdata_inv f good (up_pinmux_set_mux_pin pd o).2 := by
  obtain ⟨hd, hm, hfd⟩ := hinv.2.2.1 o
  have step1 : pdata_inv f good
      (if (pin_at pd.pins o).func_dir ≠ UP_BOARD_PDIR_NONE then
        reg_set_bit_call pd (pin_at pd.pins o).dir_ctrl_offset (pin_at pd.pins o).func_dir
      else (0, pd)).2 := by
    split
    · rename_i h
      apply reg_set_bit_call_inv f good okB hf _ _ _ hinv
      rw [hfd] at h
      rw [hd]
      exact hok _ (by have := shipped_func_dir_offset o h; omega)
    · exact hinv
  unfold up_pinmux_set_mux_pin
  dsimp only
  generalize (if (pin_at pd.pins o).func_dir ≠ UP_BOARD_PDIR_NONE then
        reg_set_bit_call pd (pin_at pd.pins o).dir_ctrl_offset (pin_at pd.pins o).func_dir
      else (0, pd)) = r1 at step1 ⊢
  split
  · exact step1
  · have step2 : pdata_inv f good
        (if (pin_at pd.pins o).mux_ctrl_offset ≠ UP_BOARD_UNASSIGNED then
          reg_set_bit_call r1.2 (pin_at pd.pins o).mux_ctrl_offset UP_BOARD_PMUX_FUNC
        else (0, r1.2)).2 := by
      split
      · rename_i h
        apply reg_set_bit_call_inv f good okB hf _ _ _ step1
        rw [hm] at h ⊢
        exact hok _ (by have := (shipped_mux_offset o h).2; omega)
      · exact step1
    generalize (if (pin_at pd.pins o).mux_ctrl_offset ≠ UP_BOARD_UNASSIGNED then
          reg_set_bit_call r1.2 (pin_at pd.pins o).mux_ctrl_offset UP_BOARD_PMUX_FUNC
        else (0, r1.2)) = r2 at step2 ⊢
    split
    · exact step2
    · obtain ⟨a, b, c, d⟩ := step2
      refine ⟨a, b, ?_, d⟩
      intro q
      show same_layout (pin_at (r2.2.pins.set o _) q) _
      rw [pin_at_set]
      split
      · rename_i hq
        rw [hq.1]
        exact c o
      · exact c q

/-- The loop of `up_pinmux_set_mux` keeps `pdata_inv`, whatever it returns. -/
theorem set_mux_loop_inv (hf : ∀ s B V, okB B → good s → good (f s B V).2)
    (hok : ∀ B, B < 34 → okB B) (l : List Nat) :
    ∀ pd : up_board_pinctrl_pdata σ, pdata_inv f good pd →
      pdata_inv f good (up_pinmux_set_mux_loop l pd).2 := by
  induction l with
  | nil => intro pd hinv; exact hinv
  | cons o rest ih =>
    intro pd hinv
    rw [up_pinmux_set_mux_loop]
    split
    · exact set_mux_pin_inv f good okB hf hok pd o hinv
    · exact ih _ (set_mux_pin_inv f good okB hf hok pd o hinv)

end invariants_mux

/-! ## The platform data left by the operations of `up_board_gpio.c` -/

/-- Platform data after `up_gpio_dir_in`. -/
theorem gpio_dir_in_pdata {σ : Type} (k : gpio_kernel σ) (o : Nat) :
    (up_gpio_dir_in k o).2.pdata
      = if k.soc_ret k.nsoc ≠ 0 then k.pdata else (up_gpio_set_direction k.pdata o true).2 := by
  unfold up_gpio_dir_in gpiod_direction_input soc_gpio_call pinctrl_gpio_direction_input
  dsimp only
  split <;> rfl

/-- Platform data after `up_gpio_dir_out`. -/
theorem gpio_dir_out_pdata {σ : Type} (k : gpio_kernel σ) (o : Nat) (v : Int) :
    (up_gpio_dir_out k o v).2.pdata = (up_gpio_set_direction k.pdata o false).2 := by
  unfold up_gpio_dir_out gpiod_direction_output soc_gpio_call pinctrl_gpio_direction_output
  dsimp only
  split <;> rfl

/-- Platform data after `up_gpio_request`. -/
theorem gpio_request_pdata {σ : Type} (k : gpio_kernel σ) (o : Nat) :
    (up_gpio_request k o).2.pdata
      = if (up_gpio_request_enable k.pdata o).1 ≠ 0 then (up_gpio_request_enable k.pdata o).2
        else (up_gpio_set_direction (up_gpio_request_enable k.pdata o).2 o
          (decide (k.soc_ret k.nsoc ≠ 0))).2 := by
  rw [gpio_request_eq]
  split
  · rfl
  · split <;> rfl

/-- Platform data after `up_gpio_free`. -/
theorem gpio_free_pdata {σ : Type} (k : gpio_kernel σ) (o : Nat) :
    (up_gpio_free k o).pdata = up_gpio_disable_free k.pdata o := rfl

/-! ## Invariants over the consumer operations -/

/-- Every consumer operation keeps `pdata_inv`, when it addresses the shipped
tables or every offset is admitted. -/
theorem run_op_inv {σ : Type} (f : σ → Nat → Int → Int × σ) (good : σ → Prop)
    (okB : Nat → Prop) (hf : ∀ s B V, okB B → good s → good (f s B V).2)
    (hok : ∀ B, B < 34 → okB B) (k : gpio_kernel σ) (op : consumer_op)
    (hvalid : op.valid ∨ ∀ B, okB B) (hinv : pdata_inv f good k.pdata) :
    pdata_inv f good (run_op k op).pdata := by
  have hdir : ∀ o, (o < up_board_pins.length ∨ ∀ B, okB B) →
      okB (u32 (pin_at up_board_pins o).dir_ctrl_offset) := by
    intro o h
    rcases h with h | h
    · exact hok _ (by have := shipped_dir_offset o h; omega)
    · exact h _
  cases op with
  | set_mux fn g => exact set_mux_loop_inv f good okB hf hok _ _ hinv
  | request_enable o => exact request_enable_inv f good okB hf hok _ o hinv
  | disable_free o => exact disable_free_inv f good okB hf hok _ o hinv
  | set_direction o input => exact set_direction_inv f good okB hf _ o input hinv (hdir o hvalid)
  | dir_in o =>
    show pdata_inv f good (up_gpio_dir_in k o).2.pdata
    rw [gpio_dir_in_pdata]
    split
    · exact hinv
    · exact set_direction_inv f good okB hf _ o true hinv (hdir o hvalid)
  | dir_out o v =>
    show pdata_inv f good (up_gpio_dir_out k o v).2.pdata
    rw [gpio_dir_out_pdata]
    exact set_direction_inv f good okB hf _ o false hinv (hdir o hvalid)
  | request o =>
    show pdata_inv f good (up_gpio_request k o).2.pdata
    rw [gpio_request_pdata]
    split
    · exact request_enable_inv f good okB hf hok _ o hinv
    · exact set_direction_inv f good okB hf _ o _
        (request_enable_inv f good okB hf hok _ o hinv) (hdir o hvalid)
  | free o => exact disable_free_inv f good okB hf hok _ o hinv
  | led_set led v =>
    obtain ⟨h1, h2, h3, h4⟩ := hinv
    refine ⟨h1, h2, h3, ?_⟩
    show good (k.pdata.reg_set_bit k.pdata.cpld led.offset _).2
    rw [h1]
    apply hf _ _ _ _ h4
    rcases hvalid with h | h
    · apply hok
      simp only [consumer_op.valid, up_board_leds, List.map_cons, List.map_nil,
        List.mem_cons, List.mem_singleton, List.mem_nil_iff, or_false] at h
      omega
    · exact h _

/-- Every sequence of consumer operations keeps `pdata_inv`, when each of them
addresses the shipped tables or every offset is admitted. -/
theorem run_ops_inv {σ : Type} (f : σ → Nat → Int → Int × σ) (good : σ → Prop)
    (okB : Nat → Prop) (hf : ∀ s B V, okB B → good s → good (f s B V).2)
    (hok : ∀ B, B < 34 → okB B) (ops : List consumer_op) :
    ((∀ op ∈ ops, op.valid) ∨ ∀ B, okB B) → ∀ k : gpio_kernel σ,
      pdata_inv f good k.pdata → pdata_inv f good (run_ops k ops).pdata := by
  induction ops with
  | nil => intro _ k h; exact h
  | cons op rest ih =>
    intro hvalid k h
    show pdata_inv f good (run_ops (run_op k op) rest).pdata
    apply ih
    · rcases hvalid with hv | hv
      · exact Or.inl fun x hx => hv x (List.mem_cons_of_mem _ hx)
      · exact Or.inr hv
    · apply run_op_inv f good okB hf hok k op _ h
      rcases hvalid with hv | hv
      · exact Or.inl (hv op (List.mem_cons_self _ _))
      · exact Or.inr hv

/-! ## Monotonicity of `func_enabled` -/

/-- One iteration of the loop of `up_pinmux_set_mux` leaves each pin entry as it
was or sets its flag. -/
theorem set_mux_pin_pins_mono {σ : Type} (pd : up_board_pinctrl_pdata σ) (o q : Nat) :
    pin_at (up_pinmux_set_mux_pin pd o).2.pins q = pin_at pd.pins q
    ∨ pin_at (up_pinmux_set_mux_pin pd o).2.pins q
        = { pin_at pd.pins q with func_enabled := true } := by
  rw [(set_mux_pin_frame pd o).2.2]
  split
  · rw [pin_at_set]
    split
    · rename_i h
      right
      rw [h.1]
    · left; rfl
  · left; rfl

/-- The loop of `up_pinmux_set_mux` leaves each pin entry as it was or sets its
flag, whatever it returns. -/
theorem set_mux_loop_pins_mono {σ : Type} (l : List Nat) :
    ∀ (pd : up_board_pinctrl_pdata σ) (q : Nat),
      pin_at (up_pinmux_set_mux_loop l pd).2.pins q = pin_at pd.pins q
      ∨ pin_at (up_pinmux_set_mux_loop l pd).2.pins q
          = { pin_at pd.pins q with func_enabled := true } := by
  induction l with
  | nil => intro pd q; left; rfl
  | cons o rest ih =>
    intro pd q
    rw [up_pinmux_set_mux_loop]
    split
    · exact set_mux_pin_pins_mono pd o q
    · rcases ih (up_pinmux_set_mux_pin pd o).2 q with h | h <;>
        rcases set_mux_pin_pins_mono pd o q with h1 | h1 <;> rw [h, h1]
      · left; rfl
      · right; rfl
      · right; rfl
      · right; rfl

/-- Every consumer operation other than `up_pinmux_set_mux` leaves the pin
table as it was. -/
theorem run_op_pins {σ : Type} (k : gpio_kernel σ) (op : consumer_op)
    (h : ∀ fn g, op ≠ consumer_op.set_mux fn g) : (run_op k op).pdata.pins = k.pdata.pins := by
  cases op with
  | set_mux fn g => exact absurd rfl (h fn g)
  | request_enable o => exact (request_enable_frame _ o).1
  | disable_free o => exact (disable_free_frame _ o).1
  | set_direction o input => rfl
  | dir_in o =>
    show (up_gpio_dir_in k o).2.pdata.pins = _
    rw [gpio_dir_in_pdata]
    split <;> rfl
  | dir_out o v =>
    show (up_gpio_dir_out k o v).2.pdata.pins = _
    rw [gpio_dir_out_pdata]
    rfl
  | request o =>
    show (up_gpio_request k o).2.pdata.pins = _
    rw [gpio_request_pdata]
    split
    · exact (request_enable_frame _ o).1
    · exact (set_direction_frame _ o _).1.trans (request_enable_frame _ o).1
  | free o => exact (disable_free_frame _ o).1
  | led_set led v => rfl

/-- A set flag stays set under every consumer operation. -/
theorem run_op_flag {σ : Type} (k : gpio_kernel σ) (op : consumer_op) (q : Nat)
    (h : (pin_at k.pdata.pins q).func_enabled = true) :
    (pin_at (run_op k op).pdata.pins q).func_enabled = true := by
  by_cases hop : ∀ fn g, op ≠ consumer_op.set_mux fn g
  · rw [run_op_pins k op hop]
    exact h
  · push_neg at hop
    obtain ⟨fn, g, rfl⟩ := hop
    rcases set_mux_loop_pins_mono (k.pdata.groups.getD g []) k.pdata q with h1 | h1
    · exact (congrArg up_board_pin_info.func_enabled h1).trans h
    · exact congrArg up_board_pin_info.func_enabled h1

/-- A set flag stays set under every sequence of consumer operations. -/
theorem run_ops_flag {σ : Type} (ops : List consumer_op) (q : Nat) :
    ∀ k : gpio_kernel σ, (pin_at k.pdata.pins q).func_enabled = true →
      (pin_at (run_ops k ops).pdata.pins q).func_enabled = true := by
  induction ops with
  | nil => intro k h; exact h
  | cons op rest ih =>
    intro k h
    exact ih (run_op k op) (run_op_flag k op q h)

/-! ## Release of a pin whose function has been selected -/

/-- The register store keeps its value a `u64`, whatever the offset. -/
theorem set_bit_keeps_u64 (s : up_board_cpld) (B : Nat) (V : Int) (_hB : True)
    (h : s.dir_reg < 2 ^ 64) : (up_board_cpld_reg_set_bit s B V).2.dir_reg < 2 ^ 64 := by
  rw [set_bit_dir_reg]
  exact new_dir_reg_lt_u64 B V h

/-- Under the layout of the shipped table, a pin index below 28 lies within
the pin table. -/
theorem layout_index_lt (pins : List up_board_pin_info)
    (hL : ∀ q, same_layout (pin_at pins q) (pin_at up_board_pins q)) (P : Nat) (hP : P < 28) :
    P < pins.length := by
  by_contra hge
  obtain ⟨hd, _, _⟩ := hL P
  have h1 := shipped_dir_offset P hP
  rw [← hd, pin_at_ge pins P (by omega)] at h1
  revert h1
  decide

/-- Release of a flagged group pin over the register store: in the stored
register the direction bit of the pin holds its function-direction and its mux
bit, if it has one, holds 1. -/
theorem disable_free_restores (pd : up_board_pinctrl_pdata up_board_cpld) (g P : Nat)
    (hinv : pdata_inv up_board_cpld_reg_set_bit (fun s => s.dir_reg < 2 ^ 64) pd)
    (hP : P ∈ up_board_pinctrl_groups.getD g [])
    (hflag : (pin_at pd.pins P).func_enabled = true) :
    (up_gpio_disable_free pd P).cpld.dir_reg.testBit
        (u32 (pin_at up_board_pins P).dir_ctrl_offset)
      = decide ((pin_at up_board_pins P).func_dir = UP_BOARD_PDIR_IN)
    ∧ ((pin_at up_board_pins P).mux_ctrl_offset ≠ UP_BOARD_UNASSIGNED →
        (up_gpio_disable_free pd P).cpld.dir_reg.testBit
          (u32 (pin_at up_board_pins P).mux_ctrl_offset) = true) := by
  obtain ⟨hcb, _, hL, hR⟩ := hinv
  obtain ⟨hd, hm, hfd⟩ := hL P
  obtain ⟨hfd', hd0, hd1, hmux⟩ := (shipped_group_ok g).1 P hP
  rw [disable_free_real_reg pd P hcb, if_pos hflag]
  have hs := (@pin_reg_spec (pin_at pd.pins P) pd.cpld.dir_reg hR (by rw [hfd]; exact hfd')
    (by rw [hd]; exact hd0) (by rw [hd]; exact hd1) (by rw [hm]; exact hmux)).2
  rw [hd, hm, hfd] at hs
  constructor
  · rw [hs, if_pos rfl]
  · intro hne
    have h1 := shipped_dir_offset P (shipped_group_in_range g P hP)
    have h2 := (shipped_mux_offset P hne).1
    rw [hs, if_neg (by omega), if_pos ⟨hne, rfl⟩]

/-- C26: the `func_enabled` flag is monotone.  It is false in every entry of
the shipped pin table; every consumer operation other than `up_pinmux_set_mux`
(the three GPIO operations of the pinmux, the four operations of
`up_board_gpio.c`, the LED operation) leaves the pin table as it was;
`up_pinmux_set_mux` leaves each entry as it was or sets its flag, whatever it
returns; hence a set flag stays set under every sequence of operations.  On
the shipped board with a `u64` register, reached by any operations `ops1`: once
`up_pinmux_set_mux` has returned 0 for a group containing pin `P`, then after
any further operations `ops2` the flag of `P` is set and `up_gpio_disable_free`
for `P` leaves the stored register with the direction bit of `P` at its
function-direction and its mux bit, if it has one, at 1. -/
theorem func_enabled_monotone (c : up_board_cpld) (en : Nat → Bool) (soc_ret : Nat → Int)
    (ops1 ops2 : List consumer_op) (fn g P : Nat)
    (hR : c.dir_reg < 2 ^ 64) (hP : P ∈ up_board_pinctrl_groups.getD g [])
    (hsel : (up_pinmux_set_mux (run_ops (gpio_kernel_of c en soc_ret) ops1).pdata fn g).1 = 0) :
    (∀ p ∈ up_board_pins, p.func_enabled = false)
    ∧ (∀ (σ : Type) (k : gpio_kernel σ) (op : consumer_op),
        (∀ fn g, op ≠ consumer_op.set_mux fn g) → (run_op k op).pdata.pins = k.pdata.pins)
    ∧ (∀ (σ : Type) (pd : up_board_pinctrl_pdata σ) (fn g q : Nat),
        pin_at (up_pinmux_set_mux pd fn g).2.pins q = pin_at pd.pins q
        ∨ pin_at (up_pinmux_set_mux pd fn g).2.pins q
            = { pin_at pd.pins q with func_enabled := true })
    ∧ (∀ (σ : Type) (k : gpio_kernel σ) (ops : List consumer_op) (q : Nat),
        (pin_at k.pdata.pins q).func_enabled = true →
          (pin_at (run_ops k ops).pdata.pins q).func_enabled = true)
    ∧ (pin_at (run_ops (run_op (run_ops (gpio_kernel_of c en soc_ret) ops1)
          (consumer_op.set_mux fn g)) ops2).pdata.pins P).func_enabled = true
    ∧ (up_gpio_disable_free (run_ops (run_op (run_ops (gpio_kernel_of c en soc_ret) ops1)
          (consumer_op.set_mux fn g)) ops2).pdata P).cpld.dir_reg.testBit
          (u32 (pin_at up_board_pins P).dir_ctrl_offset)
        = decide ((pin_at up_board_pins P).func_dir = UP_BOARD_PDIR_IN)
    ∧ ((pin_at up_board_pins P).mux_ctrl_offset ≠ UP_BOARD_UNASSIGNED →
        (up_gpio_disable_free (run_ops (run_op (run_ops (gpio_kernel_of c en soc_ret) ops1)
          (consumer_op.set_mux fn g)) ops2).pdata P).cpld.dir_reg.testBit
          (u32 (pin_at up_board_pins P).mux_ctrl_offset) = true) := by
  have hinv0 : pdata_inv up_board_cpld_reg_set_bit (fun s => s.dir_reg < 2 ^ 64)
      (gpio_kernel_of c en soc_ret).pdata :=
    ⟨rfl, rfl, fun q => pin_at_with_func_enabled en up_board_pins 0 q, hR⟩
  have hinv1 := run_ops_inv up_board_cpld_reg_set_bit (fun s => s.dir_reg < 2 ^ 64)
    (fun _ => True) set_bit_keeps_u64 (fun _ _ => trivial) ops1 (Or.inr fun _ => trivial)
    _ hinv0
  generalize run_ops (gpio_kernel_of c en soc_ret) ops1 = k1 at hsel hinv1 ⊢
  have hlen := layout_index_lt _ hinv1.2.2.1 P (shipped_group_in_range g P hP)
  have hmem : P ∈ k1.pdata.groups.getD g [] := by rw [hinv1.2.1]; exact hP
  have hflag2 : (pin_at (run_op k1 (consumer_op.set_mux fn g)).pdata.pins P).func_enabled
      = true := by
    show (pin_at (up_pinmux_set_mux_loop (k1.pdata.groups.getD g []) k1.pdata).2.pins P).func_enabled
      = true
    rw [set_mux_loop_pins _ _ hsel P, if_pos ⟨hmem, hlen⟩]
  have hinv2 := run_op_inv up_board_cpld_reg_set_bit (fun s => s.dir_reg < 2 ^ 64)
    (fun _ => True) set_bit_keeps_u64 (fun _ _ => trivial) k1 (consumer_op.set_mux fn g)
    (Or.inr fun _ => trivial) hinv1
  have hinv3 := run_ops_inv up_board_cpld_reg_set_bit (fun s => s.dir_reg < 2 ^ 64)
    (fun _ => True) set_bit_keeps_u64 (fun _ _ => trivial) ops2 (Or.inr fun _ => trivial)
    _ hinv2
  have hflag3 := run_ops_flag ops2 P _ hflag2
  have hrel := disable_free_restores _ g P hinv3 hP hflag3
  refine ⟨by decide, fun σ k op h => run_op_pins k op h,
    fun σ pd fn g q => set_mux_loop_pins_mono (pd.groups.getD g []) pd q,
    fun σ k ops q h => run_ops_flag ops q k h, hflag3, hrel.1, hrel.2⟩

set_option maxRecDepth 100000 in
/-- Witness for C26: from the initial register on hardware that echoes
`0x0EFFFFFF`, group 6 (`pwm0_grp`, pin 12, direction bit 24, OUT) is selected
and verifies; pin 12 is then turned to input, claimed, released and turned to
input again; a release of pin 12 puts bit 24 back to 0 (OUT). -/
theorem func_enabled_monotone_witness :
    (up_board_cpld_init (soc_echo 0x0EFFFFFF)).dir_reg < 2 ^ 64
    ∧ 12 ∈ up_board_pinctrl_groups.getD 6 []
    ∧ (up_pinmux_set_mux (run_ops (gpio_kernel_of (up_board_cpld_init (soc_echo 0x0EFFFFFF))
          (fun _ => false) (fun _ => 0)) []).pdata 6 6).1 = 0
    ∧ (run_ops (run_op (run_ops (gpio_kernel_of (up_board_cpld_init (soc_echo 0x0EFFFFFF))
          (fun _ => false) (fun _ => 0)) []) (consumer_op.set_mux 6 6))
          [consumer_op.set_direction 12 true, consumer_op.request_enable 12,
           consumer_op.disable_free 12, consumer_op.set_direction 12 true]).pdata.cpld.dir_reg.testBit 24
        = true
    ∧ (up_gpio_disable_free (run_ops (run_op (run_ops (gpio_kernel_of
          (up_board_cpld_init (soc_echo 0x0EFFFFFF)) (fun _ => false) (fun _ => 0)) [])
          (consumer_op.set_mux 6 6))
          [consumer_op.set_direction 12 true, consumer_op.request_enable 12,
           consumer_op.disable_free 12, consumer_op.set_direction 12 true]).pdata
          12).cpld.dir_reg.testBit (u32 (pin_at up_board_pins 12).dir_ctrl_offset)
        = decide ((pin_at up_board_pins 12).func_dir = UP_BOARD_PDIR_IN) :=
  ⟨by decide, by decide, by decide, by decide,
    (func_enabled_monotone (up_board_cpld_init (soc_echo 0x0EFFFFFF)) (fun _ => false)
      (fun _ => 0) []
      [consumer_op.set_direction 12 true, consumer_op.request_enable 12,
       consumer_op.disable_free 12, consumer_op.set_direction 12 true]
      6 6 12 (by decide) (by decide) (by decide)).2.2.2.2.2.1⟩



/-! ## The register width -/

/-- The register store keeps its value below `2 ^ 34` for an offset below 34. -/
theorem set_bit_keeps_width (s : up_board_cpld) (B : Nat) (V : Int) (hB : B < 34)
    (h : s.dir_reg < 2 ^ 34) : (up_board_cpld_reg_set_bit s B V).2.dir_reg < 2 ^ 34 := by
  rw [set_bit_dir_reg]
  exact new_dir_reg_lt_width V h hB

/-- The recorded register store keeps its value below `2 ^ 34` and its recorded
offsets below 34 for an offset below 34. -/
theorem recording_keeps_width (s : up_board_cpld × List reg_set_bit_record) (B : Nat) (V : Int)
    (hB : B < 34) (h : s.1.dir_reg < 2 ^ 34 ∧ ∀ r ∈ s.2, r.offset < 34) :
    (recording up_board_cpld_reg_set_bit s B V).2.1.dir_reg < 2 ^ 34
    ∧ ∀ r ∈ (recording up_board_cpld_reg_set_bit s B V).2.2, r.offset < 34 := by
  constructor
  · exact set_bit_keeps_width s.1 B V hB h.1
  · intro r hr
    rcases List.mem_append.mp hr with h1 | h1
    · exact h.2 r h1
    · rw [List.mem_singleton.mp h1]
      exact hB

set_option maxRecDepth 100000 in
/-- C27: the shipped tables.  The pin table has 28 entries whose
direction-control offsets are pairwise distinct and are exactly the values
0..27; every mux-control offset is unassigned or one of 28, 29, 30; the LED
offsets are 31, 32, 33; every pin index listed in a group is below 28 and has a
function-direction other than NONE; as `set_bit` offsets, no direction offset
equals a mux offset, and neither equals an LED offset.  Hence, from the initial
register value and for every sequence `ops` of consumer operations that
address the shipped tables, the stored register stays below `2 ^ 34`; and with
the `set_bit` calls recorded, every offset passed to `set_bit` is below 34. -/
theorem shipped_tables_within_width (soc : Soc) (en : Nat → Bool) (soc_ret : Nat → Int)
    (ops : List consumer_op) (hvalid : ∀ op ∈ ops, op.valid) :
    up_board_pins.length = 28
    ∧ (up_board_pins.map fun p => p.dir_ctrl_offset).Nodup
    ∧ (∀ p ∈ up_board_pins, 0 ≤ p.dir_ctrl_offset ∧ p.dir_ctrl_offset < 28)
    ∧ (∀ v : Nat, v < 28 → ∃ p ∈ up_board_pins, p.dir_ctrl_offset = v)
    ∧ (∀ p ∈ up_board_pins, p.mux_ctrl_offset = UP_BOARD_UNASSIGNED
        ∨ p.mux_ctrl_offset = 28 ∨ p.mux_ctrl_offset = 29 ∨ p.mux_ctrl_offset = 30)
    ∧ (up_board_leds.map fun l => l.cpld_offset) = [31, 32, 33]
    ∧ (∀ grp ∈ up_board_pinctrl_groups, ∀ p ∈ grp,
        p < 28 ∧ (pin_at up_board_pins p).func_dir ≠ UP_BOARD_PDIR_NONE)
    ∧ (∀ p ∈ up_board_pins, ∀ q ∈ up_board_pins,
        u32 p.dir_ctrl_offset ≠ u32 q.mux_ctrl_offset)
    ∧ (∀ p ∈ up_board_pins, ∀ l ∈ up_board_leds,
        u32 p.dir_ctrl_offset ≠ l.cpld_offset ∧ u32 p.mux_ctrl_offset ≠ l.cpld_offset)
    ∧ (up_board_cpld_init soc).dir_reg < 2 ^ 34
    ∧ (up_board_cpld_init soc).dir_reg_size = 34
    ∧ (run_ops (gpio_kernel_of (up_board_cpld_init soc) en soc_ret) ops).pdata.cpld.dir_reg
        < 2 ^ 34
    ∧ (run_ops (gpio_kernel_recording (up_board_cpld_init soc) en soc_ret) ops).pdata.cpld.1.dir_reg
        < 2 ^ 34
    ∧ (∀ r ∈ (run_ops (gpio_kernel_recording (up_board_cpld_init soc) en soc_ret) ops).pdata.cpld.2,
        r.offset < 34) := by
  have hinit : (up_board_cpld_init soc).dir_reg < 2 ^ 34 := by
    show CPLD_DIR_REG_INIT < 2 ^ 34
    decide
  have h1 := run_ops_inv up_board_cpld_reg_set_bit (fun s => s.dir_reg < 2 ^ 34)
    (fun B => B < 34) set_bit_keeps_width (fun _ h => h) ops (Or.inl hvalid)
    (gpio_kernel_of (up_board_cpld_init soc) en soc_ret)
    ⟨rfl, rfl, fun q => pin_at_with_func_enabled en up_board_pins 0 q, hinit⟩
  have h2 := run_ops_inv (recording up_board_cpld_reg_set_bit)
    (fun s => s.1.dir_reg < 2 ^ 34 ∧ ∀ r ∈ s.2, r.offset < 34)
    (fun B => B < 34) recording_keeps_width (fun _ h => h) ops (Or.inl hvalid)
    (gpio_kernel_recording (up_board_cpld_init soc) en soc_ret)
    ⟨rfl, rfl, fun q => pin_at_with_func_enabled en up_board_pins 0 q, hinit,
      fun r hr => absurd hr (List.not_mem_nil r)⟩
  exact ⟨by decide, by decide, by decide, by decide, by decide, by decide, by decide,
    by decide, by decide, hinit, rfl, h1.2.2.2, h2.2.2.2.1, h2.2.2.2.2⟩

set_option maxRecDepth 100000 in
/-- Witness for C27: on hardware stuck low, group 2 is selected, pin 0 is
requested, pin 5 is turned to output, the LED at offset 32 is lit, pin 0 is
freed and pin 27 is turned to input. -/
theorem shipped_tables_within_width_witness :
    (∀ op ∈ [consumer_op.set_mux 0 2, consumer_op.request 0, consumer_op.dir_out 5 1,
        consumer_op.led_set { offset := 32 } 1, consumer_op.free 0,
        consumer_op.set_direction 27 true], op.valid)
    ∧ (run_ops (gpio_kernel_of (up_board_cpld_init soc_stuck_low) (fun _ => false) (fun _ => 0))
        [consumer_op.set_mux 0 2, consumer_op.request 0, consumer_op.dir_out 5 1,
         consumer_op.led_set { offset := 32 } 1, consumer_op.free 0,
         consumer_op.set_direction 27 true]).pdata.cpld.dir_reg.testBit 32 = true
    ∧ (run_ops (gpio_kernel_of (up_board_cpld_init soc_stuck_low) (fun _ => false) (fun _ => 0))
        [consumer_op.set_mux 0 2, consumer_op.request 0, consumer_op.dir_out 5 1,
         consumer_op.led_set { offset := 32 } 1, consumer_op.free 0,
         consumer_op.set_direction 27 true]).pdata.cpld.dir_reg < 2 ^ 34 :=
  ⟨by decide, by decide,
    (shipped_tables_within_width soc_stuck_low (fun _ => false) (fun _ => 0)
      [consumer_op.set_mux 0 2, consumer_op.request 0, consumer_op.dir_out 5 1,
       consumer_op.led_set { offset := 32 } 1, consumer_op.free 0,
       consumer_op.set_direction 27 true] (by decide)).2.2.2.2.2.2.2.2.2.2.2.1⟩

end UpBoard
